import Mathlib

/-!
# Value aggregation of the search tree (search/searchupdatehelpers.cpp), the GTP front end (command/gtp.cpp) and helpers of the Eigen backend (neuralnet/eigenbackend.cpp)

A shallow embedding of the stats-update helpers of the search:
`addLeafValue`, `addCurrentNNOutputAsLeafValue`, `computeWeightFromNNOutput`,
`updateStatsAfterPlayout`, `recomputeNodeStats`,
`downweightBadChildrenAndNormalizeWeight` and `pruneNoiseWeight`; and of the
position and parameter handling of the GTP loop: `knownCommands`, the command
dispatcher, `filterDoubleNewlines`, the `kata-set-param` handler,
`GTPEngine::setPosition`, `play` and `undo`, `parseAnalyzeCommand` and
`filterZeroVisitMoves`; and of the Winograd transforms and workspace layout of
`ConvLayer` and of `poolRowsGPool`.

Conventions of the embedding.

* A C++ `double` is an element of a linearly ordered field `K` (exact
  arithmetic; rounding, infinities and NaN are not modelled).  Every
  definition is computable, so it runs on `ℚ`, and it can be read on `ℝ`.
  Division is the field's total division (`x / 0 = 0`); no theorem below relies
  on a quotient whose divisor can be zero under its hypotheses, except where
  both sides of an equation carry the same quotient.
* `int64_t` / `int32_t` counters are mathematical integers (their ranges are
  not reached by the visit and dirty counters).
* The libm functions and the members of the repository that live outside this
  translation unit (`getResultUtility`, `NodeStats::getChildWeight`,
  `DistributionTable::getCdf`, `getPos`, `supportsShorttermError`) are the
  fields of `Externals`; nothing is assumed about them except where a theorem
  says so.
* Atomic stores under `statsLock` are modelled by returning the new stats.
* The board, the history, the rules, the bot and the string parsers used by the
  GTP engine are the fields of `GTPExternals`; an engine method returns its
  result together with the engine after the call.  The parsers called by
  `parseAnalyzeCommand` are the fields of `AnalyzeExternals`.
* A `float` of the Eigen backend is an element of `K` as well; `size_t` and
  `int` sizes and offsets are natural numbers (no wrap-around).
* The section on double arithmetic repeats the update helpers with a rounding
  function applied after every arithmetic operation; with `roundDouble` on `ℚ`
  they compute what the code computes in binary64, away from overflow and
  underflow.  A theorem stated in exact arithmetic is about the first reading,
  a theorem stated in double arithmetic about the second.
-/

namespace KataSearch

/-! ## Data model -/

/-- The aggregates of one node (`NodeStats` of search/searchnode.h). -/
structure NodeStats (K : Type) where
  visits : Int
  winLossValueAvg : K
  noResultValueAvg : K
  utilityAvg : K
  utilitySqAvg : K
  weightSum : K
  weightSqSum : K
deriving DecidableEq, Repr

/-- The entries of `thread.statsBuf` (`MoreNodeStats`). -/
structure MoreNodeStats (K : Type) where
  stats : NodeStats K
  selfUtility : K
  weightAdjusted : K
  prevMoveLoc : Nat
deriving DecidableEq, Repr

/-- The fields of `NNOutput` that the update helpers read. -/
structure NNOutput (K : Type) where
  whiteWinProb : K
  whiteLossProb : K
  whiteNoResultProb : K
  shorttermWinlossError : K
  /-- The array returned by `getPolicyProbsMaybeNoised()`. -/
  policyProbs : Nat → K

/-- The fields of `SearchParams` that the update helpers read. -/
structure SearchParams (K : Type) where
  winLossUtilityFactor : K
  valueWeightExponent : K
  useNoisePruning : Bool
  noisePruneUtilityScale : K
  noisePruningCap : K
  useUncertainty : Bool
  uncertaintyCoeff : K
  uncertaintyExponent : K
  uncertaintyMaxWeight : K
  rootNoiseEnabled : Bool
  chosenMoveSubtract : K
  chosenMovePrune : K

/-- What the translation unit calls but does not define: libm (`exp`, `sqrt`,
`pow`) and members declared in headers that are defined elsewhere. -/
structure Externals (K : Type) where
  exp : K → K
  sqrt : K → K
  pow : K → K → K
  /-- The call `valueWeightDistribution->getCdf(z)`. -/
  getCdf : K → K
  /-- The call `Search::getResultUtility(winLossValue, noResultValue)`. -/
  getResultUtility : K → K → K
  /-- The call `NodeStats::getChildWeight(edgeVisits)`. -/
  getChildWeight : NodeStats K → Int → K
  /-- The call `Search::getPos(moveLoc)`. -/
  getPos : Nat → Nat
  /-- The call `nnEvaluator->supportsShorttermError()`. -/
  supportsShorttermError : Bool

/-- Colour to move at a node (`node.nextPla`). -/
inductive Player where
  | black
  | white
deriving DecidableEq, Repr

/-- One slot of a node's children array (`SearchChildPointer`):
`getIfAllocated()`, `getMoveLocRelaxed()` and `getEdgeVisits()`. -/
structure SearchChildPointer (K : Type) where
  ifAllocated : Option (NodeStats K)
  moveLoc : Nat
  edgeVisits : Int

/-- The parts of a `SearchNode` read or written by the update helpers. -/
structure SearchNode (K : Type) where
  nextPla : Player
  nnOutput : NNOutput K
  children : List (SearchChildPointer K)
  stats : NodeStats K
  dirtyCounter : Int

section Defs

variable {K : Type} [LinearOrderedField K]

/-! ## addLeafValue -/

set_option linter.unusedVariables false in
/-- Embeds `Search::addLeafValue`: the stats of the node after the call.
`isTerminal` is accepted and unused, as in the source. -/
def addLeafValue (E : Externals K) (stats : NodeStats K)
    (winLossValue noResultValue weight : K) (isTerminal : Bool)
    (assumeNoExistingWeight : Bool) : NodeStats K :=
  let utility := E.getResultUtility winLossValue noResultValue
  let utilitySq := utility * utility
  let weightSq := weight * weight
  if assumeNoExistingWeight then
    { winLossValueAvg := winLossValue
      noResultValueAvg := noResultValue
      utilityAvg := utility
      utilitySqAvg := utilitySq
      weightSqSum := weightSq
      weightSum := weight
      visits := stats.visits + 1 }
  else
    let oldWeightSum := stats.weightSum
    let newWeightSum := oldWeightSum + weight
    { winLossValueAvg := (stats.winLossValueAvg * oldWeightSum + winLossValue * weight) / newWeightSum
      noResultValueAvg := (stats.noResultValueAvg * oldWeightSum + noResultValue * weight) / newWeightSum
      utilityAvg := (stats.utilityAvg * oldWeightSum + utility * weight) / newWeightSum
      utilitySqAvg := (stats.utilitySqAvg * oldWeightSum + utilitySq * weight) / newWeightSum
      weightSqSum := stats.weightSqSum + weightSq
      weightSum := newWeightSum
      visits := stats.visits + 1 }

/-! ## computeWeightFromNNOutput -/

/-- The local `poweredUncertainty` of `Search::computeWeightFromNNOutput`. -/
def poweredUncertainty (E : Externals K) (searchParams : SearchParams K)
    (nnOutput : NNOutput K) : K :=
  let utilityUncertaintyWL := searchParams.winLossUtilityFactor * nnOutput.shorttermWinlossError
  let utilityUncertainty := utilityUncertaintyWL
  if searchParams.uncertaintyExponent = 1 then utilityUncertainty
  else if searchParams.uncertaintyExponent = 1 / 2 then E.sqrt utilityUncertainty
  else E.pow utilityUncertainty searchParams.uncertaintyExponent

/-- Embeds `Search::computeWeightFromNNOutput`. -/
def computeWeightFromNNOutput (E : Externals K) (searchParams : SearchParams K)
    (nnOutput : NNOutput K) : K :=
  if !searchParams.useUncertainty then 1
  else if !E.supportsShorttermError then 1
  else
    let baselineUncertainty := searchParams.uncertaintyCoeff / searchParams.uncertaintyMaxWeight
    let weight := searchParams.uncertaintyCoeff /
      (poweredUncertainty E searchParams nnOutput + baselineUncertainty)
    weight

/-- Embeds `Search::addCurrentNNOutputAsLeafValue`. -/
def addCurrentNNOutputAsLeafValue (E : Externals K) (searchParams : SearchParams K)
    (node : SearchNode K) (assumeNoExistingWeight : Bool) : NodeStats K :=
  let nnOutput := node.nnOutput
  let winProb := nnOutput.whiteWinProb
  let lossProb := nnOutput.whiteLossProb
  let noResultProb := nnOutput.whiteNoResultProb
  let weight := computeWeightFromNNOutput E searchParams nnOutput
  addLeafValue E node.stats (winProb - lossProb) noResultProb weight false assumeNoExistingWeight

/-- The leaf weight as section 4.3.3 of the specification words it: 1 when
uncertainty weighting is disabled or the backend supplies no short-term error,
otherwise `uncertaintyCoeff / (pow(utilityUncertainty, uncertaintyExponent) + baseline)`. -/
def specLeafWeight (E : Externals K) (searchParams : SearchParams K)
    (nnOutput : NNOutput K) : K :=
  if searchParams.useUncertainty = false ∨ E.supportsShorttermError = false then 1
  else
    let utilityUncertainty := searchParams.winLossUtilityFactor * nnOutput.shorttermWinlossError
    let baseline := searchParams.uncertaintyCoeff / searchParams.uncertaintyMaxWeight
    searchParams.uncertaintyCoeff /
      (E.pow utilityUncertainty searchParams.uncertaintyExponent + baseline)

/-! ## pruneNoiseWeight -/

/-- The value of `newWeight` at the end of one iteration of the loop of
`Search::pruneNoiseWeight`, from the three running sums, the child's
`selfUtility` and `weightAdjusted`, and its `policyProbsBuf` entry. -/
def pruneNoiseNewWeight (E : Externals K) (searchParams : SearchParams K)
    (utilitySumSoFar weightSumSoFar rawPolicySumSoFar utility oldWeight rawPolicy : K) : K :=
  if weightSumSoFar > 0 ∧ rawPolicySumSoFar > 0 then
    let avgUtilitySoFar := utilitySumSoFar / weightSumSoFar
    let utilityGap := avgUtilitySoFar - utility
    if utilityGap > 0 then
      let weightShareFromRawPolicy := weightSumSoFar * rawPolicy / rawPolicySumSoFar
      let lenientWeightShareFromRawPolicy := 2 * weightShareFromRawPolicy
      if oldWeight > lenientWeightShareFromRawPolicy then
        let excessWeight := oldWeight - lenientWeightShareFromRawPolicy
        let weightToSubtract :=
          excessWeight * (1 - E.exp (-utilityGap / searchParams.noisePruneUtilityScale))
        let weightToSubtract :=
          if weightToSubtract > searchParams.noisePruningCap then searchParams.noisePruningCap
          else weightToSubtract
        oldWeight - weightToSubtract
      else oldWeight
    else oldWeight
  else oldWeight

/-- The `for` loop of `Search::pruneNoiseWeight` from index `i` on: the updated
entries and the final `weightSumSoFar`. -/
def pruneNoiseLoop (E : Externals K) (searchParams : SearchParams K) (policyProbsBuf : Nat → K) :
    Nat → List (MoreNodeStats K) → K → K → K → List (MoreNodeStats K) × K
  | _, [], _, weightSumSoFar, _ => ([], weightSumSoFar)
  | i, s :: rest, utilitySumSoFar, weightSumSoFar, rawPolicySumSoFar =>
    let utility := s.selfUtility
    let oldWeight := s.weightAdjusted
    let rawPolicy := policyProbsBuf i
    let newWeight := pruneNoiseNewWeight E searchParams
      utilitySumSoFar weightSumSoFar rawPolicySumSoFar utility oldWeight rawPolicy
    let r := pruneNoiseLoop E searchParams policyProbsBuf (i + 1) rest
      (utilitySumSoFar + utility * newWeight) (weightSumSoFar + newWeight)
      (rawPolicySumSoFar + rawPolicy)
    ({ s with weightAdjusted := newWeight } :: r.1, r.2)

/-- Embeds `Search::pruneNoiseWeight`: the buffer after the call and the returned
value.  Only the first `numChildren` entries of `statsBuf` are visited. -/
def pruneNoiseWeight (E : Externals K) (searchParams : SearchParams K)
    (statsBuf : List (MoreNodeStats K)) (numChildren : Int) (totalChildWeight : K)
    (policyProbsBuf : Nat → K) : List (MoreNodeStats K) × K :=
  if numChildren ≤ 1 ∨ totalChildWeight ≤ 1 / 100000 then (statsBuf, totalChildWeight)
  else
    let r := pruneNoiseLoop E searchParams policyProbsBuf 0
      (statsBuf.take numChildren.toNat) 0 0 0
    (r.1 ++ statsBuf.drop numChildren.toNat, r.2)

/-! ## downweightBadChildrenAndNormalizeWeight -/

/-- The first loop of the `valueWeightExponent == 0` branch: the entries after
pruning and subtraction, and the updated `currentTotalWeight`. -/
def subtractPruneLoop (amountToSubtract amountToPrune : K) :
    List (MoreNodeStats K) → K → List (MoreNodeStats K) × K
  | [], currentTotalWeight => ([], currentTotalWeight)
  | s :: rest, currentTotalWeight =>
    if s.weightAdjusted < amountToPrune then
      let r := subtractPruneLoop amountToSubtract amountToPrune rest
        (currentTotalWeight - s.weightAdjusted)
      ({ s with weightAdjusted := 0 } :: r.1, r.2)
    else
      let newWeight := s.weightAdjusted - amountToSubtract
      if newWeight ≤ 0 then
        let r := subtractPruneLoop amountToSubtract amountToPrune rest
          (currentTotalWeight - s.weightAdjusted)
        ({ s with weightAdjusted := 0 } :: r.1, r.2)
      else
        let r := subtractPruneLoop amountToSubtract amountToPrune rest
          (currentTotalWeight - amountToSubtract)
        ({ s with weightAdjusted := newWeight } :: r.1, r.2)

/-- The loop `statsBuf[i].weightAdjusted *= factor`. -/
def scaleWeights (factor : K) (statsBuf : List (MoreNodeStats K)) : List (MoreNodeStats K) :=
  statsBuf.map (fun s => { s with weightAdjusted := s.weightAdjusted * factor })

/-- The value accumulated in `simpleValueSum` by the first loop of the
downweighting branch. -/
def simpleValueSum : List (MoreNodeStats K) → K → K
  | [], acc => acc
  | s :: rest, acc =>
    if s.stats.visits = 0 then simpleValueSum rest acc
    else simpleValueSum rest (acc + s.selfUtility * s.weightAdjusted)

/-- The entry `stdevs[i]` written by the first loop of the downweighting
branch for a child with `visits != 0`. -/
def childStdev (E : Externals K) (s : MoreNodeStats K) : K :=
  let weight := s.weightAdjusted
  let precision := (3 / 2) * E.sqrt weight
  let minVariance : K := 1 / 100000000
  E.sqrt (minVariance + 1 / precision)

/-- The second loop of the downweighting branch: the entries after pruning,
subtraction and the multiplication by `pow(p, valueWeightExponent)`, and the
final `totalNewUnnormWeight`.  `stdevs[i]` is read in iteration `i` only, and
was computed from entry `i` as it stands at the start of that iteration, so it
is computed here.  (The running `currentTotalWeight` of this loop is never read
again and is left out.) -/
def downweightLoop (E : Externals K) (searchParams : SearchParams K)
    (amountToSubtract amountToPrune simpleValue : K) :
    List (MoreNodeStats K) → K → List (MoreNodeStats K) × K
  | [], totalNewUnnormWeight => ([], totalNewUnnormWeight)
  | s :: rest, totalNewUnnormWeight =>
    if s.stats.visits = 0 then
      let r := downweightLoop E searchParams amountToSubtract amountToPrune simpleValue rest
        totalNewUnnormWeight
      (s :: r.1, r.2)
    else if s.weightAdjusted < amountToPrune then
      let r := downweightLoop E searchParams amountToSubtract amountToPrune simpleValue rest
        totalNewUnnormWeight
      ({ s with weightAdjusted := 0 } :: r.1, r.2)
    else
      let newWeight := s.weightAdjusted - amountToSubtract
      let weightAdjusted := if newWeight ≤ 0 then 0 else newWeight
      let z := (s.selfUtility - simpleValue) / childStdev E s
      let p := E.getCdf z + 1 / 10000
      let weightAdjusted := weightAdjusted * E.pow p searchParams.valueWeightExponent
      let r := downweightLoop E searchParams amountToSubtract amountToPrune simpleValue rest
        (totalNewUnnormWeight + weightAdjusted)
      ({ s with weightAdjusted := weightAdjusted } :: r.1, r.2)

/-- Embeds `Search::downweightBadChildrenAndNormalizeWeight`: the buffer after the
call.  Only the first `numChildren` entries of `statsBuf` are visited.  (The
two `assert`s of the downweighting branch are not modelled.) -/
def downweightBadChildrenAndNormalizeWeight (E : Externals K) (searchParams : SearchParams K)
    (numChildren : Int) (currentTotalWeight desiredTotalWeight amountToSubtract amountToPrune : K)
    (statsBuf : List (MoreNodeStats K)) : List (MoreNodeStats K) :=
  if numChildren ≤ 0 ∨ currentTotalWeight ≤ 0 then statsBuf
  else if searchParams.valueWeightExponent = 0 then
    let r := subtractPruneLoop amountToSubtract amountToPrune
      (statsBuf.take numChildren.toNat) currentTotalWeight
    let currentTotalWeight := r.2
    if currentTotalWeight ≠ desiredTotalWeight then
      let factor := desiredTotalWeight / currentTotalWeight
      scaleWeights factor r.1 ++ statsBuf.drop numChildren.toNat
    else r.1 ++ statsBuf.drop numChildren.toNat
  else
    let simpleValueSum := simpleValueSum (statsBuf.take numChildren.toNat) 0
    let simpleValue := simpleValueSum / currentTotalWeight
    let r := downweightLoop E searchParams amountToSubtract amountToPrune simpleValue
      (statsBuf.take numChildren.toNat) 0
    let totalNewUnnormWeight := r.2
    let factor := desiredTotalWeight / totalNewUnnormWeight
    scaleWeights factor r.1 ++ statsBuf.drop numChildren.toNat

/-! ## recomputeNodeStats -/

/-- The first loop of `Search::recomputeNodeStats`: the entries
`statsBuf[0..numGoodChildren)` it leaves. -/
def collectChildren (E : Externals K) (nextPla : Player) :
    List (SearchChildPointer K) → List (MoreNodeStats K)
  | [] => []
  | c :: children =>
    match c.ifAllocated with
    | none => []
    | some childStats =>
      let moveLoc := c.moveLoc
      let edgeVisits := c.edgeVisits
      if childStats.visits ≤ 0 ∨ childStats.weightSum ≤ 0 ∨ edgeVisits ≤ 0 then
        collectChildren E nextPla children
      else
        let childUtility := childStats.utilityAvg
        { stats := childStats
          selfUtility := if nextPla = Player.white then childUtility else -childUtility
          weightAdjusted := E.getChildWeight childStats edgeVisits
          prevMoveLoc := moveLoc } :: collectChildren E nextPla children

/-- The sum of `statsBuf[i].weightAdjusted` over a buffer. -/
def totalWeightAdjusted (statsBuf : List (MoreNodeStats K)) : K :=
  (statsBuf.map (fun s => s.weightAdjusted)).sum

/-- The local `origTotalChildWeight` of `Search::recomputeNodeStats`. -/
def origTotalChildWeight (E : Externals K) (node : SearchNode K) : K :=
  totalWeightAdjusted (collectChildren E node.nextPla node.children)

/-- The array `policyProbsBuf` filled in `Search::recomputeNodeStats`. -/
def policyProbsBuf (E : Externals K) (nnOutput : NNOutput K)
    (statsBuf : List (MoreNodeStats K)) (i : Nat) : K :=
  match statsBuf.get? i with
  | some s => max (1 / 10 ^ 30) (nnOutput.policyProbs (E.getPos s.prevMoveLoc))
  | none => 0

/-- Lines 154-167 of `Search::recomputeNodeStats`: the buffer and
`currentTotalChildWeight` after the optional noise pruning. -/
def noisePrunedChildren (E : Externals K) (searchParams : SearchParams K)
    (node : SearchNode K) : List (MoreNodeStats K) × K :=
  let statsBuf := collectChildren E node.nextPla node.children
  let numGoodChildren : Int := statsBuf.length
  let currentTotalChildWeight := totalWeightAdjusted statsBuf
  if searchParams.useNoisePruning ∧ numGoodChildren > 0 then
    pruneNoiseWeight E searchParams statsBuf numGoodChildren currentTotalChildWeight
      (policyProbsBuf E node.nnOutput statsBuf)
  else (statsBuf, currentTotalChildWeight)

/-- The loop computing the local `maxChildWeight` in the root block of
`Search::recomputeNodeStats`, from the current value of that variable. -/
def maxChildWeightLoop : List (MoreNodeStats K) → K → K
  | [], maxChildWeight => maxChildWeight
  | s :: rest, maxChildWeight =>
    if s.weightAdjusted > maxChildWeight then maxChildWeightLoop rest s.weightAdjusted
    else maxChildWeightLoop rest maxChildWeight

/-- Lines 170-180 of `Search::recomputeNodeStats`: the pair
`(amountToSubtract, amountToPrune)` passed on to
`downweightBadChildrenAndNormalizeWeight`. -/
def rootAmounts (searchParams : SearchParams K) (isRoot : Bool)
    (statsBuf : List (MoreNodeStats K)) : K × K :=
  if isRoot ∧ searchParams.rootNoiseEnabled ∧ ¬ searchParams.useNoisePruning then
    let maxChildWeight := maxChildWeightLoop statsBuf 0
    (min searchParams.chosenMoveSubtract (maxChildWeight / 64),
     min searchParams.chosenMovePrune (maxChildWeight / 64))
  else (0, 0)

/-- Lines 125-186 of `Search::recomputeNodeStats`: the entries
`statsBuf[0..numGoodChildren)` with their final `weightAdjusted`. -/
def adjustedChildren (E : Externals K) (searchParams : SearchParams K)
    (node : SearchNode K) (isRoot : Bool) : List (MoreNodeStats K) :=
  let pruned := noisePrunedChildren E searchParams node
  let statsBuf := pruned.1
  let numGoodChildren : Int := statsBuf.length
  let currentTotalChildWeight := pruned.2
  let amounts := rootAmounts searchParams isRoot statsBuf
  downweightBadChildrenAndNormalizeWeight E searchParams numGoodChildren
    currentTotalChildWeight currentTotalChildWeight amounts.1 amounts.2 statsBuf

/-- Embeds `Search::recomputeNodeStats`: the stats published in `node.stats`. -/
def recomputeNodeStats (E : Externals K) (searchParams : SearchParams K)
    (node : SearchNode K) (numVisitsToAdd : Int) (isRoot : Bool) : NodeStats K :=
  let currentTotalChildWeight := (noisePrunedChildren E searchParams node).2
  let statsBuf := adjustedChildren E searchParams node isRoot
  let winLossValueSum := (statsBuf.map (fun s => s.weightAdjusted * s.stats.winLossValueAvg)).sum
  let noResultValueSum := (statsBuf.map (fun s => s.weightAdjusted * s.stats.noResultValueAvg)).sum
  let utilitySum := (statsBuf.map (fun s => s.weightAdjusted * s.stats.utilityAvg)).sum
  let utilitySqSum := (statsBuf.map (fun s => s.weightAdjusted * s.stats.utilitySqAvg)).sum
  let weightSqSum := (statsBuf.map (fun s =>
    (s.weightAdjusted / s.stats.weightSum) * (s.weightAdjusted / s.stats.weightSum)
      * s.stats.weightSqSum)).sum
  let weightSum := currentTotalChildWeight
  -- Also add in the direct evaluation of this node.
  let nnOutput := node.nnOutput
  let winProb := nnOutput.whiteWinProb
  let lossProb := nnOutput.whiteLossProb
  let noResultProb := nnOutput.whiteNoResultProb
  let utility := E.getResultUtility (winProb - lossProb) noResultProb
  let weight := computeWeightFromNNOutput E searchParams nnOutput
  let winLossValueSum := winLossValueSum + (winProb - lossProb) * weight
  let noResultValueSum := noResultValueSum + noResultProb * weight
  let utilitySum := utilitySum + utility * weight
  let utilitySqSum := utilitySqSum + utility * utility * weight
  let weightSqSum := weightSqSum + weight * weight
  let weightSum := weightSum + weight
  let winLossValueAvg := winLossValueSum / weightSum
  let noResultValueAvg := noResultValueSum / weightSum
  let utilityAvg := utilitySum / weightSum
  let utilitySqAvg := utilitySqSum / weightSum
  let oldUtilityAvg := utilityAvg
  let utilitySqAvg := utilitySqAvg + (utilityAvg * utilityAvg - oldUtilityAvg * oldUtilityAvg)
  { winLossValueAvg := winLossValueAvg
    noResultValueAvg := noResultValueAvg
    utilityAvg := utilityAvg
    utilitySqAvg := utilitySqAvg
    weightSqSum := weightSqSum
    weightSum := weightSum
    visits := node.stats.visits + numVisitsToAdd }

/-! ## updateStatsAfterPlayout -/

/-- The `while(true)` loop of `Search::updateStatsAfterPlayout` as run by the
thread that read 0.  `arrivals` lists, round by round, how many other playouts
perform their `fetch_add(1)` on the node while `recomputeNodeStats` of that
round runs (an exhausted list means that nothing more arrives).  The result is
the list of `numVisitsToAdd` arguments of the `recomputeNodeStats` calls, in
order, and the final value of `dirtyCounter`. -/
def updateStatsLoop : List Nat → Int → Int → List Int × Int
  | [], dirtyCounter, numVisitsCompleted =>
    -- recomputeNodeStats(node,thread,numVisitsCompleted,isRoot)
    let oldDirtyCounter := dirtyCounter
    let newDirtyCounter := oldDirtyCounter - numVisitsCompleted
    if newDirtyCounter ≤ 0 then ([numVisitsCompleted], newDirtyCounter)
    else
      let r := updateStatsLoop [] newDirtyCounter newDirtyCounter
      (numVisitsCompleted :: r.1, r.2)
  | a :: arrivals, dirtyCounter, numVisitsCompleted =>
    -- recomputeNodeStats(node,thread,numVisitsCompleted,isRoot), during which
    -- `a` other threads increment the counter
    let oldDirtyCounter := dirtyCounter + (a : Int)
    let newDirtyCounter := oldDirtyCounter - numVisitsCompleted
    if newDirtyCounter ≤ 0 then ([numVisitsCompleted], newDirtyCounter)
    else
      let r := updateStatsLoop arrivals newDirtyCounter newDirtyCounter
      (numVisitsCompleted :: r.1, r.2)
termination_by arrivals dirtyCounter numVisitsCompleted =>
  arrivals.length + (dirtyCounter - numVisitsCompleted).toNat
decreasing_by
  all_goals simp_wf
  all_goals omega

/-- Embeds `Search::updateStatsAfterPlayout` for one calling thread: the
`numVisitsToAdd` arguments of the `recomputeNodeStats` calls it makes and the
value it leaves in `dirtyCounter`. -/
def updateStatsAfterPlayout (dirtyCounter : Int) (arrivals : List Nat) : List Int × Int :=
  let oldDirtyCounter := dirtyCounter
  let dirtyCounter := dirtyCounter + 1
  if oldDirtyCounter > 0 then ([], dirtyCounter)
  else updateStatsLoop arrivals dirtyCounter 1

/-! ### Interleaved calls on one node -/

/-- Where a thread stands in `Search::updateStatsAfterPlayout`. -/
inductive ThreadPc where
  /-- Called, the first `fetch_add(1)` not yet performed. -/
  | start
  /-- Past the test `oldDirtyCounter > 0` with a 0: from the call
  `recomputeNodeStats(node,thread,numVisitsCompleted,isRoot)` up to the
  `fetch_add(-numVisitsCompleted)` that follows it. -/
  | recomputing (numVisitsCompleted : Int)
  /-- Returned. -/
  | returned
deriving DecidableEq, Repr

/-- The node's `dirtyCounter`, every calling thread's position, and the
`numVisitsToAdd` arguments of the `recomputeNodeStats` calls made so far. -/
structure PlayoutSys where
  dirtyCounter : Int
  threads : List ThreadPc
  recomputeCalls : List Int
deriving DecidableEq, Repr

/-- Thread `t` performs its next atomic `fetch_add`, and runs on to just
before its next one; `none` when thread `t` has returned or does not exist. -/
def PlayoutSys.step (s : PlayoutSys) (t : Nat) : Option PlayoutSys :=
  match s.threads.get? t with
  | none => none
  | some ThreadPc.returned => none
  | some ThreadPc.start =>
    let oldDirtyCounter := s.dirtyCounter
    if oldDirtyCounter > 0 then
      some { dirtyCounter := s.dirtyCounter + 1
             threads := s.threads.set t ThreadPc.returned
             recomputeCalls := s.recomputeCalls }
    else
      some { dirtyCounter := s.dirtyCounter + 1
             threads := s.threads.set t (ThreadPc.recomputing 1)
             recomputeCalls := s.recomputeCalls ++ [1] }
  | some (ThreadPc.recomputing numVisitsCompleted) =>
    let oldDirtyCounter := s.dirtyCounter
    let newDirtyCounter := oldDirtyCounter - numVisitsCompleted
    if newDirtyCounter ≤ 0 then
      some { dirtyCounter := s.dirtyCounter - numVisitsCompleted
             threads := s.threads.set t ThreadPc.returned
             recomputeCalls := s.recomputeCalls }
    else
      some { dirtyCounter := s.dirtyCounter - numVisitsCompleted
             threads := s.threads.set t (ThreadPc.recomputing newDirtyCounter)
             recomputeCalls := s.recomputeCalls ++ [newDirtyCounter] }

/-- Initial state: `numCalls` threads have called `updateStatsAfterPlayout` on a node whose
`dirtyCounter` is 0. -/
def PlayoutSys.init (numCalls : Nat) : PlayoutSys :=
  { dirtyCounter := 0, threads := List.replicate numCalls ThreadPc.start, recomputeCalls := [] }

/-- Runs a schedule: the list of thread indices in the order in which they
perform their atomic steps. -/
def PlayoutSys.run : PlayoutSys → List Nat → Option PlayoutSys
  | s, [] => some s
  | s, t :: schedule =>
    match s.step t with
    | none => none
    | some s' => PlayoutSys.run s' schedule

/-- Thread is inside (or about to re-enter) `recomputeNodeStats`. -/
def ThreadPc.isRecomputing : ThreadPc → Bool
  | ThreadPc.recomputing _ => true
  | _ => false

/-- How many threads are inside `recomputeNodeStats`. -/
def PlayoutSys.numRecomputing (s : PlayoutSys) : Nat :=
  s.threads.countP ThreadPc.isRecomputing

/-- Every call has returned. -/
def PlayoutSys.allReturned (s : PlayoutSys) : Bool :=
  s.threads.all (fun pc => pc = ThreadPc.returned)

/-- Counts a call that has performed its first `fetch_add`. -/
def ThreadPc.started : ThreadPc → Int
  | ThreadPc.start => 0
  | _ => 1

/-- The `numVisitsCompleted` held by a thread inside the recomputation loop. -/
def ThreadPc.held : ThreadPc → Int
  | ThreadPc.recomputing n => n
  | _ => 0

/-- The invariant of the dirty-counter protocol. -/
structure PlayoutSys.Inv (s : PlayoutSys) : Prop where
  single : s.numRecomputing ≤ 1
  idle : s.numRecomputing = 0 → s.dirtyCounter = 0
  owner : ∀ n, ThreadPc.recomputing n ∈ s.threads → 1 ≤ n ∧ n ≤ s.dirtyCounter
  balance : s.recomputeCalls.sum + s.dirtyCounter - (s.threads.map ThreadPc.held).sum
      = (s.threads.map ThreadPc.started).sum

/-! ## Concrete inputs -/

/-- Modelled from the spec: `NodeStats::getChildWeight`, whose definition
(search/searchnode.cpp) is not among the sources.  Section 4.3.6, step 2: the
child's edge-weighted share of its total weight, which is the child's
`weightSum` when the edge carries all the child's visits. -/
def specChildWeight (s : NodeStats K) (edgeVisits : Int) : K :=
  s.weightSum * ((edgeVisits : K) / (s.visits : K))

/-- Externals built from given libm functions: `getChildWeight` is
`specChildWeight`, `getResultUtility` is the win/loss value, `getPos` the
identity, and the CDF table is constant. -/
def externalsOf (exp sqrt : K → K) (pow : K → K → K) : Externals K :=
  { exp := exp
    sqrt := sqrt
    pow := pow
    getCdf := fun _ => 1 / 2
    getResultUtility := fun winLossValue _ => winLossValue
    getChildWeight := specChildWeight
    getPos := fun loc => loc
    supportsShorttermError := true }

/-- Noise pruning enabled with `noisePruneUtilityScale = 1` and
`noisePruningCap = 2`; no downweighting, no uncertainty weighting. -/
def pruningParams : SearchParams K :=
  { winLossUtilityFactor := 1
    valueWeightExponent := 0
    useNoisePruning := true
    noisePruneUtilityScale := 1
    noisePruningCap := 2
    useUncertainty := false
    uncertaintyCoeff := 1
    uncertaintyExponent := 1
    uncertaintyMaxWeight := 1
    rootNoiseEnabled := false
    chosenMoveSubtract := 0
    chosenMovePrune := 0 }

/-- White to move; a first child of utility 1 and weight 1, a second child of
utility 0 and weight 10, both of policy prior 1/2. -/
def pruningNode : SearchNode K :=
  { nextPla := Player.white
    nnOutput := ⟨1 / 2, 1 / 2, 0, 0, fun _ => 1 / 2⟩
    children := [⟨some ⟨1, 1, 0, 1, 1, 1, 1⟩, 0, 1⟩, ⟨some ⟨10, 0, 0, 0, 0, 10, 100⟩, 1, 10⟩]
    stats := ⟨11, 0, 0, 0, 0, 12, 102⟩
    dirtyCounter := 0 }

/-- Root noise disabled, with one visit subtracted from and pruned below for
every move (`chosenMoveSubtract = chosenMovePrune = 1`). -/
def subtractParams : SearchParams K :=
  { winLossUtilityFactor := 1
    valueWeightExponent := 0
    useNoisePruning := false
    noisePruneUtilityScale := 1
    noisePruningCap := 2
    useUncertainty := false
    uncertaintyCoeff := 1
    uncertaintyExponent := 1
    uncertaintyMaxWeight := 1
    rootNoiseEnabled := false
    chosenMoveSubtract := 1
    chosenMovePrune := 1 }

/-- White to move; two visited children of weights 128 and 64. -/
def heavyNode : SearchNode K :=
  { nextPla := Player.white
    nnOutput := ⟨1 / 2, 1 / 2, 0, 0, fun _ => 1 / 2⟩
    children := [⟨some ⟨128, 1, 0, 1, 1, 128, 128⟩, 0, 128⟩,
      ⟨some ⟨64, 0, 0, 0, 0, 64, 64⟩, 1, 64⟩]
    stats := ⟨192, 0, 0, 0, 0, 193, 193⟩
    dirtyCounter := 0 }

end Defs

/-- Stand-ins on `ℚ` for the external functions, for evaluating the embedding:
a constant `exp` and CDF, `sqrt` and `pow` returning their first argument. -/
def sampleExternals : Externals ℚ :=
  { exp := fun _ => 1 / 2
    sqrt := fun x => x
    pow := fun x _ => x
    getCdf := fun _ => 1 / 2
    getResultUtility := fun winLossValue noResultValue => winLossValue + noResultValue / 2
    getChildWeight := specChildWeight
    getPos := fun loc => loc
    supportsShorttermError := true }

/-- A parameter setting without noise pruning, downweighting, uncertainty
weighting or chosen-move subtraction. -/
def sampleParams : SearchParams ℚ :=
  { winLossUtilityFactor := 1
    valueWeightExponent := 0
    useNoisePruning := false
    noisePruneUtilityScale := 3 / 20
    noisePruningCap := 1
    useUncertainty := false
    uncertaintyCoeff := 1 / 4
    uncertaintyExponent := 1
    uncertaintyMaxWeight := 8
    rootNoiseEnabled := true
    chosenMoveSubtract := 0
    chosenMovePrune := 0 }

section
variable {K : Type} [LinearOrderedField K]

/-- The published fields other than `visits` agree. -/
def NodeStats.sameAggregates (a b : NodeStats K) : Prop :=
  a.winLossValueAvg = b.winLossValueAvg ∧ a.noResultValueAvg = b.noResultValueAvg ∧
  a.utilityAvg = b.utilityAvg ∧ a.utilitySqAvg = b.utilitySqAvg ∧
  a.weightSum = b.weightSum ∧ a.weightSqSum = b.weightSqSum

/-- The parameters `subtractParams` with root noise enabled. -/
def rootNoiseParams : SearchParams K :=
  { (subtractParams : SearchParams K) with rootNoiseEnabled := true }

/-- White to move, with policy priors 1/16, 1/2 and 1/32 at the positions 0, 1
and 2 (1/32 elsewhere); a first child at location 0 of utility 1 and weight 1, a
second child at location `loc` of utility 0 and weight 10. -/
def locNode (loc : Nat) : SearchNode K :=
  { nextPla := Player.white
    nnOutput := ⟨1 / 2, 1 / 2, 0, 0,
      fun pos => if pos = 0 then 1 / 16 else if pos = 1 then 1 / 2 else 1 / 32⟩
    children := [⟨some ⟨1, 1, 0, 1, 1, 1, 1⟩, 0, 1⟩, ⟨some ⟨10, 0, 0, 0, 0, 10, 100⟩, loc, 10⟩]
    stats := ⟨11, 0, 0, 0, 0, 12, 102⟩
    dirtyCounter := 0 }

/-- The update of one child by noise pruning as section 4.3.6, step 3 and the
comments of `pruneNoiseWeight` word it, from the running sums `U` (utility times
weight), `S` (weight) and `Pol` (policy) over the children before it: when
`S > 0`, `Pol > 0`, the gap `U/S - utility` is positive and the weight exceeds
twice the raw-policy share `S * policy / Pol`, the child loses the excess times
`1 - exp(-gap / noisePruneUtilityScale)`, capped by `noisePruningCap`. -/
def specPrunedWeight (E : Externals K) (searchParams : SearchParams K)
    (U S Pol utility w policy : K) : K :=
  if S > 0 ∧ Pol > 0 ∧ U / S - utility > 0 ∧ w > 2 * S * policy / Pol then
    w - min searchParams.noisePruningCap
      ((w - 2 * S * policy / Pol)
        * (1 - E.exp (-(U / S - utility) / searchParams.noisePruneUtilityScale)))
  else w

/-- The sum of `selfUtility * weightAdjusted` over the first `i` entries. -/
def runningUtility (statsBuf : List (MoreNodeStats K)) (i : Nat) : K :=
  ((statsBuf.take i).map (fun s => s.selfUtility * s.weightAdjusted)).sum

/-- The sum of `weightAdjusted` over the first `i` entries. -/
def runningWeight (statsBuf : List (MoreNodeStats K)) (i : Nat) : K :=
  totalWeightAdjusted (statsBuf.take i)

/-- The sum of the entries `k, k+1, .., k+i-1` of `policyProbsBuf`. -/
def runningPolicy (policyProbsBuf : Nat → K) (k i : Nat) : K :=
  ((List.range i).map (fun j => policyProbsBuf (k + j))).sum

end

/-! ## The GTP front end (command/gtp.cpp) -/

/-- The static list `knownCommands`, in source order (the two entries that are
commented out in the source, `genmove_analyze` and `analyze`, are absent). -/
def knownCommands : List String :=
  [ -- Basic GTP commands
    "protocol_version",
    "name",
    "version",
    "known_command",
    "list_commands",
    "quit",
    "boardsize",
    "rectangular_boardsize",
    "clear_board",
    "set_position",
    "komi",
    "play",
    "undo",
    -- GTP extension - specify rules
    "kata-get-rules",
    "kata-set-rule",
    "kata-set-rules",
    -- Get or change a few limited params dynamically
    "kata-get-param",
    "kata-set-param",
    "kata-list-params",
    "kgs-rules",
    "genmove",
    "genmove_debug",
    "search_debug",
    "clear_cache",
    "showboard",
    "fixed_handicap",
    "place_free_handicap",
    "set_free_handicap",
    "time_settings",
    "kgs-time_settings",
    "time_left",
    "kata-list_time_settings",
    "kata-time_settings",
    "final_status_list",
    "loadsgf",
    "printsgf",
    -- GTP extensions for board analysis
    "lz-genmove_analyze",
    "kata-genmove_analyze",
    "lz-analyze",
    "kata-analyze",
    -- Display raw neural net evaluations
    "kata-raw-nn",
    -- Misc other stuff
    "cputime",
    "gomill-cpu_time",
    "kata-benchmark",
    -- Some debug commands
    "kata-debug-print-tc",
    "debug_moves",
    -- Stop any ongoing ponder or analyze
    "stop" ]

/-- The branches of the `if` / `else if` chain on `command` in the read loop of
`MainCmds::gtp`, one constructor per branch, in source order. -/
inductive GTPHandler where
  | protocolVersion
  | name
  | version
  | knownCommand
  | listCommands
  | quit
  | boardsize
  | clearBoard
  | komi
  | kataGetRules
  | kataSetRules
  | kataSetRule
  | kgsRules
  | kataListParams
  | kataGetParam
  | kataSetParam
  | timeSettings
  | kataListTimeSettings
  | kgsTimeSettings
  | timeLeft
  | kataDebugPrintTc
  | play
  | setPosition
  | undo
  | genmove
  | genmoveAnalyze
  | clearCache
  | showboard
  | loadsgf
  | printsgf
  | analyze
  | kataRawNN
  | debugMoves
  | cputime
  | kataBenchmark
  | stop
deriving DecidableEq, Repr

/-- The `if` / `else if` chain on `command` in the read loop of `MainCmds::gtp`:
the branch taken, or `none` for the final `else`, which answers with the error
`unknown command`. -/
def dispatch (command : String) : Option GTPHandler :=
  if command = "protocol_version" then some GTPHandler.protocolVersion
  else if command = "name" then some GTPHandler.name
  else if command = "version" then some GTPHandler.version
  else if command = "known_command" then some GTPHandler.knownCommand
  else if command = "list_commands" then some GTPHandler.listCommands
  else if command = "quit" then some GTPHandler.quit
  else if command = "boardsize" ∨ command = "rectangular_boardsize" then some GTPHandler.boardsize
  else if command = "clear_board" then some GTPHandler.clearBoard
  else if command = "komi" then some GTPHandler.komi
  else if command = "kata-get-rules" then some GTPHandler.kataGetRules
  else if command = "kata-set-rules" then some GTPHandler.kataSetRules
  else if command = "kata-set-rule" then some GTPHandler.kataSetRule
  else if command = "kgs-rules" then some GTPHandler.kgsRules
  else if command = "kata-list-params" then some GTPHandler.kataListParams
  else if command = "kata-get-param" then some GTPHandler.kataGetParam
  else if command = "kata-set-param" then some GTPHandler.kataSetParam
  else if command = "time_settings" then some GTPHandler.timeSettings
  else if command = "kata-list_time_settings" then some GTPHandler.kataListTimeSettings
  else if command = "kgs-time_settings" ∨ command = "kata-time_settings" then
    some GTPHandler.kgsTimeSettings
  else if command = "time_left" then some GTPHandler.timeLeft
  else if command = "kata-debug-print-tc" then some GTPHandler.kataDebugPrintTc
  else if command = "play" then some GTPHandler.play
  else if command = "set_position" then some GTPHandler.setPosition
  else if command = "undo" then some GTPHandler.undo
  else if command = "genmove" ∨ command = "genmove_debug" ∨ command = "search_debug" then
    some GTPHandler.genmove
  else if command = "genmove_analyze" ∨ command = "lz-genmove_analyze"
      ∨ command = "kata-genmove_analyze" then some GTPHandler.genmoveAnalyze
  else if command = "clear_cache" then some GTPHandler.clearCache
  else if command = "showboard" then some GTPHandler.showboard
  else if command = "loadsgf" then some GTPHandler.loadsgf
  else if command = "printsgf" then some GTPHandler.printsgf
  else if command = "analyze" ∨ command = "lz-analyze" ∨ command = "kata-analyze" then
    some GTPHandler.analyze
  else if command = "kata-raw-nn" then some GTPHandler.kataRawNN
  else if command = "debug_moves" then some GTPHandler.debugMoves
  else if command = "cputime" ∨ command = "gomill-cpu_time" then some GTPHandler.cputime
  else if command = "kata-benchmark" then some GTPHandler.kataBenchmark
  else if command = "stop" then some GTPHandler.stop
  else none

/-- What a handler of the read loop leaves in `responseIsError` and `response`. -/
structure GTPResponse where
  responseIsError : Bool
  response : String
deriving DecidableEq, Repr

/-- The handler of `known_command`, from the argument list `pieces`. -/
def knownCommandHandler (pieces : List String) : GTPResponse :=
  match pieces with
  | [piece] =>
    if piece ∈ knownCommands then { responseIsError := false, response := "true" }
    else { responseIsError := false, response := "false" }
  | _ =>
    { responseIsError := true
      response := "Expected single argument for known_command but got '"
        ++ String.intercalate " " pieces ++ "'" }

/-- The handler of `list_commands`: the entries of `knownCommands`, one per line. -/
def listCommandsHandler : GTPResponse :=
  { responseIsError := false, response := String.intercalate "\n" knownCommands }

/-- The loop of `filterDoubleNewlines` from index `i` on: `prev` is `s[i-1]`
(`none` when `i = 0`) and the list holds `s[i], s[i+1], ...`; the result is what
the remaining iterations append to `filtered`. -/
def filterDoubleNewlinesLoop : Option Char → List Char → List Char
  | _, [] => []
  | prev, c :: rest =>
    if prev = some '\n' ∧ c = '\n' then filterDoubleNewlinesLoop (some c) rest
    else c :: filterDoubleNewlinesLoop (some c) rest

/-- Embeds `filterDoubleNewlines`. -/
def filterDoubleNewlines (s : String) : String :=
  String.mk (filterDoubleNewlinesLoop none s.data)

/-! ### GTPEngine -/

/-- A move: `Move(loc, pla)`. -/
structure Move where
  loc : Nat
  pla : Player
deriving DecidableEq, Repr

/-- The fields of `SearchParams` that the setters of `GTPEngine` write. -/
structure GTPSearchParams (K : Type) where
  rootPolicyTemperature : K
  noResultUtilityForWhite : K
  numThreads : Int
  maxVisits : Int
  maxPlayouts : Int
  maxTime : K
deriving DecidableEq, Repr

/-- What `GTPEngine` and the `kata-set-param` handler call but this translation
unit does not define: `Board`, `BoardHistory`, `AsyncBot` (of which only the
header is among the sources) and the parsers of `Global`.  A call that returns
`bool` and changes its object returns the pair of both. -/
structure GTPExternals (K Board Hist Rules Bot : Type) where
  /-- The constructor `Board(x, y)`. -/
  newBoard : Int → Int → Board
  /-- The call `board.setStones(stones)`: its result and the board it leaves. -/
  setStones : Board → List Move → Bool × Board
  /-- The entry `board.colors[loc]`, `none` for an empty point. -/
  colorAt : Board → Nat → Option Player
  xSize : Board → Int
  ySize : Board → Int
  komi : Board → K
  setKomi : Board → K → Board
  numStonesOnBoard : Board → Int
  /-- The constructor `BoardHistory(board, pla, rules)`. -/
  newHist : Board → Player → Rules → Hist
  setInitialTurnNumber : Hist → Int → Hist
  initialTurnNumber : Hist → Int
  /-- The member `hist.rules`. -/
  histRules : Hist → Rules
  /-- The call `bot->getRootBoard()`. -/
  getRootBoard : Bot → Board
  /-- The call `bot->getRootHist()`. -/
  getRootHist : Bot → Hist
  /-- The call `bot->setPosition(pla, board, hist)`. -/
  botSetPosition : Bot → Player → Board → Hist → Bot
  /-- The call `bot->makeMove(loc, pla)`: its result and the bot it leaves. -/
  makeMove : Bot → Nat → Player → Bool × Bot
  /-- The call `bot->setParams(params)`. -/
  setParams : Bot → GTPSearchParams K → Bot
  /-- The call `bot->clearSearch()`. -/
  clearSearch : Bot → Bot
  /-- The call `Global::tryStringToDouble(s, d)`: the parsed value on success. -/
  tryStringToDouble : String → Option K
  /-- The call `Global::tryStringToInt(s, i)`: the parsed value on success. -/
  tryStringToInt : String → Option Int
  /-- The call `Global::tryStringToInt64(s, i64)`: the parsed value on success. -/
  tryStringToInt64 : String → Option Int

/-- The members of `GTPEngine` read or written by `setPosition`, `play`, `undo`
and the parameter setters. -/
structure GTPEngine (K Board Rules Bot : Type) where
  staticPlayoutDoublingAdvantage : K
  analysisWideRootNoise : K
  bot : Bot
  currentRules : Rules
  params : GTPSearchParams K
  initialBoard : Board
  initialPla : Player
  moveHistory : List Move
  recentWinLossValues : List K

section GTPDefs

variable {K Board Hist Rules Bot : Type} [LinearOrderedField K]

/-- Embeds `GTPEngine::setPositionAndRules`. -/
def GTPEngine.setPositionAndRules (X : GTPExternals K Board Hist Rules Bot)
    (engine : GTPEngine K Board Rules Bot) (pla : Player) (board : Board) (h : Hist)
    (newInitialBoard : Board) (newInitialPla : Player) (newMoveHistory : List Move) :
    GTPEngine K Board Rules Bot :=
  let hist := h
  { engine with
    currentRules := X.histRules hist
    bot := X.botSetPosition engine.bot pla board hist
    initialBoard := newInitialBoard
    initialPla := newInitialPla
    moveHistory := newMoveHistory
    recentWinLossValues := [] }

/-- Embeds `GTPEngine::setPosition`: the returned `bool` and the engine after
the call (`clearStatsForNewGame` does nothing). -/
def GTPEngine.setPosition (X : GTPExternals K Board Hist Rules Bot)
    (engine : GTPEngine K Board Rules Bot) (initialStones : List Move) :
    Bool × GTPEngine K Board Rules Bot :=
  let newXSize := X.xSize (X.getRootBoard engine.bot)
  let newYSize := X.ySize (X.getRootBoard engine.bot)
  let board := X.newBoard newXSize newYSize
  let r := X.setStones board initialStones
  let suc := r.1
  let board := r.2
  if !suc then (false, engine)
  -- Sanity check
  else if initialStones.any (fun m => X.colorAt board m.loc ≠ some m.pla) then (false, engine)
  else
    let pla := Player.black
    let hist := X.newHist board pla engine.currentRules
    let hist := X.setInitialTurnNumber hist (X.numStonesOnBoard board)
    let newMoveHistory : List Move := []
    (true, engine.setPositionAndRules X pla board hist board pla newMoveHistory)

/-- Embeds `GTPEngine::setStaticPlayoutDoublingAdvantage`. -/
def GTPEngine.setStaticPlayoutDoublingAdvantage (engine : GTPEngine K Board Rules Bot) (d : K) :
    GTPEngine K Board Rules Bot :=
  { engine with staticPlayoutDoublingAdvantage := d }

/-- Embeds `GTPEngine::setAnalysisWideRootNoise`. -/
def GTPEngine.setAnalysisWideRootNoise (engine : GTPEngine K Board Rules Bot) (x : K) :
    GTPEngine K Board Rules Bot :=
  { engine with analysisWideRootNoise := x }

/-- The tail shared by the setters that write `params`: `bot->setParams(params)`
followed by `bot->clearSearch()`. -/
def GTPEngine.pushParams (X : GTPExternals K Board Hist Rules Bot)
    (engine : GTPEngine K Board Rules Bot) (params : GTPSearchParams K) :
    GTPEngine K Board Rules Bot :=
  { engine with params := params, bot := X.clearSearch (X.setParams engine.bot params) }

/-- Embeds `GTPEngine::setRootPolicyTemperature`. -/
def GTPEngine.setRootPolicyTemperature (X : GTPExternals K Board Hist Rules Bot)
    (engine : GTPEngine K Board Rules Bot) (x : K) : GTPEngine K Board Rules Bot :=
  engine.pushParams X { engine.params with rootPolicyTemperature := x }

/-- Embeds `GTPEngine::setNumSearchThreads`. -/
def GTPEngine.setNumSearchThreads (X : GTPExternals K Board Hist Rules Bot)
    (engine : GTPEngine K Board Rules Bot) (numThreads : Int) : GTPEngine K Board Rules Bot :=
  engine.pushParams X { engine.params with numThreads := numThreads }

/-- Embeds `GTPEngine::setMaxVisits`. -/
def GTPEngine.setMaxVisits (X : GTPExternals K Board Hist Rules Bot)
    (engine : GTPEngine K Board Rules Bot) (maxVisits : Int) : GTPEngine K Board Rules Bot :=
  engine.pushParams X { engine.params with maxVisits := maxVisits }

/-- Embeds `GTPEngine::setMaxPlayouts`. -/
def GTPEngine.setMaxPlayouts (X : GTPExternals K Board Hist Rules Bot)
    (engine : GTPEngine K Board Rules Bot) (maxPlayouts : Int) : GTPEngine K Board Rules Bot :=
  engine.pushParams X { engine.params with maxPlayouts := maxPlayouts }

/-- Embeds `GTPEngine::setMaxTime`. -/
def GTPEngine.setMaxTime (X : GTPExternals K Board Hist Rules Bot)
    (engine : GTPEngine K Board Rules Bot) (maxTime : K) : GTPEngine K Board Rules Bot :=
  engine.pushParams X { engine.params with maxTime := maxTime }

/-- Embeds `GTPEngine::play`: the returned `bool` and the engine after the call. -/
def GTPEngine.play (X : GTPExternals K Board Hist Rules Bot)
    (engine : GTPEngine K Board Rules Bot) (loc : Nat) (pla : Player) :
    Bool × GTPEngine K Board Rules Bot :=
  let r := X.makeMove engine.bot loc pla
  let suc := r.1
  let engine := { engine with bot := r.2 }
  if suc then (suc, { engine with moveHistory := engine.moveHistory ++ [⟨loc, pla⟩] })
  else (suc, engine)

/-- The replay loops of `GTPEngine::undo`, `setKomi` and `setRules`:
`play(moveLoc, movePla)` for each move in turn, the results being dropped (they
are only asserted). -/
def GTPEngine.replay (X : GTPExternals K Board Hist Rules Bot) :
    GTPEngine K Board Rules Bot → List Move → GTPEngine K Board Rules Bot
  | engine, [] => engine
  | engine, m :: moves =>
    let moveLoc := m.loc
    let movePla := m.pla
    GTPEngine.replay X (engine.play X moveLoc movePla).2 moves

/-- The first half of `GTPEngine::undo`, after the test of `moveHistory.size()`:
the engine set back to the initial position, keeping the bot's komi and
initial turn number. -/
def GTPEngine.undoneEngine (X : GTPExternals K Board Hist Rules Bot)
    (engine : GTPEngine K Board Rules Bot) : GTPEngine K Board Rules Bot :=
  let undoneBoard := engine.initialBoard
  let undoneBoard := X.setKomi undoneBoard (X.komi (X.getRootBoard engine.bot))
  let undoneHist := X.newHist undoneBoard engine.initialPla engine.currentRules
  let undoneHist := X.setInitialTurnNumber undoneHist
    (X.initialTurnNumber (X.getRootHist engine.bot))
  let emptyMoveHistory : List Move := []
  engine.setPositionAndRules X engine.initialPla undoneBoard undoneHist engine.initialBoard
    engine.initialPla emptyMoveHistory

/-- Embeds `GTPEngine::undo`: the returned `bool` and the engine after the call. -/
def GTPEngine.undo (X : GTPExternals K Board Hist Rules Bot)
    (engine : GTPEngine K Board Rules Bot) : Bool × GTPEngine K Board Rules Bot :=
  if engine.moveHistory.length ≤ 0 then (false, engine)
  else
    let moveHistoryCopy := engine.moveHistory
    let engine := engine.undoneEngine X
    -- for(int i = 0; i<moveHistoryCopy.size()-1; i++)
    (true, GTPEngine.replay X engine (moveHistoryCopy.take (moveHistoryCopy.length - 1)))

/-- Every `play` of a replay returns true (the `assert(suc)` of the replay loops). -/
def GTPEngine.replaySucceeds (X : GTPExternals K Board Hist Rules Bot) :
    GTPEngine K Board Rules Bot → List Move → Bool
  | _, [] => true
  | engine, m :: moves =>
    (engine.play X m.loc m.pla).1 && GTPEngine.replaySucceeds X (engine.play X m.loc m.pla).2 moves

/-- The state of the read loop after a handler: the response and the engine. -/
structure GTPResult (K Board Rules Bot : Type) where
  response : GTPResponse
  engine : GTPEngine K Board Rules Bot

/-- The handler of `kata-set-param`, from the argument list `pieces`. -/
def kataSetParamHandler (X : GTPExternals K Board Hist Rules Bot)
    (engine : GTPEngine K Board Rules Bot) (pieces : List String) :
    GTPResult K Board Rules Bot :=
  match pieces with
  | [piece0, piece1] =>
    if piece0 = "playoutDoublingAdvantage" then
      match X.tryStringToDouble piece1 with
      | some d =>
        if d ≥ -3 ∧ d ≤ 3 then
          ⟨⟨false, ""⟩, engine.setStaticPlayoutDoublingAdvantage d⟩
        else
          ⟨⟨true, "Invalid value for " ++ piece0 ++ ", must be float from -3.0 to 3.0"⟩, engine⟩
      | none =>
        ⟨⟨true, "Invalid value for " ++ piece0 ++ ", must be float from -3.0 to 3.0"⟩, engine⟩
    else if piece0 = "rootPolicyTemperature" then
      match X.tryStringToDouble piece1 with
      | some d =>
        if d ≥ 1 / 100 ∧ d ≤ 100 then
          ⟨⟨false, ""⟩, engine.setRootPolicyTemperature X d⟩
        else
          ⟨⟨true, "Invalid value for " ++ piece0 ++ ", must be float from 0.01 to 100.0"⟩, engine⟩
      | none =>
        ⟨⟨true, "Invalid value for " ++ piece0 ++ ", must be float from 0.01 to 100.0"⟩, engine⟩
    else if piece0 = "analysisWideRootNoise" then
      match X.tryStringToDouble piece1 with
      | some d =>
        if d ≥ 0 ∧ d ≤ 5 then
          ⟨⟨false, ""⟩, engine.setAnalysisWideRootNoise d⟩
        else
          ⟨⟨true, "Invalid value for " ++ piece0 ++ ", must be float from 0.0 to 2.0"⟩, engine⟩
      | none =>
        ⟨⟨true, "Invalid value for " ++ piece0 ++ ", must be float from 0.0 to 2.0"⟩, engine⟩
    else if piece0 = "numSearchThreads" then
      match X.tryStringToInt piece1 with
      | some i =>
        if i ≥ 1 ∧ i ≤ 1024 then
          ⟨⟨false, ""⟩, engine.setNumSearchThreads X i⟩
        else
          ⟨⟨true, "Invalid value for " ++ piece0 ++ ", must be integer from 1 to 1024"⟩, engine⟩
      | none =>
        ⟨⟨true, "Invalid value for " ++ piece0 ++ ", must be integer from 1 to 1024"⟩, engine⟩
    else if piece0 = "maxVisits" then
      match X.tryStringToInt64 piece1 with
      | some i64 =>
        if i64 ≥ 1 ∧ i64 ≤ 2 ^ 50 then
          ⟨⟨false, ""⟩, engine.setMaxVisits X i64⟩
        else
          ⟨⟨true, "Invalid value for " ++ piece0 ++ ", must be integer from 1 to 2^50"⟩, engine⟩
      | none =>
        ⟨⟨true, "Invalid value for " ++ piece0 ++ ", must be integer from 1 to 2^50"⟩, engine⟩
    else if piece0 = "maxPlayouts" then
      match X.tryStringToInt64 piece1 with
      | some i64 =>
        if i64 ≥ 1 ∧ i64 ≤ 2 ^ 50 then
          ⟨⟨false, ""⟩, engine.setMaxPlayouts X i64⟩
        else
          ⟨⟨true, "Invalid value for " ++ piece0 ++ ", must be integer from 1 to 2^50"⟩, engine⟩
      | none =>
        ⟨⟨true, "Invalid value for " ++ piece0 ++ ", must be integer from 1 to 2^50"⟩, engine⟩
    else if piece0 = "maxTime" then
      match X.tryStringToDouble piece1 with
      | some d =>
        if d ≥ 0 ∧ d ≤ 10 ^ 20 then
          ⟨⟨false, ""⟩, engine.setMaxTime X d⟩
        else
          ⟨⟨true, "Invalid value for " ++ piece0 ++ ", must be integer from 1 to 2^50"⟩, engine⟩
      | none =>
        ⟨⟨true, "Invalid value for " ++ piece0 ++ ", must be integer from 1 to 2^50"⟩, engine⟩
    else
      ⟨⟨true, "Unknown or invalid parameter: " ++ piece0⟩, engine⟩
  | _ =>
    ⟨⟨true, "Expected two arguments for kata-set-param but got '"
      ++ String.intercalate " " pieces ++ "'"⟩, engine⟩

/-- The parameter names that `kata-set-param` knows. -/
def setParamNames : List String :=
  ["playoutDoublingAdvantage", "rootPolicyTemperature", "analysisWideRootNoise",
   "numSearchThreads", "maxVisits", "maxPlayouts", "maxTime"]

/-- The value parses and lies in the range that `kata-set-param` accepts for
the parameter: [-3, 3] for `playoutDoublingAdvantage`, [0.01, 100] for
`rootPolicyTemperature`, [0, 5] for `analysisWideRootNoise`, [1, 1024] for
`numSearchThreads`, [1, 2^50] for `maxVisits` and `maxPlayouts`, [0, 1e20] for
`maxTime`. -/
def acceptedParamValue (X : GTPExternals K Board Hist Rules Bot) (name value : String) : Prop :=
  (name = "playoutDoublingAdvantage" ∧ ∃ d, X.tryStringToDouble value = some d ∧ -3 ≤ d ∧ d ≤ 3) ∨
  (name = "rootPolicyTemperature" ∧
    ∃ d, X.tryStringToDouble value = some d ∧ 1 / 100 ≤ d ∧ d ≤ 100) ∨
  (name = "analysisWideRootNoise" ∧ ∃ d, X.tryStringToDouble value = some d ∧ 0 ≤ d ∧ d ≤ 5) ∨
  (name = "numSearchThreads" ∧ ∃ i, X.tryStringToInt value = some i ∧ 1 ≤ i ∧ i ≤ 1024) ∨
  (name = "maxVisits" ∧ ∃ i, X.tryStringToInt64 value = some i ∧ 1 ≤ i ∧ i ≤ 2 ^ 50) ∨
  (name = "maxPlayouts" ∧ ∃ i, X.tryStringToInt64 value = some i ∧ 1 ≤ i ∧ i ≤ 2 ^ 50) ∨
  (name = "maxTime" ∧ ∃ d, X.tryStringToDouble value = some d ∧ 0 ≤ d ∧ d ≤ 10 ^ 20)

end GTPDefs

/-! ### A concrete board, bot and parser -/

/-- A bot for evaluating the GTP embedding: the stones and moves of its
position in order, and how many times its search was cleared. -/
structure SampleBot where
  position : List Move
  cleared : Nat
deriving DecidableEq, Repr

/-- Externals for evaluating the GTP embedding: a board is its list of stones,
`setStones` rejects a list that names a point twice, `makeMove` rejects a move on
an occupied point, and the parsers read a few decimal literals. -/
def sampleGTP : GTPExternals ℚ (List Move) Int Unit SampleBot :=
  { newBoard := fun _ _ => []
    setStones := fun board stones =>
      if (stones.map (fun m => m.loc)).Nodup then (true, stones) else (false, board)
    colorAt := fun board loc => (board.find? (fun m => m.loc = loc)).map (fun m => m.pla)
    xSize := fun _ => 5
    ySize := fun _ => 5
    komi := fun _ => 0
    setKomi := fun board _ => board
    numStonesOnBoard := fun board => board.length
    newHist := fun _ _ _ => 0
    setInitialTurnNumber := fun _ n => n
    initialTurnNumber := fun hist => hist
    histRules := fun _ => ()
    getRootBoard := fun bot => bot.position
    getRootHist := fun _ => 0
    botSetPosition := fun bot _ board _ => { bot with position := board }
    makeMove := fun bot loc pla =>
      if loc ∈ bot.position.map (fun m => m.loc) then (false, bot)
      else (true, { bot with position := bot.position ++ [⟨loc, pla⟩] })
    setParams := fun bot _ => bot
    clearSearch := fun bot => { bot with cleared := bot.cleared + 1 }
    tryStringToDouble := fun s => [("0", (0 : ℚ)), ("2.5", 5 / 2), ("7", 7)].lookup s
    tryStringToInt := fun s => [("0", (0 : Int)), ("7", 7), ("2000", 2000)].lookup s
    tryStringToInt64 := fun s => [("0", (0 : Int)), ("7", 7), ("2000", 2000)].lookup s }

/-- An engine on an empty board after the moves black 3, white 4. -/
def sampleEngine : GTPEngine ℚ (List Move) Unit SampleBot :=
  { staticPlayoutDoublingAdvantage := 0
    analysisWideRootNoise := 0
    bot := ⟨[⟨3, Player.black⟩, ⟨4, Player.white⟩], 0⟩
    currentRules := ()
    params := ⟨1, 0, 1, 100, 100, 10⟩
    initialBoard := []
    initialPla := Player.black
    moveHistory := [⟨3, Player.black⟩, ⟨4, Player.white⟩]
    recentWinLossValues := [1 / 2] }

/-! ## The Eigen backend (neuralnet/eigenbackend.cpp) -/

/-- Six floats passed by reference to a Winograd transform: the entries
`tmp[subY][0..5]` of a kernel row, or `t0[c] .. t5[c]` of a tile row or column. -/
structure Six (K : Type) where
  a0 : K
  a1 : K
  a2 : K
  a3 : K
  a4 : K
  a5 : K
deriving DecidableEq, Repr

section ConvDefs
variable {K : Type} [LinearOrderedField K]

/-- The lambda `transform3x3_6` of the `ConvLayer` constructor: it reads `a0`,
`a1`, `a2` and overwrites the six arguments. -/
def transform3x3_6 (a : Six K) : Six K :=
  let z0 := a.a0
  let z1 := a.a1
  let z2 := a.a2
  { a0 := (1 / 4) * z0
    a1 := (1 / 6) * (-z0 - z1 - z2)
    a2 := (1 / 6) * (-z0 + z1 - z2)
    a3 := (1 / 24) * (z0 + 2 * z1 + 4 * z2)
    a4 := (1 / 24) * (z0 - 2 * z1 + 4 * z2)
    a5 := 1 * z2 }

/-- The lambda `transform5x5_6` of the `ConvLayer` constructor: it reads `a0` to
`a4` and overwrites the six arguments. -/
def transform5x5_6 (a : Six K) : Six K :=
  let z0 := a.a0
  let z1 := a.a1
  let z2 := a.a2
  let z3 := a.a3
  let z4 := a.a4
  { a0 := (1 / 4) * z0
    a1 := (1 / 6) * (-z0 - z1 - z2 - z3 - z4)
    a2 := (1 / 6) * (-z0 + z1 - z2 + z3 - z4)
    a3 := (1 / 24) * (z0 + 2 * z1 + 4 * z2 + 8 * z3 + 16 * z4)
    a4 := (1 / 24) * (z0 - 2 * z1 + 4 * z2 - 8 * z3 + 16 * z4)
    a5 := 1 * z4 }

/-- The body of the input-transform loops of `ConvLayer::apply` for one channel:
the new values of `t0[ic] .. t5[ic]` from the old ones. -/
def inputTransform (t : Six K) : Six K :=
  let z0 := t.a0
  let z1 := t.a1
  let z2 := t.a2
  let z3 := t.a3
  let z4 := t.a4
  let z5 := t.a5
  { a0 := 4 * z0 - 5 * z2 + z4
    a1 := -4 * z1 - 4 * z2 + z3 + z4
    a2 := 4 * z1 - 4 * z2 - z3 + z4
    a3 := -2 * z1 - z2 + 2 * z3 + z4
    a4 := 2 * z1 - z2 - 2 * z3 + z4
    a5 := 4 * z1 - 5 * z3 + z5 }

/-- The product `winogradKernelMap * transformedInputMap` of `ConvLayer::apply`
with one input and one output channel: for each of the six sub-tile positions
the transformed kernel entry times the transformed input entry. -/
def transformedProduct (kernel input : Six K) : Six K :=
  { a0 := kernel.a0 * input.a0
    a1 := kernel.a1 * input.a1
    a2 := kernel.a2 * input.a2
    a3 := kernel.a3 * input.a3
    a4 := kernel.a4 * input.a4
    a5 := kernel.a5 * input.a5 }

/-- The body of the output-transform loops of `ConvLayer::apply` in the 3x3
branch for one channel: `t0[oc] .. t3[oc]` are rewritten, `t4[oc]` and `t5[oc]`
are left as they are. -/
def outputTransform3 (t : Six K) : Six K :=
  let z0 := t.a0
  let z1 := t.a1
  let z2 := t.a2
  let z3 := t.a3
  let z4 := t.a4
  let z5 := t.a5
  { t with
    a0 := z0 + z1 + z2 + z3 + z4
    a1 := (z1 - z2) + 2 * (z3 - z4)
    a2 := (z1 + z2) + 4 * (z3 + z4)
    a3 := (z1 - z2) + 8 * (z3 - z4) + z5 }

/-- The body of the output-transform loops of `ConvLayer::apply` in the 5x5
branch for one channel: `t0[oc]` and `t1[oc]` are rewritten. -/
def outputTransform5 (t : Six K) : Six K :=
  let z0 := t.a0
  let z1 := t.a1
  let z2 := t.a2
  let z3 := t.a3
  let z4 := t.a4
  let z5 := t.a5
  { t with
    a0 := z0 + z1 + z2 + z3 + z4
    a1 := (z1 - z2) + 2 * (z3 - z4) + z5 }

/-- Direct correlation as the claim words it: `y_i = sum_(k < taps) g_k * d_(i+k)`. -/
def directConv (taps : Nat) (g d : Nat → K) (i : Nat) : K :=
  ((List.range taps).map (fun k => g k * d (i + k))).sum

/-- The entry `a_i` of six floats, 0 outside `0..5`. -/
def Six.get (t : Six K) (i : Nat) : K :=
  match i with
  | 0 => t.a0
  | 1 => t.a1
  | 2 => t.a2
  | 3 => t.a3
  | 4 => t.a4
  | 5 => t.a5
  | _ => 0

end ConvDefs

/-- Embeds `roundUpToMultiple` on `size_t` values (taken without wrap-around). -/
def roundUpToMultiple (size ofThis : Nat) : Nat :=
  (size + ofThis - 1) / ofThis * ofThis

/-- The members of `ConvLayer` that size and address the convolution workspace.
The sizes are non-negative `int`s. -/
structure ConvLayer where
  convYSize : Nat
  convXSize : Nat
  inChannels : Nat
  outChannels : Nat
  nnXLen : Nat
  nnYLen : Nat
deriving DecidableEq, Repr

/-- The test `(convXSize == 3 && convYSize == 3) || (convXSize == 5 && convYSize == 5)`
that selects the Winograd branch. -/
def ConvLayer.isWinograd (layer : ConvLayer) : Bool :=
  (layer.convXSize == 3 && layer.convYSize == 3) || (layer.convXSize == 5 && layer.convYSize == 5)

/-- The constant `inTileXSize`. -/
def inTileXSize : Nat := 6

/-- The constant `inTileYSize`. -/
def inTileYSize : Nat := 6

/-- The local `outTileXSize`. -/
def ConvLayer.outTileXSize (layer : ConvLayer) : Nat :=
  if layer.convXSize = 5 then 2 else 4

/-- The local `outTileYSize`. -/
def ConvLayer.outTileYSize (layer : ConvLayer) : Nat :=
  if layer.convYSize = 5 then 2 else 4

/-- The member `numTilesX` set by the constructor in the Winograd branch. -/
def ConvLayer.numTilesX (layer : ConvLayer) : Nat :=
  (layer.nnXLen + layer.outTileXSize - 1) / layer.outTileXSize

/-- The member `numTilesY` set by the constructor in the Winograd branch. -/
def ConvLayer.numTilesY (layer : ConvLayer) : Nat :=
  (layer.nnYLen + layer.outTileYSize - 1) / layer.outTileYSize

/-- Embeds `ConvLayer::requiredConvWorkspaceElts`. -/
def ConvLayer.requiredConvWorkspaceElts (layer : ConvLayer) (maxBatchSize : Nat) : Nat :=
  if layer.isWinograd then
    let totalChannelsRounded :=
      roundUpToMultiple layer.inChannels 32 + roundUpToMultiple layer.outChannels 32
    let sizeForTransforms := totalChannelsRounded * maxBatchSize * layer.numTilesY
      * layer.numTilesX * inTileXSize * inTileYSize
    let sizeForTileBufs := 2 * inTileXSize * inTileYSize
      * roundUpToMultiple (max layer.inChannels layer.outChannels) 32
    sizeForTransforms + sizeForTileBufs
  else 0

/-- The pointer `tile` of `ConvLayer::apply` as an offset into `convWorkspace`. -/
def ConvLayer.tile (_layer : ConvLayer) : Nat := 0

/-- The pointer `tile2` of `ConvLayer::apply` as an offset into `convWorkspace`. -/
def ConvLayer.tile2 (layer : ConvLayer) : Nat :=
  layer.tile + inTileXSize * inTileYSize
    * roundUpToMultiple (max layer.inChannels layer.outChannels) 32

/-- The pointer `convWorkspaceIn` of `ConvLayer::apply` as an offset into
`convWorkspace`. -/
def ConvLayer.convWorkspaceIn (layer : ConvLayer) : Nat :=
  layer.tile2 + inTileXSize * inTileYSize
    * roundUpToMultiple (max layer.inChannels layer.outChannels) 32

/-- The pointer `convWorkspaceOut` of `ConvLayer::apply` as an offset into
`convWorkspace`. -/
def ConvLayer.convWorkspaceOut (layer : ConvLayer) (batchSize : Nat) : Nat :=
  layer.convWorkspaceIn + roundUpToMultiple layer.inChannels 32 * batchSize * layer.numTilesY
    * layer.numTilesX * inTileXSize * inTileYSize

/-- The offset of `tile[subTileIdx * channels + c]`, with `subTileIdx = dy * inTileXSize + dx`;
`channels` is `inChannels` in the input loops and `outChannels` in the output
loops. -/
def ConvLayer.tileElt (layer : ConvLayer) (channels dy dx c : Nat) : Nat :=
  let subTileIdx := dy * inTileXSize + dx
  layer.tile + (subTileIdx * channels + c)

/-- The local `batchTileXTileY` of `ConvLayer::apply`. -/
def ConvLayer.batchTileXTileY (layer : ConvLayer) (n yTile xTile : Nat) : Nat :=
  n * layer.numTilesY * layer.numTilesX + yTile * layer.numTilesX + xTile

/-- The position of element `(i, j, k)` in a `TensorMap<Tensor<SCALAR, 3>>` of
dimensions `dim0 x dim1 x dim2` (Eigen's default column-major layout, the one the
matrix maps of `ConvLayer::apply` at `data() + subTileIdx * dim1 * dim0` rely on). -/
def tensor3Index (dim0 dim1 i j k : Nat) : Nat :=
  i + dim0 * (j + dim1 * k)

/-- The offset of `transformedInput(ic, batchTileXTileY, subTileIdx)`. -/
def ConvLayer.transformedInputElt (layer : ConvLayer) (batchSize n yTile xTile dy dx ic : Nat) :
    Nat :=
  let subTileIdx := dy * inTileXSize + dx
  layer.convWorkspaceIn
    + tensor3Index layer.inChannels (batchSize * layer.numTilesY * layer.numTilesX)
        ic (layer.batchTileXTileY n yTile xTile) subTileIdx

/-- The offset of `transformedOutput(oc, batchTileXTileY, subTileIdx)`. -/
def ConvLayer.transformedOutputElt (layer : ConvLayer) (batchSize n yTile xTile dy dx oc : Nat) :
    Nat :=
  let subTileIdx := dy * inTileXSize + dx
  layer.convWorkspaceOut batchSize
    + tensor3Index layer.outChannels (batchSize * layer.numTilesY * layer.numTilesX)
        oc (layer.batchTileXTileY n yTile xTile) subTileIdx

/-- A 3x3 layer with 3 input and 40 output channels on a 5x6 board. -/
def sampleConvLayer : ConvLayer :=
  { convYSize := 3, convXSize := 3, inChannels := 3, outChannels := 40, nnXLen := 5, nnYLen := 6 }

section PoolDefs
variable {K : Type} [LinearOrderedField K]

/-- Embeds `computeMaskSum` for batch row `n`: the value stored in `maskSum[n]`,
for a mask of dimensions `xLen x yLen` (`mask->dimension(0)`, `mask->dimension(1)`). -/
def computeMaskSum (mask : Nat → Nat → Nat → K) (xLen yLen n : Nat) : K :=
  (List.range yLen).foldl (fun s h =>
    (List.range xLen).foldl (fun s w => s + mask w h n) s) 0

/-- The body of the inner loop of `poolRowsGPool` at `(w, h)`: the new values of
the locals `s` and `m`. -/
def poolStepGPool (inp : Nat → Nat → Nat → Nat → K) (mask : Nat → Nat → Nat → K)
    (n c h : Nat) (sm : K × K) (w : Nat) : K × K :=
  let x := inp c w h n
  let s := sm.1 + x
  let maskVal := mask w h n
  let m := max sm.2 (x + (maskVal - 1))
  (s, m)

/-- Embeds `poolRowsGPool` for batch row `n` and channel `c`, for an input of
dimensions `xLen x yLen` (`in->dimension(1)`, `in->dimension(2)`): the values
stored in `out(c, n)`, `out(c + C, n)` and `out(c + 2C, n)`. -/
def poolRowsGPool (sqrt : K → K) (inp : Nat → Nat → Nat → Nat → K)
    (mask : Nat → Nat → Nat → K) (maskSum : Nat → K) (xLen yLen n c : Nat) : K × K × K :=
  let sm := (List.range yLen).foldl (fun sm h =>
    (List.range xLen).foldl (poolStepGPool inp mask n c h) sm) (0, -1)
  let s := sm.1
  let m := sm.2
  let div := maskSum n
  let sqrtdiv := sqrt div
  let mean := s / div
  (mean, mean * (sqrtdiv - 14) * (1 / 10), m)

/-- The values of row `h` at the columns of `ws` whose mask is 1. -/
def validRow (inp : Nat → Nat → Nat → Nat → K) (mask : Nat → Nat → Nat → K)
    (n c h : Nat) (ws : List Nat) : List K :=
  ws.filterMap (fun w => if mask w h n = 1 then some (inp c w h n) else none)

/-- The input values of batch row `n` and channel `c` at the positions whose
mask is 1, in the order of the loops. -/
def validValues (inp : Nat → Nat → Nat → Nat → K) (mask : Nat → Nat → Nat → K)
    (xLen yLen n c : Nat) : List K :=
  (List.range yLen).flatMap (fun h => validRow inp mask n c h (List.range xLen))

/-- The loop invariant of `poolRowsGPool`: after the positions whose mask-1
values are `vs`, `s` is their sum and `m` is the larger of -1 and their maximum. -/
def GPoolInv (sm : K × K) (vs : List K) : Prop :=
  sm.1 = vs.sum ∧ (∀ v ∈ vs, v ≤ sm.2) ∧ (sm.2 = -1 ∨ sm.2 ∈ vs) ∧ -1 ≤ sm.2

end PoolDefs

/-- A 2x2 input with one masked-out position: values 3, -1/2, 1 on the board
and 0 on the padding at `(1, 1)`. -/
def samplePoolInput : Nat → Nat → Nat → Nat → ℚ :=
  fun _ w h _ => if w = 0 ∧ h = 0 then 3 else if w = 1 ∧ h = 0 then -1 / 2
    else if w = 0 ∧ h = 1 then 1 else 0

/-- The mask of `samplePoolInput`. -/
def samplePoolMask : Nat → Nat → Nat → ℚ :=
  fun w h _ => if w = 1 ∧ h = 1 then 0 else 1

/-! ### Analysis commands (command/gtp.cpp) -/

/-- The members of `GTPEngine::AnalyzeArgs`. -/
structure AnalyzeArgs (K : Type) where
  analyzing : Bool
  lz : Bool
  kata : Bool
  minMoves : Int
  maxMoves : Int
  showPVVisits : Bool
  showPVEdgeVisits : Bool
  secondsPerReport : K
  avoidMoveUntilByLocBlack : List Int
  avoidMoveUntilByLocWhite : List Int
deriving DecidableEq, Repr

/-- The members of `AnalysisData` that `filterZeroVisitMoves` and this
development read: the move and its visit count. -/
structure AnalysisData where
  move : Nat
  numVisits : Int
deriving DecidableEq, Repr

/-- The loop of `GTPEngine::filterZeroVisitMoves` from index `i` on, over its
parameter `buf` and its local `keptMoves`; `todo` counts the iterations left. -/
def filterZeroVisitMovesLoop (minMoves : Int) :
    Nat → Nat → List AnalysisData → Int → List AnalysisData × Int
  | 0, _, buf, keptMoves => (buf, keptMoves)
  | todo + 1, i, buf, keptMoves =>
    match buf.get? i with
    | none => (buf, keptMoves)
    | some d =>
      if d.numVisits > 0 ∨ keptMoves < minMoves then
        filterZeroVisitMovesLoop minMoves todo (i + 1) (buf.set keptMoves.toNat d) (keptMoves + 1)
      else filterZeroVisitMovesLoop minMoves todo (i + 1) buf keptMoves

/-- The body of `GTPEngine::filterZeroVisitMoves`: the value of its parameter
`buf` when the function returns. -/
def filterZeroVisitMovesBody (minMoves : Int) (buf : List AnalysisData) : List AnalysisData :=
  let r := filterZeroVisitMovesLoop minMoves buf.length 0 buf 0
  r.1.take r.2.toNat

/-- The caller's vector after the call `filterZeroVisitMoves(args, buf)`.  The
parameter is declared `vector<AnalysisData> buf`, by value: the body works on a
copy, dropped on return, and the caller's vector is what it was. -/
def filterZeroVisitMoves (minMoves : Int) (buf : List AnalysisData) : List AnalysisData :=
  let _copy := filterZeroVisitMovesBody minMoves buf
  buf

/-- The buffer that the callbacks of `GTPEngine::getAnalyzeCallback` go on to
print, from the buffer filled by `getAnalysisData`: after the call of
`filterZeroVisitMoves` and the cut to `maxMoves` entries. -/
def analyzeCallbackBuf (minMoves maxMoves : Int) (buf : List AnalysisData) : List AnalysisData :=
  let buf := filterZeroVisitMoves minMoves buf
  if (buf.length : Int) > maxMoves then buf.take maxMoves.toNat else buf

/-- The entries that the comment of `filterZeroVisitMoves` asks for: those with
`numVisits > 0` or met while fewer than `minMoves` entries had been kept, in
order; `keptMoves` is the number of entries kept so far. -/
def keptAnalysisData (minMoves : Int) : List AnalysisData → Int → List AnalysisData
  | [], _ => []
  | d :: rest, keptMoves =>
    if d.numVisits > 0 ∨ keptMoves < minMoves then d :: keptAnalysisData minMoves rest (keptMoves + 1)
    else keptAnalysisData minMoves rest keptMoves

/-- What `parseAnalyzeCommand` calls but this translation unit does not define. -/
structure AnalyzeExternals (K : Type) where
  /-- The call `PlayerIO::tryParsePlayer(s, pla)`: the parsed player on success. -/
  tryParsePlayer : String → Option Player
  /-- The call `Global::tryStringToDouble(s, d)`: the parsed value on success. -/
  tryStringToDouble : String → Option K
  /-- The call `Global::tryStringToInt(s, i)`: the parsed value on success. -/
  tryStringToInt : String → Option Int
  /-- The call `Global::tryStringToBool(s, b)`: the parsed value on success. -/
  tryStringToBool : String → Option Bool
  /-- The call `Global::split(s, ',')`. -/
  split : String → List String
  /-- The call `Global::trim(s)`. -/
  trim : String → String
  /-- The call `tryParseLoc(s, engine->bot->getRootBoard(), loc)`: the parsed
  location on success. -/
  tryParseLoc : String → Option Nat
  /-- The constant `TimeControls::UNLIMITED_TIME_DEFAULT`. -/
  unlimitedTimeDefault : K
  /-- The constant `TimeControls::MAX_USER_INPUT_TIME`. -/
  maxUserInputTime : K
  /-- The constant `Board::MAX_ARR_SIZE`. -/
  maxArrSize : Nat

/-- The locals of `parseAnalyzeCommand` that its loop reads and writes, and the
out-parameter `parseFailed`. -/
structure AnalyzeParse (K : Type) where
  lzAnalyzeInterval : K
  minMoves : Int
  maxMoves : Int
  showPVVisits : Bool
  showPVEdgeVisits : Bool
  avoidMoveUntilByLocBlack : List Int
  avoidMoveUntilByLocWhite : List Int
  gotAvoidMovesBlack : Bool
  gotAllowMovesBlack : Bool
  gotAvoidMovesWhite : Bool
  gotAllowMovesWhite : Bool
  parseFailed : Bool
deriving DecidableEq, Repr

section ParseDefs
variable {K : Type} [LinearOrderedField K]

/-- The test `tryStringToDouble(s, lzAnalyzeInterval) && lzAnalyzeInterval >= 0 &&
lzAnalyzeInterval < MAX_USER_INPUT_TIME` (a field element is never NaN): its
value and the locals after it; a successful parse writes `lzAnalyzeInterval`
whatever the range test says. -/
def tryInterval (X : AnalyzeExternals K) (st : AnalyzeParse K) (s : String) :
    Bool × AnalyzeParse K :=
  match X.tryStringToDouble s with
  | some d => (decide (d ≥ 0 ∧ d < X.maxUserInputTime), { st with lzAnalyzeInterval := d })
  | none => (false, st)

/-- The test `tryStringToInt(value, minMoves) && minMoves >= 0 && minMoves < 1000000000`. -/
def tryMinMoves (X : AnalyzeExternals K) (st : AnalyzeParse K) (value : String) :
    Bool × AnalyzeParse K :=
  match X.tryStringToInt value with
  | some i => (decide (i ≥ 0 ∧ i < 1000000000), { st with minMoves := i })
  | none => (false, st)

/-- The test `tryStringToInt(value, maxMoves) && maxMoves >= 0 && maxMoves < 1000000000`. -/
def tryMaxMoves (X : AnalyzeExternals K) (st : AnalyzeParse K) (value : String) :
    Bool × AnalyzeParse K :=
  match X.tryStringToInt value with
  | some i => (decide (i ≥ 0 ∧ i < 1000000000), { st with maxMoves := i })
  | none => (false, st)

/-- The test `tryStringToBool(value, showPVVisits)`. -/
def tryPVVisits (X : AnalyzeExternals K) (st : AnalyzeParse K) (value : String) :
    Bool × AnalyzeParse K :=
  match X.tryStringToBool value with
  | some b => (true, { st with showPVVisits := b })
  | none => (false, st)

/-- The test `tryStringToBool(value, showPVEdgeVisits)`. -/
def tryPVEdgeVisits (X : AnalyzeExternals K) (st : AnalyzeParse K) (value : String) :
    Bool × AnalyzeParse K :=
  match X.tryStringToBool value with
  | some b => (true, { st with showPVEdgeVisits := b })
  | none => (false, st)

/-- The loop over `locPieces` in the avoid/allow branch: `parsedLocs` after it,
`none` when a piece fails to parse. -/
def parseLocPieces (X : AnalyzeExternals K) : List String → List Nat → Option (List Nat)
  | [], parsedLocs => some parsedLocs
  | piece :: locPieces, parsedLocs =>
    let s := X.trim piece
    if s.length ≤ 0 then parseLocPieces X locPieces parsedLocs
    else
      match X.tryParseLoc s with
      | none => none
      | some loc => parseLocPieces X locPieces (parsedLocs ++ [loc])

/-- The call `v.resize(n)` on a `vector<int>`: new entries are 0. -/
def resizeInts (v : List Int) (n : Nat) : List Int :=
  (v ++ List.replicate (n - v.length) 0).take n

/-- The update of `avoidMoveUntilByLoc` in the avoid/allow branch. -/
def updateAvoidMoveUntilByLoc (X : AnalyzeExternals K) (key : String) (untilDepth : Int)
    (parsedLocs : List Nat) (avoidMoveUntilByLoc : List Int) : List Int :=
  let v := resizeInts avoidMoveUntilByLoc X.maxArrSize
  if key = "allow" then
    parsedLocs.foldl (fun v loc => v.set loc 0) (List.replicate v.length untilDepth)
  else
    parsedLocs.foldl (fun v loc => v.set loc untilDepth) v

/-- The reference `gotAvoidMoves` of the avoid/allow branch: the flag of the
black player when `avoidPla == P_BLACK`, of the white player otherwise. -/
def AnalyzeParse.gotAvoidMoves (st : AnalyzeParse K) (avoidPla : Player) : Bool :=
  if avoidPla = Player.black then st.gotAvoidMovesBlack else st.gotAvoidMovesWhite

/-- The reference `gotAllowMoves` of the avoid/allow branch. -/
def AnalyzeParse.gotAllowMoves (st : AnalyzeParse K) (avoidPla : Player) : Bool :=
  if avoidPla = Player.black then st.gotAllowMovesBlack else st.gotAllowMovesWhite

/-- The avoid/allow branch of the loop of `parseAnalyzeCommand` once its four
arguments `key`, `value`, `movesStr` and `untilDepthStr` are read: the locals
after it, with `parseFailed` set where the source breaks out of the loop. -/
def parseAvoidAllow (X : AnalyzeExternals K) (st : AnalyzeParse K)
    (key value movesStr untilDepthStr : String) : AnalyzeParse K :=
  match X.tryStringToInt untilDepthStr with
  | none => { st with parseFailed := true }
  | some untilDepth =>
    if untilDepth < 1 then { st with parseFailed := true }
    else
      match X.tryParsePlayer value with
      | none => { st with parseFailed := true }
      | some avoidPla =>
        match parseLocPieces X (X.split movesStr) [] with
        | none => { st with parseFailed := true }
        | some parsedLocs =>
          if (key = "allow" ∧ st.gotAvoidMoves avoidPla = true)
              ∨ (key = "allow" ∧ st.gotAllowMoves avoidPla = true)
              ∨ (key = "avoid" ∧ st.gotAllowMoves avoidPla = true) then
            { st with parseFailed := true }
          else if avoidPla = Player.black then
            { st with
              avoidMoveUntilByLocBlack :=
                updateAvoidMoveUntilByLoc X key untilDepth parsedLocs st.avoidMoveUntilByLocBlack
              gotAvoidMovesBlack := st.gotAvoidMovesBlack || decide (key = "avoid")
              gotAllowMovesBlack := st.gotAllowMovesBlack || decide (key = "allow") }
          else
            { st with
              avoidMoveUntilByLocWhite :=
                updateAvoidMoveUntilByLoc X key untilDepth parsedLocs st.avoidMoveUntilByLocWhite
              gotAvoidMovesWhite := st.gotAvoidMovesWhite || decide (key = "avoid")
              gotAllowMovesWhite := st.gotAllowMovesWhite || decide (key = "allow") }

/-- The loop `while(pieces.size() > numArgsParsed)` of `parseAnalyzeCommand`, on
the arguments from `numArgsParsed` on: the locals when the loop is left. -/
def parseKeyValues (X : AnalyzeExternals K) (isKata : Bool) :
    AnalyzeParse K → List String → AnalyzeParse K
  | st, [] => st
  | st, [_key] => { st with parseFailed := true }
  | st, key :: value :: rest =>
    let r1 := if key = "interval" then tryInterval X st value else (false, st)
    if r1.1 then parseKeyValues X isKata r1.2 rest
    else if key = "avoid" ∨ key = "allow" then
      match rest with
      | movesStr :: untilDepthStr :: rest' =>
        let st' := parseAvoidAllow X r1.2 key value movesStr untilDepthStr
        if st'.parseFailed then st' else parseKeyValues X isKata st' rest'
      | _ => { r1.2 with parseFailed := true }
    else
      let r3 := if key = "minmoves" then tryMinMoves X r1.2 value else (false, r1.2)
      if r3.1 then parseKeyValues X isKata r3.2 rest
      else
        let r4 := if key = "maxmoves" then tryMaxMoves X r3.2 value else (false, r3.2)
        if r4.1 then parseKeyValues X isKata r4.2 rest
        else
          let r5 := if isKata ∧ key = "pvVisits" then tryPVVisits X r4.2 value else (false, r4.2)
          if r5.1 then parseKeyValues X isKata r5.2 rest
          else
            let r6 := if isKata ∧ key = "pvEdgeVisits" then tryPVEdgeVisits X r5.2 value
              else (false, r5.2)
            if r6.1 then parseKeyValues X isKata r6.2 rest
            else { r6.2 with parseFailed := true }

/-- The locals of `parseAnalyzeCommand` before the optional arguments are read. -/
def initialAnalyzeParse (X : AnalyzeExternals K) : AnalyzeParse K :=
  { lzAnalyzeInterval := X.unlimitedTimeDefault
    minMoves := 0
    maxMoves := 10000000
    showPVVisits := false
    showPVEdgeVisits := false
    avoidMoveUntilByLocBlack := []
    avoidMoveUntilByLocWhite := []
    gotAvoidMovesBlack := false
    gotAllowMovesBlack := false
    gotAvoidMovesWhite := false
    gotAllowMovesWhite := false
    parseFailed := false }

/-- The arguments left after the optional player of `parseAnalyzeCommand`. -/
def dropOptionalPlayer (X : AnalyzeExternals K) (pieces : List String) : List String :=
  match pieces with
  | piece :: rest => if (X.tryParsePlayer piece).isSome then rest else pieces
  | [] => pieces

/-- The locals and the arguments left after the optional interval of
`parseAnalyzeCommand`. -/
def dropOptionalInterval (X : AnalyzeExternals K) (st : AnalyzeParse K) (pieces : List String) :
    AnalyzeParse K × List String :=
  match pieces with
  | piece :: rest =>
    let r := tryInterval X st piece
    if r.1 then (r.2, rest) else (r.2, pieces)
  | [] => (st, pieces)

/-- Embeds `parseAnalyzeCommand`: the returned `AnalyzeArgs` and the
out-parameter `parseFailed`.  The parameter `pla` is not written. -/
def parseAnalyzeCommand (X : AnalyzeExternals K) (command : String) (pieces : List String) :
    AnalyzeArgs K × Bool :=
  let isLZ := command = "lz-analyze" ∨ command = "lz-genmove_analyze"
  let isKata := command = "kata-analyze" ∨ command = "kata-genmove_analyze"
  let afterInterval := dropOptionalInterval X (initialAnalyzeParse X) (dropOptionalPlayer X pieces)
  let st := parseKeyValues X (decide isKata) afterInterval.1 afterInterval.2
  ({ analyzing := true
     lz := decide isLZ
     kata := decide isKata
     secondsPerReport := st.lzAnalyzeInterval * (1 / 100)
     minMoves := st.minMoves
     maxMoves := st.maxMoves
     showPVVisits := st.showPVVisits
     showPVEdgeVisits := st.showPVEdgeVisits
     avoidMoveUntilByLocBlack := st.avoidMoveUntilByLocBlack
     avoidMoveUntilByLocWhite := st.avoidMoveUntilByLocWhite },
   st.parseFailed)

/-- The arguments of `parseAnalyzeCommand` that its loop reads: those after the
optional player and the optional interval. -/
def keyValueArgs (X : AnalyzeExternals K) (pieces : List String) : List String :=
  (dropOptionalInterval X (initialAnalyzeParse X) (dropOptionalPlayer X pieces)).2

/-- A key with its arguments as the loop reads them: `avoid` and `allow` take
three arguments (player, moves, until-depth), every other key takes one. -/
def IsKeyGroup (g : List String) : Prop :=
  (∃ key value, g = [key, value] ∧ key ≠ "avoid" ∧ key ≠ "allow") ∨
  (∃ key value movesStr untilDepthStr,
    g = [key, value, movesStr, untilDepthStr] ∧ (key = "avoid" ∨ key = "allow"))

/-- An `avoid` key with arguments that parse: a player, a list of moves and an
until-depth of at least 1. -/
def IsAvoidGroup (X : AnalyzeExternals K) (g : List String) : Prop :=
  ∃ value movesStr untilDepthStr untilDepth,
    g = ["avoid", value, movesStr, untilDepthStr] ∧
    X.tryStringToInt untilDepthStr = some untilDepth ∧ 1 ≤ untilDepth ∧
    (X.tryParsePlayer value).isSome = true ∧
    (parseLocPieces X (X.split movesStr) []).isSome = true

end ParseDefs

/-- A parser for evaluating `parseAnalyzeCommand`: players `b` and `w`, a few
numerals and two locations; `split` returns its argument as the only piece. -/
def sampleAnalyzeExternals : AnalyzeExternals ℚ :=
  { tryParsePlayer := fun s => [("b", Player.black), ("w", Player.white)].lookup s
    tryStringToDouble := fun s => [("50", (50 : ℚ))].lookup s
    tryStringToInt := fun s => [("1", (1 : Int)), ("5", 5)].lookup s
    tryStringToBool := fun s => [("true", true), ("false", false)].lookup s
    split := fun s => [s]
    trim := fun s => s
    tryParseLoc := fun s => [("3", 3), ("4", 4)].lookup s
    unlimitedTimeDefault := 1000000
    maxUserInputTime := 100000
    maxArrSize := 8 }

/-! ## The update helpers in double arithmetic

The definitions above read every `double` operation as the exact operation of
an ordered field.  The definitions of this section follow the same source lines
with the rounding `fl` applied after every addition, subtraction, multiplication
and division, in the order in which the source evaluates them; with
`fl = roundDouble` on the rationals they compute what the code computes in
binary64 as long as no operation overflows or underflows.  Negation, `max`,
`min` and comparisons are exact.  The libm functions and the other externals
return doubles and are not rounded again. -/

/-- Rounding to the nearest integer, ties to the even one. -/
def roundHalfEven (t : ℚ) : Int :=
  let f := ⌊t⌋
  let r := t - f
  if r < 1 / 2 then f else if 1 / 2 < r then f + 1 else if f % 2 = 0 then f else f + 1

/-- Rounding to the nearest `double` (binary64: 53 significant bits, ties to
even) of a rational in the range of the normal doubles.  Overflow, underflow
into the subnormal range, infinities and NaN are not modelled. -/
def roundDouble (x : ℚ) : ℚ :=
  if x = 0 then 0
  else
    let ulp : ℚ := 2 ^ (Int.log 2 |x| - 52)
    (roundHalfEven (x / ulp) : ℚ) * ulp

section Rounded
variable {K : Type} [LinearOrderedField K]

/-- The local `poweredUncertainty` of `Search::computeWeightFromNNOutput` in
double arithmetic. -/
def poweredUncertaintyFl (fl : K → K) (E : Externals K) (searchParams : SearchParams K)
    (nnOutput : NNOutput K) : K :=
  let utilityUncertaintyWL :=
    fl (searchParams.winLossUtilityFactor * nnOutput.shorttermWinlossError)
  let utilityUncertainty := utilityUncertaintyWL
  if searchParams.uncertaintyExponent = 1 then utilityUncertainty
  else if searchParams.uncertaintyExponent = 1 / 2 then E.sqrt utilityUncertainty
  else E.pow utilityUncertainty searchParams.uncertaintyExponent

/-- `Search::computeWeightFromNNOutput` in double arithmetic. -/
def computeWeightFromNNOutputFl (fl : K → K) (E : Externals K) (searchParams : SearchParams K)
    (nnOutput : NNOutput K) : K :=
  if !searchParams.useUncertainty then 1
  else if !E.supportsShorttermError then 1
  else
    let baselineUncertainty := fl (searchParams.uncertaintyCoeff / searchParams.uncertaintyMaxWeight)
    let weight := fl (searchParams.uncertaintyCoeff /
      fl (poweredUncertaintyFl fl E searchParams nnOutput + baselineUncertainty))
    weight

/-- The leaf weight of section 4.3.3 of the specification (`specLeafWeight`)
evaluated in double arithmetic: the general `pow` path for every exponent. -/
def specLeafWeightFl (fl : K → K) (E : Externals K) (searchParams : SearchParams K)
    (nnOutput : NNOutput K) : K :=
  if searchParams.useUncertainty = false ∨ E.supportsShorttermError = false then 1
  else
    let utilityUncertainty :=
      fl (searchParams.winLossUtilityFactor * nnOutput.shorttermWinlossError)
    let baseline := fl (searchParams.uncertaintyCoeff / searchParams.uncertaintyMaxWeight)
    fl (searchParams.uncertaintyCoeff /
      fl (E.pow utilityUncertainty searchParams.uncertaintyExponent + baseline))

/-- The value of `newWeight` at the end of one iteration of the loop of
`Search::pruneNoiseWeight`, in double arithmetic. -/
def pruneNoiseNewWeightFl (fl : K → K) (E : Externals K) (searchParams : SearchParams K)
    (utilitySumSoFar weightSumSoFar rawPolicySumSoFar utility oldWeight rawPolicy : K) : K :=
  if weightSumSoFar > 0 ∧ rawPolicySumSoFar > 0 then
    let avgUtilitySoFar := fl (utilitySumSoFar / weightSumSoFar)
    let utilityGap := fl (avgUtilitySoFar - utility)
    if utilityGap > 0 then
      let weightShareFromRawPolicy := fl (fl (weightSumSoFar * rawPolicy) / rawPolicySumSoFar)
      let lenientWeightShareFromRawPolicy := fl (2 * weightShareFromRawPolicy)
      if oldWeight > lenientWeightShareFromRawPolicy then
        let excessWeight := fl (oldWeight - lenientWeightShareFromRawPolicy)
        let weightToSubtract :=
          fl (excessWeight
            * fl (1 - E.exp (fl (-utilityGap / searchParams.noisePruneUtilityScale))))
        let weightToSubtract :=
          if weightToSubtract > searchParams.noisePruningCap then searchParams.noisePruningCap
          else weightToSubtract
        fl (oldWeight - weightToSubtract)
      else oldWeight
    else oldWeight
  else oldWeight

/-- The `for` loop of `Search::pruneNoiseWeight` from index `i` on, in double
arithmetic. -/
def pruneNoiseLoopFl (fl : K → K) (E : Externals K) (searchParams : SearchParams K)
    (policyProbsBuf : Nat → K) :
    Nat → List (MoreNodeStats K) → K → K → K → List (MoreNodeStats K) × K
  | _, [], _, weightSumSoFar, _ => ([], weightSumSoFar)
  | i, s :: rest, utilitySumSoFar, weightSumSoFar, rawPolicySumSoFar =>
    let utility := s.selfUtility
    let oldWeight := s.weightAdjusted
    let rawPolicy := policyProbsBuf i
    let newWeight := pruneNoiseNewWeightFl fl E searchParams
      utilitySumSoFar weightSumSoFar rawPolicySumSoFar utility oldWeight rawPolicy
    let r := pruneNoiseLoopFl fl E searchParams policyProbsBuf (i + 1) rest
      (fl (utilitySumSoFar + fl (utility * newWeight))) (fl (weightSumSoFar + newWeight))
      (fl (rawPolicySumSoFar + rawPolicy))
    ({ s with weightAdjusted := newWeight } :: r.1, r.2)

/-- `Search::pruneNoiseWeight` in double arithmetic; the literal `0.00001` is
the double nearest to it. -/
def pruneNoiseWeightFl (fl : K → K) (E : Externals K) (searchParams : SearchParams K)
    (statsBuf : List (MoreNodeStats K)) (numChildren : Int) (totalChildWeight : K)
    (policyProbsBuf : Nat → K) : List (MoreNodeStats K) × K :=
  if numChildren ≤ 1 ∨ totalChildWeight ≤ fl (1 / 100000) then (statsBuf, totalChildWeight)
  else
    let r := pruneNoiseLoopFl fl E searchParams policyProbsBuf 0
      (statsBuf.take numChildren.toNat) 0 0 0
    (r.1 ++ statsBuf.drop numChildren.toNat, r.2)

/-- The first loop of the `valueWeightExponent == 0` branch in double
arithmetic. -/
def subtractPruneLoopFl (fl : K → K) (amountToSubtract amountToPrune : K) :
    List (MoreNodeStats K) → K → List (MoreNodeStats K) × K
  | [], currentTotalWeight => ([], currentTotalWeight)
  | s :: rest, currentTotalWeight =>
    if s.weightAdjusted < amountToPrune then
      let r := subtractPruneLoopFl fl amountToSubtract amountToPrune rest
        (fl (currentTotalWeight - s.weightAdjusted))
      ({ s with weightAdjusted := 0 } :: r.1, r.2)
    else
      let newWeight := fl (s.weightAdjusted - amountToSubtract)
      if newWeight ≤ 0 then
        let r := subtractPruneLoopFl fl amountToSubtract amountToPrune rest
          (fl (currentTotalWeight - s.weightAdjusted))
        ({ s with weightAdjusted := 0 } :: r.1, r.2)
      else
        let r := subtractPruneLoopFl fl amountToSubtract amountToPrune rest
          (fl (currentTotalWeight - amountToSubtract))
        ({ s with weightAdjusted := newWeight } :: r.1, r.2)

/-- The loop `statsBuf[i].weightAdjusted *= factor` in double arithmetic. -/
def scaleWeightsFl (fl : K → K) (factor : K) (statsBuf : List (MoreNodeStats K)) :
    List (MoreNodeStats K) :=
  statsBuf.map (fun s => { s with weightAdjusted := fl (s.weightAdjusted * factor) })

/-- The value accumulated in `simpleValueSum` in double arithmetic. -/
def simpleValueSumFl (fl : K → K) : List (MoreNodeStats K) → K → K
  | [], acc => acc
  | s :: rest, acc =>
    if s.stats.visits = 0 then simpleValueSumFl fl rest acc
    else simpleValueSumFl fl rest (fl (acc + fl (s.selfUtility * s.weightAdjusted)))

/-- The entry `stdevs[i]` in double arithmetic; the literal `0.00000001` is the
double nearest to it. -/
def childStdevFl (fl : K → K) (E : Externals K) (s : MoreNodeStats K) : K :=
  let weight := s.weightAdjusted
  let precision := fl ((3 / 2) * E.sqrt weight)
  let minVariance : K := fl (1 / 100000000)
  E.sqrt (fl (minVariance + fl (1 / precision)))

/-- The second loop of the downweighting branch in double arithmetic; the
literal `0.0001` is the double nearest to it. -/
def downweightLoopFl (fl : K → K) (E : Externals K) (searchParams : SearchParams K)
    (amountToSubtract amountToPrune simpleValue : K) :
    List (MoreNodeStats K) → K → List (MoreNodeStats K) × K
  | [], totalNewUnnormWeight => ([], totalNewUnnormWeight)
  | s :: rest, totalNewUnnormWeight =>
    if s.stats.visits = 0 then
      let r := downweightLoopFl fl E searchParams amountToSubtract amountToPrune simpleValue rest
        totalNewUnnormWeight
      (s :: r.1, r.2)
    else if s.weightAdjusted < amountToPrune then
      let r := downweightLoopFl fl E searchParams amountToSubtract amountToPrune simpleValue rest
        totalNewUnnormWeight
      ({ s with weightAdjusted := 0 } :: r.1, r.2)
    else
      let newWeight := fl (s.weightAdjusted - amountToSubtract)
      let weightAdjusted := if newWeight ≤ 0 then 0 else newWeight
      let z := fl (fl (s.selfUtility - simpleValue) / childStdevFl fl E s)
      let p := fl (E.getCdf z + fl (1 / 10000))
      let weightAdjusted := fl (weightAdjusted * E.pow p searchParams.valueWeightExponent)
      let r := downweightLoopFl fl E searchParams amountToSubtract amountToPrune simpleValue rest
        (fl (totalNewUnnormWeight + weightAdjusted))
      ({ s with weightAdjusted := weightAdjusted } :: r.1, r.2)

/-- `Search::downweightBadChildrenAndNormalizeWeight` in double arithmetic. -/
def downweightBadChildrenAndNormalizeWeightFl (fl : K → K) (E : Externals K)
    (searchParams : SearchParams K) (numChildren : Int)
    (currentTotalWeight desiredTotalWeight amountToSubtract amountToPrune : K)
    (statsBuf : List (MoreNodeStats K)) : List (MoreNodeStats K) :=
  if numChildren ≤ 0 ∨ currentTotalWeight ≤ 0 then statsBuf
  else if searchParams.valueWeightExponent = 0 then
    let r := subtractPruneLoopFl fl amountToSubtract amountToPrune
      (statsBuf.take numChildren.toNat) currentTotalWeight
    let currentTotalWeight := r.2
    if currentTotalWeight ≠ desiredTotalWeight then
      let factor := fl (desiredTotalWeight / currentTotalWeight)
      scaleWeightsFl fl factor r.1 ++ statsBuf.drop numChildren.toNat
    else r.1 ++ statsBuf.drop numChildren.toNat
  else
    let simpleValueSum := simpleValueSumFl fl (statsBuf.take numChildren.toNat) 0
    let simpleValue := fl (simpleValueSum / currentTotalWeight)
    let r := downweightLoopFl fl E searchParams amountToSubtract amountToPrune simpleValue
      (statsBuf.take numChildren.toNat) 0
    let totalNewUnnormWeight := r.2
    let factor := fl (desiredTotalWeight / totalNewUnnormWeight)
    scaleWeightsFl fl factor r.1 ++ statsBuf.drop numChildren.toNat

/-- The local `origTotalChildWeight` of `Search::recomputeNodeStats` in double
arithmetic: the weights are added in the order of the children. -/
def origTotalChildWeightFl (fl : K → K) (E : Externals K) (node : SearchNode K) : K :=
  (collectChildren E node.nextPla node.children).foldl
    (fun origTotalChildWeight s => fl (origTotalChildWeight + s.weightAdjusted)) 0

/-- The array `policyProbsBuf` of `Search::recomputeNodeStats`; the literal
`1e-30` is the double nearest to it. -/
def policyProbsBufFl (fl : K → K) (E : Externals K) (nnOutput : NNOutput K)
    (statsBuf : List (MoreNodeStats K)) (i : Nat) : K :=
  match statsBuf.get? i with
  | some s => max (fl (1 / 10 ^ 30)) (nnOutput.policyProbs (E.getPos s.prevMoveLoc))
  | none => 0

/-- Lines 154-167 of `Search::recomputeNodeStats` in double arithmetic. -/
def noisePrunedChildrenFl (fl : K → K) (E : Externals K) (searchParams : SearchParams K)
    (node : SearchNode K) : List (MoreNodeStats K) × K :=
  let statsBuf := collectChildren E node.nextPla node.children
  let numGoodChildren : Int := statsBuf.length
  let currentTotalChildWeight := origTotalChildWeightFl fl E node
  if searchParams.useNoisePruning ∧ numGoodChildren > 0 then
    pruneNoiseWeightFl fl E searchParams statsBuf numGoodChildren currentTotalChildWeight
      (policyProbsBufFl fl E node.nnOutput statsBuf)
  else (statsBuf, currentTotalChildWeight)

/-- Lines 170-180 of `Search::recomputeNodeStats` in double arithmetic. -/
def rootAmountsFl (fl : K → K) (searchParams : SearchParams K) (isRoot : Bool)
    (statsBuf : List (MoreNodeStats K)) : K × K :=
  if isRoot ∧ searchParams.rootNoiseEnabled ∧ ¬ searchParams.useNoisePruning then
    let maxChildWeight := maxChildWeightLoop statsBuf 0
    (min searchParams.chosenMoveSubtract (fl (maxChildWeight / 64)),
     min searchParams.chosenMovePrune (fl (maxChildWeight / 64)))
  else (0, 0)

/-- Lines 125-186 of `Search::recomputeNodeStats` in double arithmetic. -/
def adjustedChildrenFl (fl : K → K) (E : Externals K) (searchParams : SearchParams K)
    (node : SearchNode K) (isRoot : Bool) : List (MoreNodeStats K) :=
  let pruned := noisePrunedChildrenFl fl E searchParams node
  let statsBuf := pruned.1
  let numGoodChildren : Int := statsBuf.length
  let currentTotalChildWeight := pruned.2
  let amounts := rootAmountsFl fl searchParams isRoot statsBuf
  downweightBadChildrenAndNormalizeWeightFl fl E searchParams numGoodChildren
    currentTotalChildWeight currentTotalChildWeight amounts.1 amounts.2 statsBuf

/-- The five sums of `Search::recomputeNodeStats` after the loop over the good
children, in double arithmetic: `winLossValueSum`, `noResultValueSum`,
`utilitySum`, `utilitySqSum` and `weightSqSum`. -/
def childSumsFl (fl : K → K) : List (MoreNodeStats K) → K × K × K × K × K → K × K × K × K × K
  | [], sums => sums
  | s :: rest, (winLossValueSum, noResultValueSum, utilitySum, utilitySqSum, weightSqSum) =>
    let stats := s.stats
    let desiredWeight := s.weightAdjusted
    let weightScaling := fl (desiredWeight / stats.weightSum)
    childSumsFl fl rest
      (fl (winLossValueSum + fl (desiredWeight * stats.winLossValueAvg)),
       fl (noResultValueSum + fl (desiredWeight * stats.noResultValueAvg)),
       fl (utilitySum + fl (desiredWeight * stats.utilityAvg)),
       fl (utilitySqSum + fl (desiredWeight * stats.utilitySqAvg)),
       fl (weightSqSum + fl (fl (weightScaling * weightScaling) * stats.weightSqSum)))

/-- `Search::recomputeNodeStats` in double arithmetic: the stats published in
`node.stats`. -/
def recomputeNodeStatsFl (fl : K → K) (E : Externals K) (searchParams : SearchParams K)
    (node : SearchNode K) (numVisitsToAdd : Int) (isRoot : Bool) : NodeStats K :=
  let currentTotalChildWeight := (noisePrunedChildrenFl fl E searchParams node).2
  let statsBuf := adjustedChildrenFl fl E searchParams node isRoot
  let sums := childSumsFl fl statsBuf (0, 0, 0, 0, 0)
  let winLossValueSum := sums.1
  let noResultValueSum := sums.2.1
  let utilitySum := sums.2.2.1
  let utilitySqSum := sums.2.2.2.1
  let weightSqSum := sums.2.2.2.2
  let weightSum := currentTotalChildWeight
  -- Also add in the direct evaluation of this node.
  let nnOutput := node.nnOutput
  let winProb := nnOutput.whiteWinProb
  let lossProb := nnOutput.whiteLossProb
  let noResultProb := nnOutput.whiteNoResultProb
  let utility := E.getResultUtility (fl (winProb - lossProb)) noResultProb
  let weight := computeWeightFromNNOutputFl fl E searchParams nnOutput
  let winLossValueSum := fl (winLossValueSum + fl (fl (winProb - lossProb) * weight))
  let noResultValueSum := fl (noResultValueSum + fl (noResultProb * weight))
  let utilitySum := fl (utilitySum + fl (utility * weight))
  let utilitySqSum := fl (utilitySqSum + fl (fl (utility * utility) * weight))
  let weightSqSum := fl (weightSqSum + fl (weight * weight))
  let weightSum := fl (weightSum + weight)
  let winLossValueAvg := fl (winLossValueSum / weightSum)
  let noResultValueAvg := fl (noResultValueSum / weightSum)
  let utilityAvg := fl (utilitySum / weightSum)
  let utilitySqAvg := fl (utilitySqSum / weightSum)
  let oldUtilityAvg := utilityAvg
  let utilitySqAvg :=
    fl (utilitySqAvg + fl (fl (utilityAvg * utilityAvg) - fl (oldUtilityAvg * oldUtilityAvg)))
  { winLossValueAvg := winLossValueAvg
    noResultValueAvg := noResultValueAvg
    utilityAvg := utilityAvg
    utilitySqAvg := utilitySqAvg
    weightSqSum := weightSqSum
    weightSum := weightSum
    visits := node.stats.visits + numVisitsToAdd }

end Rounded

/-! ### Concrete inputs in double arithmetic -/

/-- Uncertainty weighting with coefficient 1, the given exponent and maximal
weight, and `winLossUtilityFactor = 1`. -/
def uncertaintyParams (uncertaintyExponent uncertaintyMaxWeight : ℚ) : SearchParams ℚ :=
  { sampleParams with
    useUncertainty := true
    uncertaintyCoeff := 1
    uncertaintyExponent := uncertaintyExponent
    uncertaintyMaxWeight := uncertaintyMaxWeight }

/-- An NN output with the given short-term win/loss error. -/
def errorOutput (shorttermWinlossError : ℚ) : NNOutput ℚ :=
  { whiteWinProb := 1 / 2
    whiteLossProb := 1 / 2
    whiteNoResultProb := 0
    shorttermWinlossError := shorttermWinlossError
    policyProbs := fun _ => 0 }

/-- The values of libm at the one argument used below, as glibc 2.36 on x86-64
returns them: `sqrt(0.713134765625) = 0.8444730698044788`, the double nearest to
the square root, and `pow(0.713134765625, 0.5) = 0.8444730698044787`, the double
just below it (glibc's `pow` is accurate to within one unit in the last place
but is not correctly rounded).  At every other argument the table returns its
first argument. -/
def libmSample : Externals ℚ :=
  { sampleExternals with
    sqrt := fun x => if x = 2921 / 4096 then 7606337204991739 / 9007199254740992 else x
    pow := fun x y =>
      if x = 2921 / 4096 ∧ y = 1 / 2 then 3803168602495869 / 4503599627370496 else x }

/-- White to move at a node whose NN evaluation is a sure win; two children of
weights 21 and 154, each with win/loss value 1 and utility 1. -/
def roundingNode : SearchNode ℚ :=
  { nextPla := Player.white
    nnOutput := ⟨1, 0, 0, 0, fun _ => 1 / 2⟩
    children := [⟨some ⟨21, 1, 0, 1, 1, 21, 21⟩, 0, 21⟩, ⟨some ⟨154, 1, 0, 1, 1, 154, 154⟩, 1, 154⟩]
    stats := ⟨175, 1, 0, 1, 1, 176, 176⟩
    dirtyCounter := 0 }

/-! ## Theorems -/

/-! ### addLeafValue -/

section
variable {K : Type} [LinearOrderedField K]

/-- C2: with `assumeNoExistingWeight = false` and `W + w ≠ 0`, `addLeafValue`
leaves `weightSum = W + w`, `weightSqSum = q + w*w`, `visits = v + 1` and replaces
each average by `(old*W + new*w) / (W + w)`, the new utility being
`getResultUtility(x, n)` and the new utilitySq its square; equivalently each new
average times the new `weightSum` is `old*W + new*w`. -/
theorem addLeafValue_weighted_mean (E : Externals K) (stats : NodeStats K)
    (x n w : K) (isTerminal : Bool) (hW : stats.weightSum + w ≠ 0) :
    (addLeafValue E stats x n w isTerminal false).weightSum = stats.weightSum + w ∧
    (addLeafValue E stats x n w isTerminal false).weightSqSum = stats.weightSqSum + w * w ∧
    (addLeafValue E stats x n w isTerminal false).visits = stats.visits + 1 ∧
    (addLeafValue E stats x n w isTerminal false).winLossValueAvg
      = (stats.winLossValueAvg * stats.weightSum + x * w) / (stats.weightSum + w) ∧
    (addLeafValue E stats x n w isTerminal false).noResultValueAvg
      = (stats.noResultValueAvg * stats.weightSum + n * w) / (stats.weightSum + w) ∧
    (addLeafValue E stats x n w isTerminal false).utilityAvg
      = (stats.utilityAvg * stats.weightSum + E.getResultUtility x n * w) / (stats.weightSum + w) ∧
    (addLeafValue E stats x n w isTerminal false).utilitySqAvg
      = (stats.utilitySqAvg * stats.weightSum + E.getResultUtility x n * E.getResultUtility x n * w)
          / (stats.weightSum + w) ∧
    (addLeafValue E stats x n w isTerminal false).winLossValueAvg
        * (addLeafValue E stats x n w isTerminal false).weightSum
      = stats.winLossValueAvg * stats.weightSum + x * w ∧
    (addLeafValue E stats x n w isTerminal false).noResultValueAvg
        * (addLeafValue E stats x n w isTerminal false).weightSum
      = stats.noResultValueAvg * stats.weightSum + n * w ∧
    (addLeafValue E stats x n w isTerminal false).utilityAvg
        * (addLeafValue E stats x n w isTerminal false).weightSum
      = stats.utilityAvg * stats.weightSum + E.getResultUtility x n * w ∧
    (addLeafValue E stats x n w isTerminal false).utilitySqAvg
        * (addLeafValue E stats x n w isTerminal false).weightSum
      = stats.utilitySqAvg * stats.weightSum + E.getResultUtility x n * E.getResultUtility x n * w := by
  refine ⟨rfl, rfl, rfl, rfl, rfl, rfl, rfl, ?_, ?_, ?_, ?_⟩ <;> exact div_mul_cancel₀ _ hW

/-- Instance of C2: the full stats after one leaf is added to a node of weight 2. -/
theorem addLeafValue_weighted_mean_witness :
    (addLeafValue sampleExternals ⟨3, 1 / 2, 1 / 4, 1 / 2, 1 / 3, 2, 4 / 3⟩ (-1) 1 2 false false)
      = ⟨4, -1 / 4, 5 / 8, 0, 7 / 24, 4, 16 / 3⟩ ∧
    (addLeafValue sampleExternals ⟨3, 1 / 2, 1 / 4, 1 / 2, 1 / 3, 2, 4 / 3⟩ (-1) 1 2 false false).winLossValueAvg
      = ((1 / 2 : ℚ) * 2 + (-1) * 2) / (2 + 2) := by
  refine ⟨by norm_num [addLeafValue, sampleExternals, specChildWeight], ?_⟩
  exact (addLeafValue_weighted_mean sampleExternals ⟨3, 1 / 2, 1 / 4, 1 / 2, 1 / 3, 2, 4 / 3⟩
    (-1) 1 2 false (by norm_num)).2.2.2.1

/-- A weighted mean of two values of `[lo, hi]` with weights `W ≥ 0` and `w > 0` lies in `[lo, hi]`. -/
theorem weighted_mean_mem_Icc {a x lo hi W w : K} (hW : 0 ≤ W) (hw : 0 < w)
    (ha : lo ≤ a ∧ a ≤ hi) (hx : lo ≤ x ∧ x ≤ hi) :
    lo ≤ (a * W + x * w) / (W + w) ∧ (a * W + x * w) / (W + w) ≤ hi := by
  have hpos : 0 < W + w := by linarith
  constructor
  · rw [le_div_iff₀ hpos]
    nlinarith [mul_nonneg hW (sub_nonneg.2 ha.1), mul_nonneg hw.le (sub_nonneg.2 hx.1)]
  · rw [div_le_iff₀ hpos]
    nlinarith [mul_nonneg hW (sub_nonneg.2 ha.2), mul_nonneg hw.le (sub_nonneg.2 hx.2)]

/-- C3: from stats with `visits ≥ 0`, `weightSum ≥ 0`, `|winLossValueAvg| ≤ 1`,
`0 ≤ noResultValueAvg ≤ 1` and a leaf with `|winLossValue| ≤ 1`,
`0 ≤ noResultValue ≤ 1`, `weight > 0`, the stats after `addLeafValue` (for either
value of `assumeNoExistingWeight`) have `visits > 0`, `weightSum > 0`,
`|winLossValueAvg| ≤ 1` and `0 ≤ noResultValueAvg ≤ 1`. -/
theorem addLeafValue_preserves_bounds (E : Externals K) (stats : NodeStats K)
    (x n w : K) (isTerminal assumeNoExistingWeight : Bool)
    (hv : 0 ≤ stats.visits) (hW : 0 ≤ stats.weightSum)
    (hwl : |stats.winLossValueAvg| ≤ 1)
    (hnr : 0 ≤ stats.noResultValueAvg ∧ stats.noResultValueAvg ≤ 1)
    (hx : |x| ≤ 1) (hn : 0 ≤ n ∧ n ≤ 1) (hw : 0 < w) :
    0 < (addLeafValue E stats x n w isTerminal assumeNoExistingWeight).visits ∧
    0 < (addLeafValue E stats x n w isTerminal assumeNoExistingWeight).weightSum ∧
    |(addLeafValue E stats x n w isTerminal assumeNoExistingWeight).winLossValueAvg| ≤ 1 ∧
    0 ≤ (addLeafValue E stats x n w isTerminal assumeNoExistingWeight).noResultValueAvg ∧
    (addLeafValue E stats x n w isTerminal assumeNoExistingWeight).noResultValueAvg ≤ 1 := by
  cases assumeNoExistingWeight
  · simp only [addLeafValue, Bool.false_eq_true, if_false]
    have h1 := weighted_mean_mem_Icc hW hw (abs_le.1 hwl) (abs_le.1 hx)
    have h2 := weighted_mean_mem_Icc hW hw hnr hn
    exact ⟨by omega, by linarith, abs_le.2 h1, h2.1, h2.2⟩
  · simp only [addLeafValue, if_true]
    exact ⟨by omega, hw, hx, hn.1, hn.2⟩

/-- Instances of C3, one for each value of `assumeNoExistingWeight`. -/
theorem addLeafValue_preserves_bounds_witness :
    (0 : Int) ≤ 0 ∧
    0 < (addLeafValue sampleExternals ⟨0, 0, 0, 0, 0, 0, 0⟩ (-1) 1 (1 / 2) false true).weightSum ∧
    |(addLeafValue sampleExternals ⟨3, 1, 1, 1, 1, 2, 4⟩ (-1) 0 6 false false).winLossValueAvg| ≤ 1 := by
  refine ⟨by decide, ?_, ?_⟩
  · exact (addLeafValue_preserves_bounds sampleExternals ⟨0, 0, 0, 0, 0, 0, 0⟩ (-1) 1 (1 / 2)
      false true (by decide) (by decide) (by norm_num) (by norm_num) (by norm_num)
      (by norm_num) (by norm_num)).2.1
  · exact (addLeafValue_preserves_bounds sampleExternals ⟨3, 1, 1, 1, 1, 2, 4⟩ (-1) 0 6
      false false (by decide) (by norm_num) (by norm_num) (by norm_num) (by norm_num)
      (by norm_num) (by norm_num)).2.2.1

end

/-! ### computeWeightFromNNOutput -/

section
variable {K : Type} [LinearOrderedField K]

theorem poweredUncertainty_eq_pow (E : Externals K) (searchParams : SearchParams K)
    (nnOutput : NNOutput K)
    (hpow1 : E.pow (searchParams.winLossUtilityFactor * nnOutput.shorttermWinlossError) 1
      = searchParams.winLossUtilityFactor * nnOutput.shorttermWinlossError)
    (hpowhalf : E.pow (searchParams.winLossUtilityFactor * nnOutput.shorttermWinlossError) (1 / 2)
      = E.sqrt (searchParams.winLossUtilityFactor * nnOutput.shorttermWinlossError)) :
    poweredUncertainty E searchParams nnOutput
      = E.pow (searchParams.winLossUtilityFactor * nnOutput.shorttermWinlossError)
          searchParams.uncertaintyExponent := by
  unfold poweredUncertainty
  by_cases h1 : searchParams.uncertaintyExponent = 1
  · rw [if_pos h1, h1, hpow1]
  · rw [if_neg h1]
    by_cases h2 : searchParams.uncertaintyExponent = 1 / 2
    · rw [if_pos h2, h2, hpowhalf]
    · rw [if_neg h2]

theorem computeWeightFromNNOutput_eq_spec_of_pow (E : Externals K) (searchParams : SearchParams K)
    (nnOutput : NNOutput K)
    (hpow1 : E.pow (searchParams.winLossUtilityFactor * nnOutput.shorttermWinlossError) 1
      = searchParams.winLossUtilityFactor * nnOutput.shorttermWinlossError)
    (hpowhalf : E.pow (searchParams.winLossUtilityFactor * nnOutput.shorttermWinlossError) (1 / 2)
      = E.sqrt (searchParams.winLossUtilityFactor * nnOutput.shorttermWinlossError)) :
    computeWeightFromNNOutput E searchParams nnOutput = specLeafWeight E searchParams nnOutput := by
  unfold computeWeightFromNNOutput specLeafWeight
  rw [poweredUncertainty_eq_pow E searchParams nnOutput hpow1 hpowhalf]
  cases hu : searchParams.useUncertainty <;> cases hs : E.supportsShorttermError <;> simp

end

/-- C7, amended: in exact arithmetic, read on the reals with `sqrt` the real
square root and `pow` the real power, for a non-negative utility uncertainty
`computeWeightFromNNOutput` equals the piecewise definition
of the specification (`specLeafWeight`): it is 1 when `useUncertainty` is false
or the evaluator supports no short-term error, and otherwise
`uncertaintyCoeff / (pow(winLossUtilityFactor * shorttermWinlossError,
uncertaintyExponent) + uncertaintyCoeff / uncertaintyMaxWeight)`; in particular
the paths special-cased for the exponents 1 and 0.5 agree with the `pow` path.
(Mathlib's `Real.sqrt` and real power are total and also agree below 0, so the
proof does not call on the sign hypothesis.) -/
theorem computeWeightFromNNOutput_eq_spec (E : Externals ℝ) (searchParams : SearchParams ℝ)
    (nnOutput : NNOutput ℝ) (hsqrt : E.sqrt = Real.sqrt) (hpow : E.pow = fun x y => x ^ y)
    (_hnonneg : 0 ≤ searchParams.winLossUtilityFactor * nnOutput.shorttermWinlossError) :
    computeWeightFromNNOutput E searchParams nnOutput = specLeafWeight E searchParams nnOutput ∧
    (searchParams.useUncertainty = false ∨ E.supportsShorttermError = false →
      computeWeightFromNNOutput E searchParams nnOutput = 1) ∧
    (searchParams.useUncertainty = true → E.supportsShorttermError = true →
      computeWeightFromNNOutput E searchParams nnOutput
        = searchParams.uncertaintyCoeff /
          ((searchParams.winLossUtilityFactor * nnOutput.shorttermWinlossError)
              ^ searchParams.uncertaintyExponent
            + searchParams.uncertaintyCoeff / searchParams.uncertaintyMaxWeight)) := by
  have h1 : E.pow (searchParams.winLossUtilityFactor * nnOutput.shorttermWinlossError) 1
      = searchParams.winLossUtilityFactor * nnOutput.shorttermWinlossError := by
    rw [hpow]; exact Real.rpow_one _
  have h2 : E.pow (searchParams.winLossUtilityFactor * nnOutput.shorttermWinlossError) (1 / 2)
      = E.sqrt (searchParams.winLossUtilityFactor * nnOutput.shorttermWinlossError) := by
    rw [hpow, hsqrt]; exact (Real.sqrt_eq_rpow _).symm
  have key := computeWeightFromNNOutput_eq_spec_of_pow E searchParams nnOutput h1 h2
  refine ⟨key, ?_, ?_⟩
  · intro h
    rw [key]; unfold specLeafWeight; rw [if_pos h]
  · intro hu hs
    rw [key]; unfold specLeafWeight
    rw [if_neg (by simp [hu, hs]), hpow]

/-- Instance of C7 on the square-root path: coefficient 3, uncertainty 2 * 8,
exponent 1/2, maximal weight 5. -/
theorem computeWeightFromNNOutput_eq_spec_witness :
    (0 : ℝ) ≤ 2 * 8 ∧
    computeWeightFromNNOutput
        (⟨Real.exp, Real.sqrt, fun x y => x ^ y, fun _ => 1 / 2, fun wl _ => wl,
          fun s _ => s.weightSum, fun loc => loc, true⟩ : Externals ℝ)
        ⟨2, 0, false, 1, 1, true, 3, 1 / 2, 5, false, 0, 0⟩ ⟨1 / 2, 1 / 2, 0, 8, fun _ => 0⟩
      = 3 / ((2 * 8 : ℝ) ^ (1 / 2 : ℝ) + 3 / 5) := by
  refine ⟨by norm_num, ?_⟩
  exact (computeWeightFromNNOutput_eq_spec
    (⟨Real.exp, Real.sqrt, fun x y => x ^ y, fun _ => 1 / 2, fun wl _ => wl,
          fun s _ => s.weightSum, fun loc => loc, true⟩ : Externals ℝ)
    ⟨2, 0, false, 1, 1, true, 3, 1 / 2, 5, false, 0, 0⟩ ⟨1 / 2, 1 / 2, 0, 8, fun _ => 0⟩
    rfl rfl (by norm_num)).2.2 rfl rfl

section
variable {K : Type} [LinearOrderedField K]

/-- C8, amended: in exact arithmetic (the two divisions and the addition read
as the operations of the ordered field, without rounding), on the uncertainty
path, with `uncertaintyCoeff > 0`,
`uncertaintyMaxWeight > 0` and a powered uncertainty `≥ 0`, the weight returned
by `computeWeightFromNNOutput` satisfies `0 < weight ≤ uncertaintyMaxWeight`, with
equality exactly when the powered uncertainty is 0. -/
theorem computeWeightFromNNOutput_bounds (E : Externals K) (searchParams : SearchParams K)
    (nnOutput : NNOutput K)
    (hu : searchParams.useUncertainty = true) (hs : E.supportsShorttermError = true)
    (hc : 0 < searchParams.uncertaintyCoeff) (hm : 0 < searchParams.uncertaintyMaxWeight)
    (hp : 0 ≤ poweredUncertainty E searchParams nnOutput) :
    0 < computeWeightFromNNOutput E searchParams nnOutput ∧
    computeWeightFromNNOutput E searchParams nnOutput ≤ searchParams.uncertaintyMaxWeight ∧
    (computeWeightFromNNOutput E searchParams nnOutput = searchParams.uncertaintyMaxWeight
      ↔ poweredUncertainty E searchParams nnOutput = 0) := by
  have hb : 0 < searchParams.uncertaintyCoeff / searchParams.uncertaintyMaxWeight := div_pos hc hm
  have hden : 0 < poweredUncertainty E searchParams nnOutput
      + searchParams.uncertaintyCoeff / searchParams.uncertaintyMaxWeight := by linarith
  have hval : computeWeightFromNNOutput E searchParams nnOutput
      = searchParams.uncertaintyCoeff / (poweredUncertainty E searchParams nnOutput
          + searchParams.uncertaintyCoeff / searchParams.uncertaintyMaxWeight) := by
    simp [computeWeightFromNNOutput, hu, hs]
  have hmul : searchParams.uncertaintyCoeff / searchParams.uncertaintyMaxWeight
      * searchParams.uncertaintyMaxWeight = searchParams.uncertaintyCoeff :=
    div_mul_cancel₀ _ hm.ne'
  rw [hval]
  refine ⟨div_pos hc hden, ?_, ?_⟩
  · rw [div_le_iff₀ hden]
    nlinarith [mul_nonneg hm.le hp]
  · rw [div_eq_iff hden.ne']
    constructor
    · intro h
      have : searchParams.uncertaintyMaxWeight * poweredUncertainty E searchParams nnOutput = 0 := by
        linarith
      rcases mul_eq_zero.1 this with h0 | h0
      · exact absurd h0 hm.ne'
      · exact h0
    · intro h
      rw [h]; linarith

/-- Instance of C8: coefficient 3, maximal weight 5, powered uncertainty 2/5,
weight 3. -/
theorem computeWeightFromNNOutput_bounds_witness :
    computeWeightFromNNOutput sampleExternals
        ⟨2, 0, false, 1, 1, true, 3, 1, 5, false, 0, 0⟩ ⟨1 / 2, 1 / 2, 0, 1 / 5, fun _ => 0⟩ = 3 ∧
    0 < computeWeightFromNNOutput sampleExternals
        ⟨2, 0, false, 1, 1, true, 3, 1, 5, false, 0, 0⟩ ⟨1 / 2, 1 / 2, 0, 1 / 5, fun _ => 0⟩ ∧
    computeWeightFromNNOutput sampleExternals
        ⟨2, 0, false, 1, 1, true, 3, 1, 5, false, 0, 0⟩ ⟨1 / 2, 1 / 2, 0, 1 / 5, fun _ => 0⟩ ≤ 5 := by
  have h := computeWeightFromNNOutput_bounds sampleExternals
    ⟨2, 0, false, 1, 1, true, 3, 1, 5, false, 0, 0⟩ ⟨1 / 2, 1 / 2, 0, 1 / 5, fun _ => 0⟩
    rfl rfl (by norm_num) (by norm_num) (by norm_num [poweredUncertainty])
  exact ⟨by norm_num [computeWeightFromNNOutput, poweredUncertainty, sampleExternals, specChildWeight], h.1, h.2.1⟩
end

/-! ### updateStatsAfterPlayout, one caller -/

theorem updateStatsLoop_rounds (later : List Nat) :
    ∀ (arrivals : List Nat), (∀ a ∈ arrivals, 0 < a) → ∀ (n : Int),
      updateStatsLoop (arrivals ++ 0 :: later) n n = (n :: arrivals.map Int.ofNat, 0)
  | [], _, n => by
    rw [List.nil_append, updateStatsLoop]
    simp
  | a :: arrivals, hpos, n => by
    have ha : 0 < a := hpos a (List.mem_cons_self _ _)
    have ih := updateStatsLoop_rounds later arrivals
      (fun b hb => hpos b (List.mem_cons_of_mem _ hb)) (a : Int)
    rw [List.cons_append, updateStatsLoop]
    have heq : n + (a : Int) - n = (a : Int) := by omega
    have hnot : ¬ ((a : Int) ≤ 0) := by omega
    simp only [heq, ih, List.map_cons]
    rw [if_neg hnot]
    rfl

/-- C5: let `arrivals = a_1 .. a_(n-1)` be positive and `a_n = 0` (whatever
arrives `later`).  A call of `updateStatsAfterPlayout` that reads
`dirtyCounter = 0` makes exactly `n` calls of `recomputeNodeStats`, with
`numVisitsToAdd = 1, a_1, .., a_(n-1)`, whose total is `1 + a_1 + .. + a_n`, and
leaves `dirtyCounter = 0`; a call that reads `dirtyCounter > 0` only increments
the counter and makes no call of `recomputeNodeStats`. -/
theorem updateStatsAfterPlayout_rounds (arrivals later : List Nat)
    (hpos : ∀ a ∈ arrivals, 0 < a) :
    updateStatsAfterPlayout 0 (arrivals ++ 0 :: later) = (1 :: arrivals.map Int.ofNat, 0) ∧
    (updateStatsAfterPlayout 0 (arrivals ++ 0 :: later)).1.length = arrivals.length + 1 ∧
    (updateStatsAfterPlayout 0 (arrivals ++ 0 :: later)).1.sum
      = 1 + ((arrivals ++ [0]).map Int.ofNat).sum ∧
    (updateStatsAfterPlayout 0 (arrivals ++ 0 :: later)).2 = 0 ∧
    ∀ (dirtyCounter : Int) (others : List Nat), 0 < dirtyCounter →
      updateStatsAfterPlayout dirtyCounter others = ([], dirtyCounter + 1) := by
  have h : updateStatsAfterPlayout 0 (arrivals ++ 0 :: later)
      = (1 :: arrivals.map Int.ofNat, 0) := by
    unfold updateStatsAfterPlayout
    simp only [gt_iff_lt, lt_irrefl, if_false, zero_add]
    exact updateStatsLoop_rounds later arrivals hpos 1
  refine ⟨h, ?_, ?_, ?_, ?_⟩
  · rw [h]; simp
  · rw [h]; simp
  · rw [h]
  · intro dirtyCounter others hd
    unfold updateStatsAfterPlayout
    simp [hd]

/-- Instance of C5: arrivals 2, 3, 0 give the calls 1, 2, 3. -/
theorem updateStatsAfterPlayout_rounds_witness :
    (∀ a ∈ [2, 3], 0 < a) ∧
    updateStatsAfterPlayout 0 ([2, 3] ++ 0 :: [5]) = ([1, 2, 3], 0) ∧
    updateStatsAfterPlayout 4 [7] = ([], 5) := by
  have h := updateStatsAfterPlayout_rounds [2, 3] [5] (by decide)
  exact ⟨by decide, h.1, h.2.2.2.2 4 [7] (by decide)⟩

section
variable {K : Type} [LinearOrderedField K]

/-! ### Buffer sums -/

theorem totalWeightAdjusted_nil : totalWeightAdjusted ([] : List (MoreNodeStats K)) = 0 := rfl

theorem totalWeightAdjusted_cons (s : MoreNodeStats K) (l : List (MoreNodeStats K)) :
    totalWeightAdjusted (s :: l) = s.weightAdjusted + totalWeightAdjusted l := by
  simp [totalWeightAdjusted]

theorem totalWeightAdjusted_nonneg {l : List (MoreNodeStats K)}
    (h : ∀ s ∈ l, 0 ≤ s.weightAdjusted) : 0 ≤ totalWeightAdjusted l := by
  induction l with
  | nil => simp [totalWeightAdjusted]
  | cons s l ih =>
    rw [totalWeightAdjusted_cons]
    have h1 := h s (List.mem_cons_self _ _)
    have h2 := ih (fun t ht => h t (List.mem_cons_of_mem _ ht))
    linarith

theorem totalWeightAdjusted_pos {l : List (MoreNodeStats K)}
    (h : ∀ s ∈ l, 0 ≤ s.weightAdjusted) (hex : ∃ s ∈ l, 0 < s.weightAdjusted) :
    0 < totalWeightAdjusted l := by
  induction l with
  | nil => obtain ⟨s, hs, _⟩ := hex; simp at hs
  | cons s l ih =>
    rw [totalWeightAdjusted_cons]
    have h1 := h s (List.mem_cons_self _ _)
    have h2 := totalWeightAdjusted_nonneg (fun t ht => h t (List.mem_cons_of_mem _ ht))
    obtain ⟨t, ht, htpos⟩ := hex
    rcases List.mem_cons.1 ht with rfl | htl
    · linarith
    · have := ih (fun t ht => h t (List.mem_cons_of_mem _ ht)) ⟨t, htl, htpos⟩
      linarith

theorem exists_pos_of_totalWeightAdjusted_pos {l : List (MoreNodeStats K)}
    (h : 0 < totalWeightAdjusted l) : ∃ s ∈ l, 0 < s.weightAdjusted := by
  induction l with
  | nil => simp [totalWeightAdjusted] at h
  | cons s l ih =>
    rw [totalWeightAdjusted_cons] at h
    by_cases hs : 0 < s.weightAdjusted
    · exact ⟨s, List.mem_cons_self _ _, hs⟩
    · obtain ⟨t, ht, htpos⟩ := ih (by linarith)
      exact ⟨t, List.mem_cons_of_mem _ ht, htpos⟩

/-- Weighted sums of values in `[lo, hi]` with non-negative weights. -/
theorem weighted_sum_bounds (f : NodeStats K → K) (lo hi : K) :
    ∀ (l : List (MoreNodeStats K)), (∀ s ∈ l, 0 ≤ s.weightAdjusted) →
      (∀ s ∈ l, lo ≤ f s.stats ∧ f s.stats ≤ hi) →
      lo * totalWeightAdjusted l ≤ (l.map (fun s => s.weightAdjusted * f s.stats)).sum ∧
      (l.map (fun s => s.weightAdjusted * f s.stats)).sum ≤ hi * totalWeightAdjusted l
  | [], _, _ => by simp [totalWeightAdjusted]
  | s :: l, hw, hf => by
    have ih := weighted_sum_bounds f lo hi l (fun t ht => hw t (List.mem_cons_of_mem _ ht))
      (fun t ht => hf t (List.mem_cons_of_mem _ ht))
    have h1 := hw s (List.mem_cons_self _ _)
    have h2 := hf s (List.mem_cons_self _ _)
    rw [totalWeightAdjusted_cons, List.map_cons, List.sum_cons]
    constructor
    · nlinarith [mul_nonneg h1 (sub_nonneg.2 h2.1), ih.1]
    · nlinarith [mul_nonneg h1 (sub_nonneg.2 h2.2), ih.2]

/-! ### scaleWeights -/

theorem scaleWeights_total (factor : K) (l : List (MoreNodeStats K)) :
    totalWeightAdjusted (scaleWeights factor l) = totalWeightAdjusted l * factor := by
  induction l with
  | nil => simp [scaleWeights, totalWeightAdjusted]
  | cons s l ih =>
    have : scaleWeights factor (s :: l)
        = { s with weightAdjusted := s.weightAdjusted * factor } :: scaleWeights factor l := rfl
    rw [this, totalWeightAdjusted_cons, totalWeightAdjusted_cons, ih]
    ring

theorem scaleWeights_stats (factor : K) (l : List (MoreNodeStats K)) :
    (scaleWeights factor l).map (fun s => s.stats) = l.map (fun s => s.stats) := by
  simp [scaleWeights, Function.comp_def]

theorem scaleWeights_nonneg {factor : K} (hf : 0 ≤ factor) {l : List (MoreNodeStats K)}
    (h : ∀ s ∈ l, 0 ≤ s.weightAdjusted) : ∀ s ∈ scaleWeights factor l, 0 ≤ s.weightAdjusted := by
  intro s hs
  simp only [scaleWeights, List.mem_map] at hs
  obtain ⟨t, ht, rfl⟩ := hs
  exact mul_nonneg (h t ht) hf

/-! ### pruneNoiseWeight -/

theorem pruneNoiseLoop_total (E : Externals K) (P : SearchParams K) (pol : Nat → K) :
    ∀ (l : List (MoreNodeStats K)) (i : Nat) (u w r : K),
      (pruneNoiseLoop E P pol i l u w r).2
        = w + totalWeightAdjusted (pruneNoiseLoop E P pol i l u w r).1
  | [], i, u, w, r => by simp [pruneNoiseLoop, totalWeightAdjusted]
  | s :: l, i, u, w, r => by
    simp only [pruneNoiseLoop]
    rw [pruneNoiseLoop_total E P pol l, totalWeightAdjusted_cons]
    ring

theorem pruneNoiseLoop_stats (E : Externals K) (P : SearchParams K) (pol : Nat → K) :
    ∀ (l : List (MoreNodeStats K)) (i : Nat) (u w r : K),
      (pruneNoiseLoop E P pol i l u w r).1.map (fun s => s.stats) = l.map (fun s => s.stats)
  | [], i, u, w, r => by simp [pruneNoiseLoop]
  | s :: l, i, u, w, r => by
    simp only [pruneNoiseLoop, List.map_cons]
    rw [pruneNoiseLoop_stats E P pol l]

theorem pruneNoiseNewWeight_nonneg (E : Externals K) (P : SearchParams K)
    (hexp : ∀ x, 0 ≤ E.exp x) {u w r utility oldWeight rawPolicy : K}
    (hold : 0 ≤ oldWeight) (hpol : 0 ≤ rawPolicy) :
    0 ≤ pruneNoiseNewWeight E P u w r utility oldWeight rawPolicy := by
  unfold pruneNoiseNewWeight
  dsimp only
  by_cases h1 : w > 0 ∧ r > 0
  · rw [if_pos h1]
    by_cases h2 : u / w - utility > 0
    · rw [if_pos h2]
      by_cases h3 : oldWeight > 2 * (w * rawPolicy / r)
      · rw [if_pos h3]
        have hlen : 0 ≤ 2 * (w * rawPolicy / r) :=
          mul_nonneg (by norm_num) (div_nonneg (mul_nonneg h1.1.le hpol) h1.2.le)
        have hexc : 0 < oldWeight - 2 * (w * rawPolicy / r) := by linarith
        have hmul := mul_nonneg hexc.le (hexp (-(u / w - utility) / P.noisePruneUtilityScale))
        split_ifs with h4
        · nlinarith
        · nlinarith
      · rw [if_neg h3]; exact hold
    · rw [if_neg h2]; exact hold
  · rw [if_neg h1]; exact hold

theorem pruneNoiseLoop_nonneg (E : Externals K) (P : SearchParams K) (pol : Nat → K)
    (hexp : ∀ x, 0 ≤ E.exp x) (hpol : ∀ i, 0 ≤ pol i) :
    ∀ (l : List (MoreNodeStats K)) (i : Nat) (u w r : K),
      (∀ s ∈ l, 0 ≤ s.weightAdjusted) →
      ∀ s ∈ (pruneNoiseLoop E P pol i l u w r).1, 0 ≤ s.weightAdjusted
  | [], i, u, w, r, _ => by simp [pruneNoiseLoop]
  | t :: l, i, u, w, r, h => by
    intro s hs
    simp only [pruneNoiseLoop, List.mem_cons] at hs
    rcases hs with rfl | hs
    · exact pruneNoiseNewWeight_nonneg E P hexp (h t (List.mem_cons_self _ _)) (hpol i)
    · exact pruneNoiseLoop_nonneg E P pol hexp hpol l _ _ _ _
        (fun t ht => h t (List.mem_cons_of_mem _ ht)) s hs

end

section
variable {K : Type} [LinearOrderedField K]

/-! ### downweightBadChildrenAndNormalizeWeight -/

theorem subtractPruneLoop_total (sub prune : K) :
    ∀ (l : List (MoreNodeStats K)) (cur : K),
      (subtractPruneLoop sub prune l cur).2
        = cur - totalWeightAdjusted l + totalWeightAdjusted (subtractPruneLoop sub prune l cur).1
  | [], cur => by simp [subtractPruneLoop, totalWeightAdjusted]
  | s :: l, cur => by
    unfold subtractPruneLoop
    dsimp only
    split_ifs with h1 h2
    · rw [subtractPruneLoop_total sub prune l, totalWeightAdjusted_cons, totalWeightAdjusted_cons]
      ring
    · rw [subtractPruneLoop_total sub prune l, totalWeightAdjusted_cons, totalWeightAdjusted_cons]
      ring
    · rw [subtractPruneLoop_total sub prune l, totalWeightAdjusted_cons, totalWeightAdjusted_cons]
      ring

theorem subtractPruneLoop_stats (sub prune : K) :
    ∀ (l : List (MoreNodeStats K)) (cur : K),
      (subtractPruneLoop sub prune l cur).1.map (fun s => s.stats) = l.map (fun s => s.stats)
  | [], cur => by simp [subtractPruneLoop]
  | s :: l, cur => by
    unfold subtractPruneLoop
    dsimp only
    split_ifs with h1 h2 <;>
      simp only [List.map_cons, subtractPruneLoop_stats sub prune l]

theorem subtractPruneLoop_nonneg (sub prune : K) :
    ∀ (l : List (MoreNodeStats K)) (cur : K),
      ∀ s ∈ (subtractPruneLoop sub prune l cur).1, 0 ≤ s.weightAdjusted
  | [], cur => by simp [subtractPruneLoop]
  | t :: l, cur => by
    intro s hs
    unfold subtractPruneLoop at hs
    dsimp only at hs
    split_ifs at hs with h1 h2
    · rcases List.mem_cons.1 hs with rfl | hs
      · exact le_refl _
      · exact subtractPruneLoop_nonneg sub prune l _ s hs
    · rcases List.mem_cons.1 hs with rfl | hs
      · exact le_refl _
      · exact subtractPruneLoop_nonneg sub prune l _ s hs
    · rcases List.mem_cons.1 hs with rfl | hs
      · exact (not_le.1 h2).le
      · exact subtractPruneLoop_nonneg sub prune l _ s hs

theorem subtractPruneLoop_exists_pos (sub prune : K) :
    ∀ (l : List (MoreNodeStats K)) (cur : K),
      (∃ s ∈ l, prune ≤ s.weightAdjusted ∧ sub < s.weightAdjusted) →
      ∃ s ∈ (subtractPruneLoop sub prune l cur).1, 0 < s.weightAdjusted
  | [], cur, h => by obtain ⟨s, hs, _⟩ := h; simp at hs
  | t :: l, cur, h => by
    obtain ⟨s, hs, hp, hsub⟩ := h
    rcases List.mem_cons.1 hs with rfl | hs
    · unfold subtractPruneLoop
      dsimp only
      rw [if_neg (not_lt.2 hp), if_neg (by linarith)]
      exact ⟨_, List.mem_cons_self _ _, by simpa using hsub⟩
    · have ih := subtractPruneLoop_exists_pos sub prune l
      unfold subtractPruneLoop
      dsimp only
      split_ifs with h1 h2
      · obtain ⟨x, hx, hxp⟩ := ih (cur - t.weightAdjusted) ⟨s, hs, hp, hsub⟩
        exact ⟨x, List.mem_cons_of_mem _ hx, hxp⟩
      · obtain ⟨x, hx, hxp⟩ := ih (cur - t.weightAdjusted) ⟨s, hs, hp, hsub⟩
        exact ⟨x, List.mem_cons_of_mem _ hx, hxp⟩
      · obtain ⟨x, hx, hxp⟩ := ih (cur - sub) ⟨s, hs, hp, hsub⟩
        exact ⟨x, List.mem_cons_of_mem _ hx, hxp⟩

theorem downweightLoop_total (E : Externals K) (P : SearchParams K) (sub prune simpleValue : K) :
    ∀ (l : List (MoreNodeStats K)) (tot : K), (∀ s ∈ l, s.stats.visits ≠ 0) →
      (downweightLoop E P sub prune simpleValue l tot).2
        = tot + totalWeightAdjusted (downweightLoop E P sub prune simpleValue l tot).1
  | [], tot, _ => by simp [downweightLoop, totalWeightAdjusted]
  | s :: l, tot, hv => by
    have ih := fun t => downweightLoop_total E P sub prune simpleValue l t
      (fun x hx => hv x (List.mem_cons_of_mem _ hx))
    have hs := hv s (List.mem_cons_self _ _)
    unfold downweightLoop
    dsimp only
    rw [if_neg hs]
    split_ifs <;> (rw [ih, totalWeightAdjusted_cons]; ring)

theorem downweightLoop_stats (E : Externals K) (P : SearchParams K) (sub prune simpleValue : K) :
    ∀ (l : List (MoreNodeStats K)) (tot : K),
      (downweightLoop E P sub prune simpleValue l tot).1.map (fun s => s.stats)
        = l.map (fun s => s.stats)
  | [], tot => by simp [downweightLoop]
  | s :: l, tot => by
    unfold downweightLoop
    dsimp only
    split_ifs with h0 h1 <;>
      simp only [List.map_cons, downweightLoop_stats E P sub prune simpleValue l]

theorem downweightLoop_nonneg (E : Externals K) (P : SearchParams K) (sub prune simpleValue : K)
    (hcdf : ∀ z, 0 ≤ E.getCdf z) (hpow : ∀ p e, 0 < p → 0 < E.pow p e) :
    ∀ (l : List (MoreNodeStats K)) (tot : K), (∀ s ∈ l, s.stats.visits ≠ 0) →
      ∀ s ∈ (downweightLoop E P sub prune simpleValue l tot).1, 0 ≤ s.weightAdjusted
  | [], tot, _ => by simp [downweightLoop]
  | t :: l, tot, hv => by
    have ih := fun x => downweightLoop_nonneg E P sub prune simpleValue hcdf hpow l x
      (fun y hy => hv y (List.mem_cons_of_mem _ hy))
    have ht := hv t (List.mem_cons_self _ _)
    intro s hs
    unfold downweightLoop at hs
    dsimp only at hs
    rw [if_neg ht] at hs
    split_ifs at hs with h1 h2
    · rcases List.mem_cons.1 hs with rfl | hs
      · exact le_refl _
      · exact ih _ s hs
    · rcases List.mem_cons.1 hs with rfl | hs
      · simp
      · exact ih _ s hs
    · rcases List.mem_cons.1 hs with rfl | hs
      · have hp : 0 < E.getCdf ((t.selfUtility - simpleValue) / childStdev E t) + 1 / 10000 := by
          have := hcdf ((t.selfUtility - simpleValue) / childStdev E t)
          have h4 : (0 : K) < 1 / 10000 := by norm_num
          linarith
        exact mul_nonneg (not_le.1 h2).le (hpow _ _ hp).le
      · exact ih _ s hs

theorem downweightLoop_exists_pos (E : Externals K) (P : SearchParams K)
    (sub prune simpleValue : K)
    (hcdf : ∀ z, 0 ≤ E.getCdf z) (hpow : ∀ p e, 0 < p → 0 < E.pow p e) :
    ∀ (l : List (MoreNodeStats K)) (tot : K), (∀ s ∈ l, s.stats.visits ≠ 0) →
      (∃ s ∈ l, prune ≤ s.weightAdjusted ∧ sub < s.weightAdjusted) →
      ∃ s ∈ (downweightLoop E P sub prune simpleValue l tot).1, 0 < s.weightAdjusted
  | [], tot, _, h => by obtain ⟨s, hs, _⟩ := h; simp at hs
  | t :: l, tot, hv, h => by
    have ih := fun x => downweightLoop_exists_pos E P sub prune simpleValue hcdf hpow l x
      (fun y hy => hv y (List.mem_cons_of_mem _ hy))
    have ht := hv t (List.mem_cons_self _ _)
    obtain ⟨s, hs, hp, hsub⟩ := h
    rcases List.mem_cons.1 hs with rfl | hs
    · unfold downweightLoop
      dsimp only
      rw [if_neg ht, if_neg (not_lt.2 hp), if_neg (by linarith)]
      refine ⟨_, List.mem_cons_self _ _, ?_⟩
      have hpp : 0 < E.getCdf ((s.selfUtility - simpleValue) / childStdev E s) + 1 / 10000 := by
        have := hcdf ((s.selfUtility - simpleValue) / childStdev E s)
        have h4 : (0 : K) < 1 / 10000 := by norm_num
        linarith
      exact mul_pos (by linarith) (hpow _ _ hpp)
    · unfold downweightLoop
      dsimp only
      rw [if_neg ht]
      split_ifs <;>
      · obtain ⟨x, hx, hxp⟩ := ih _ ⟨s, hs, hp, hsub⟩
        exact ⟨x, List.mem_cons_of_mem _ hx, hxp⟩

end

section
variable {K : Type} [LinearOrderedField K]

theorem downweight_total (E : Externals K) (P : SearchParams K)
    (hcdf : ∀ z, 0 ≤ E.getCdf z) (hpow : ∀ p e, 0 < p → 0 < E.pow p e)
    (l : List (MoreNodeStats K)) (cur sub prune : K)
    (hcur : cur = totalWeightAdjusted l) (hv : ∀ s ∈ l, s.stats.visits ≠ 0)
    (hsurv : 0 < cur → ∃ s ∈ l, prune ≤ s.weightAdjusted ∧ sub < s.weightAdjusted) :
    totalWeightAdjusted
      (downweightBadChildrenAndNormalizeWeight E P (l.length : Int) cur cur sub prune l) = cur := by
  unfold downweightBadChildrenAndNormalizeWeight
  dsimp only
  by_cases h0 : ((l.length : Int) ≤ 0 ∨ cur ≤ 0)
  · rw [if_pos h0]; exact hcur.symm
  · rw [if_neg h0]
    have hpos : 0 < cur := by
      by_contra hc; exact h0 (Or.inr (not_lt.1 hc))
    simp only [Int.toNat_ofNat, List.take_length, List.drop_length, List.append_nil]
    obtain ⟨s, hs, hp, hsub⟩ := hsurv hpos
    by_cases he : P.valueWeightExponent = 0
    · rw [if_pos he]
      have htot := subtractPruneLoop_total sub prune l cur
      rw [← hcur, sub_self, zero_add] at htot
      have hposr : 0 < (subtractPruneLoop sub prune l cur).2 := by
        rw [htot]
        exact totalWeightAdjusted_pos (subtractPruneLoop_nonneg sub prune l cur)
          (subtractPruneLoop_exists_pos sub prune l cur ⟨s, hs, hp, hsub⟩)
      split_ifs with hne
      · rw [scaleWeights_total, ← htot]
        field_simp
      · rw [← htot]; exact not_not.1 hne
    · rw [if_neg he]
      have htot := downweightLoop_total E P sub prune
        (simpleValueSum l 0 / cur) l 0 hv
      rw [zero_add] at htot
      have hposr : 0 < (downweightLoop E P sub prune (simpleValueSum l 0 / cur) l 0).2 := by
        rw [htot]
        exact totalWeightAdjusted_pos
          (downweightLoop_nonneg E P sub prune _ hcdf hpow l 0 hv)
          (downweightLoop_exists_pos E P sub prune _ hcdf hpow l 0 hv ⟨s, hs, hp, hsub⟩)
      rw [scaleWeights_total, ← htot]
      field_simp

theorem downweight_stats (E : Externals K) (P : SearchParams K)
    (l : List (MoreNodeStats K)) (cur desired sub prune : K) :
    (downweightBadChildrenAndNormalizeWeight E P (l.length : Int) cur desired sub prune l).map
      (fun s => s.stats) = l.map (fun s => s.stats) := by
  unfold downweightBadChildrenAndNormalizeWeight
  dsimp only
  simp only [Int.toNat_ofNat, List.take_length, List.drop_length, List.append_nil]
  split_ifs <;>
    simp only [scaleWeights_stats, subtractPruneLoop_stats, downweightLoop_stats]

theorem downweight_nonneg (E : Externals K) (P : SearchParams K)
    (hcdf : ∀ z, 0 ≤ E.getCdf z) (hpow : ∀ p e, 0 < p → 0 < E.pow p e)
    (l : List (MoreNodeStats K)) (cur sub prune : K)
    (hcur : cur = totalWeightAdjusted l) (hv : ∀ s ∈ l, s.stats.visits ≠ 0)
    (hnn : ∀ s ∈ l, 0 ≤ s.weightAdjusted) :
    ∀ s ∈ downweightBadChildrenAndNormalizeWeight E P (l.length : Int) cur cur sub prune l,
      0 ≤ s.weightAdjusted := by
  unfold downweightBadChildrenAndNormalizeWeight
  dsimp only
  by_cases h0 : ((l.length : Int) ≤ 0 ∨ cur ≤ 0)
  · rw [if_pos h0]; exact hnn
  · rw [if_neg h0]
    have hpos : 0 < cur := by
      by_contra hc; exact h0 (Or.inr (not_lt.1 hc))
    simp only [Int.toNat_ofNat, List.take_length, List.drop_length, List.append_nil]
    by_cases he : P.valueWeightExponent = 0
    · rw [if_pos he]
      have htot := subtractPruneLoop_total sub prune l cur
      rw [← hcur, sub_self, zero_add] at htot
      have hr : 0 ≤ (subtractPruneLoop sub prune l cur).2 := by
        rw [htot]
        exact totalWeightAdjusted_nonneg (subtractPruneLoop_nonneg sub prune l cur)
      split_ifs with hne
      · exact scaleWeights_nonneg (div_nonneg hpos.le hr) (subtractPruneLoop_nonneg sub prune l cur)
      · exact subtractPruneLoop_nonneg sub prune l cur
    · rw [if_neg he]
      have htot := downweightLoop_total E P sub prune (simpleValueSum l 0 / cur) l 0 hv
      rw [zero_add] at htot
      have hr : 0 ≤ (downweightLoop E P sub prune (simpleValueSum l 0 / cur) l 0).2 := by
        rw [htot]
        exact totalWeightAdjusted_nonneg (downweightLoop_nonneg E P sub prune _ hcdf hpow l 0 hv)
      exact scaleWeights_nonneg (div_nonneg hpos.le hr)
        (downweightLoop_nonneg E P sub prune _ hcdf hpow l 0 hv)

/-! ### The root amounts -/

theorem maxChildWeightLoop_ge_init :
    ∀ (l : List (MoreNodeStats K)) (m : K), m ≤ maxChildWeightLoop l m
  | [], m => le_refl _
  | s :: l, m => by
    unfold maxChildWeightLoop
    split_ifs with h
    · exact le_trans h.le (maxChildWeightLoop_ge_init l _)
    · exact maxChildWeightLoop_ge_init l _

theorem maxChildWeightLoop_ge :
    ∀ (l : List (MoreNodeStats K)) (m : K), ∀ s ∈ l, s.weightAdjusted ≤ maxChildWeightLoop l m
  | [], m => by simp
  | t :: l, m => by
    intro s hs
    unfold maxChildWeightLoop
    rcases List.mem_cons.1 hs with rfl | hs
    · split_ifs with h
      · exact maxChildWeightLoop_ge_init l _
      · exact le_trans (not_lt.1 h) (maxChildWeightLoop_ge_init l _)
    · split_ifs with h
      · exact maxChildWeightLoop_ge l _ s hs
      · exact maxChildWeightLoop_ge l _ s hs

theorem maxChildWeightLoop_mem :
    ∀ (l : List (MoreNodeStats K)) (m : K),
      maxChildWeightLoop l m = m ∨ ∃ s ∈ l, s.weightAdjusted = maxChildWeightLoop l m
  | [], m => Or.inl rfl
  | t :: l, m => by
    unfold maxChildWeightLoop
    split_ifs with h
    · rcases maxChildWeightLoop_mem l t.weightAdjusted with h1 | ⟨s, hs, h1⟩
      · exact Or.inr ⟨t, List.mem_cons_self _ _, h1.symm⟩
      · exact Or.inr ⟨s, List.mem_cons_of_mem _ hs, h1⟩
    · rcases maxChildWeightLoop_mem l m with h1 | ⟨s, hs, h1⟩
      · exact Or.inl h1
      · exact Or.inr ⟨s, List.mem_cons_of_mem _ hs, h1⟩

/-- When the children's total weight is positive, the child of largest weight
is neither pruned nor reduced to zero by the amounts chosen in the root block. -/
theorem rootAmounts_survivor (P : SearchParams K) (isRoot : Bool) (l : List (MoreNodeStats K))
    (hpos : 0 < totalWeightAdjusted l) :
    ∃ s ∈ l, (rootAmounts P isRoot l).2 ≤ s.weightAdjusted ∧
      (rootAmounts P isRoot l).1 < s.weightAdjusted := by
  obtain ⟨t, ht, htpos⟩ := exists_pos_of_totalWeightAdjusted_pos hpos
  have hM : 0 < maxChildWeightLoop l 0 := lt_of_lt_of_le htpos (maxChildWeightLoop_ge l 0 t ht)
  rcases maxChildWeightLoop_mem l (0 : K) with h0 | ⟨s, hs, hsM⟩
  · rw [h0] at hM; exact absurd hM (lt_irrefl _)
  · refine ⟨s, hs, ?_⟩
    unfold rootAmounts
    dsimp only
    split_ifs with hc
    · rw [hsM]
      have h64 : maxChildWeightLoop l 0 / 64 < maxChildWeightLoop l 0 := by linarith
      exact ⟨le_trans (min_le_right _ _) h64.le, lt_of_le_of_lt (min_le_right _ _) h64⟩
    · rw [hsM]; exact ⟨hM.le, hM⟩

/-! ### The collected children -/

theorem collectChildren_spec (E : Externals K) (pla : Player) :
    ∀ (cs : List (SearchChildPointer K)), ∀ s ∈ collectChildren E pla cs,
      0 < s.stats.visits ∧ 0 < s.stats.weightSum ∧
      ∃ c ∈ cs, c.ifAllocated = some s.stats ∧ 0 < c.edgeVisits ∧
        s.weightAdjusted = E.getChildWeight s.stats c.edgeVisits
  | [], s, hs => by simp [collectChildren] at hs
  | c :: cs, s, hs => by
    unfold collectChildren at hs
    cases hc : c.ifAllocated with
    | none => rw [hc] at hs; simp at hs
    | some st =>
      rw [hc] at hs
      dsimp only at hs
      have ih := collectChildren_spec E pla cs s
      by_cases hskip : st.visits ≤ 0 ∨ st.weightSum ≤ 0 ∨ c.edgeVisits ≤ 0
      · rw [if_pos hskip] at hs
        obtain ⟨h1, h2, c', hc', h3⟩ := ih hs
        exact ⟨h1, h2, c', List.mem_cons_of_mem _ hc', h3⟩
      · rw [if_neg hskip] at hs
        rcases List.mem_cons.1 hs with rfl | hs
        · push_neg at hskip
          exact ⟨hskip.1, hskip.2.1, c, List.mem_cons_self _ _, hc, hskip.2.2, rfl⟩
        · obtain ⟨h1, h2, c', hc', h3⟩ := ih hs
          exact ⟨h1, h2, c', List.mem_cons_of_mem _ hc', h3⟩

/-! ### The noise-pruned buffer -/

theorem noisePrunedChildren_total (E : Externals K) (P : SearchParams K) (node : SearchNode K) :
    (noisePrunedChildren E P node).2 = totalWeightAdjusted (noisePrunedChildren E P node).1 := by
  unfold noisePrunedChildren pruneNoiseWeight
  dsimp only
  split_ifs with h1 h2
  · rfl
  · simp only [Int.toNat_ofNat, List.take_length, List.drop_length, List.append_nil]
    rw [pruneNoiseLoop_total, zero_add]
  · rfl

theorem noisePrunedChildren_stats (E : Externals K) (P : SearchParams K) (node : SearchNode K) :
    (noisePrunedChildren E P node).1.map (fun s => s.stats)
      = (collectChildren E node.nextPla node.children).map (fun s => s.stats) := by
  unfold noisePrunedChildren pruneNoiseWeight
  dsimp only
  split_ifs with h1 h2
  · rfl
  · simp only [Int.toNat_ofNat, List.take_length, List.drop_length, List.append_nil]
    rw [pruneNoiseLoop_stats]
  · rfl

theorem policyProbsBuf_nonneg (E : Externals K) (nnOutput : NNOutput K)
    (l : List (MoreNodeStats K)) (i : Nat) : 0 ≤ policyProbsBuf E nnOutput l i := by
  unfold policyProbsBuf
  cases l.get? i with
  | none => exact le_refl _
  | some s => exact le_trans (by positivity) (le_max_left _ _)

theorem noisePrunedChildren_nonneg (E : Externals K) (P : SearchParams K) (node : SearchNode K)
    (hexp : ∀ x, 0 ≤ E.exp x)
    (h : ∀ s ∈ collectChildren E node.nextPla node.children, 0 ≤ s.weightAdjusted) :
    ∀ s ∈ (noisePrunedChildren E P node).1, 0 ≤ s.weightAdjusted := by
  unfold noisePrunedChildren pruneNoiseWeight
  dsimp only
  split_ifs with h1 h2
  · exact h
  · simp only [Int.toNat_ofNat, List.take_length, List.drop_length, List.append_nil]
    exact pruneNoiseLoop_nonneg E P _ hexp (policyProbsBuf_nonneg E _ _) _ _ _ _ _ h
  · exact h

omit [LinearOrderedField K] in
theorem stats_mem_of_map_eq {l l' : List (MoreNodeStats K)}
    (h : l.map (fun s => s.stats) = l'.map (fun s => s.stats)) :
    ∀ s ∈ l, ∃ s' ∈ l', s'.stats = s.stats := by
  intro s hs
  have : s.stats ∈ l.map (fun s => s.stats) := List.mem_map_of_mem _ hs
  rw [h] at this
  obtain ⟨s', hs', he⟩ := List.mem_map.1 this
  exact ⟨s', hs', he⟩

/-! ### The adjusted buffer -/

theorem adjustedChildren_stats (E : Externals K) (P : SearchParams K) (node : SearchNode K)
    (isRoot : Bool) :
    (adjustedChildren E P node isRoot).map (fun s => s.stats)
      = (collectChildren E node.nextPla node.children).map (fun s => s.stats) := by
  unfold adjustedChildren
  dsimp only
  rw [downweight_stats, noisePrunedChildren_stats]

theorem noisePrunedChildren_visits (E : Externals K) (P : SearchParams K) (node : SearchNode K) :
    ∀ s ∈ (noisePrunedChildren E P node).1, s.stats.visits ≠ 0 := by
  intro s hs
  obtain ⟨s', hs', he⟩ := stats_mem_of_map_eq (noisePrunedChildren_stats E P node) s hs
  have := (collectChildren_spec E node.nextPla node.children s' hs').1
  rw [he] at this
  omega

/-- The final child weights sum to `currentTotalChildWeight`. -/
theorem adjustedChildren_total (E : Externals K) (P : SearchParams K) (node : SearchNode K)
    (isRoot : Bool) (hcdf : ∀ z, 0 ≤ E.getCdf z) (hpow : ∀ p e, 0 < p → 0 < E.pow p e) :
    totalWeightAdjusted (adjustedChildren E P node isRoot) = (noisePrunedChildren E P node).2 := by
  unfold adjustedChildren
  dsimp only
  apply downweight_total E P hcdf hpow
  · exact noisePrunedChildren_total E P node
  · exact noisePrunedChildren_visits E P node
  · intro hpos
    rw [noisePrunedChildren_total] at hpos
    exact rootAmounts_survivor P isRoot _ hpos

theorem adjustedChildren_nonneg (E : Externals K) (P : SearchParams K) (node : SearchNode K)
    (isRoot : Bool) (hcdf : ∀ z, 0 ≤ E.getCdf z) (hpow : ∀ p e, 0 < p → 0 < E.pow p e)
    (hexp : ∀ x, 0 ≤ E.exp x)
    (h : ∀ s ∈ collectChildren E node.nextPla node.children, 0 ≤ s.weightAdjusted) :
    ∀ s ∈ adjustedChildren E P node isRoot, 0 ≤ s.weightAdjusted := by
  unfold adjustedChildren
  dsimp only
  apply downweight_nonneg E P hcdf hpow
  · exact noisePrunedChildren_total E P node
  · exact noisePrunedChildren_visits E P node
  · exact noisePrunedChildren_nonneg E P node hexp h

end

/-! ### recomputeNodeStats -/

section
variable {K : Type} [LinearOrderedField K]

/-- The published averages in terms of the final child weights. -/
theorem recomputeNodeStats_formulas (E : Externals K) (P : SearchParams K)
    (node : SearchNode K) (numVisitsToAdd : Int) (isRoot : Bool)
    (hcdf : ∀ z, 0 ≤ E.getCdf z) (hpow : ∀ p e, 0 < p → 0 < E.pow p e) :
    ((recomputeNodeStats E P node numVisitsToAdd isRoot).weightSum
      = totalWeightAdjusted (adjustedChildren E P node isRoot)
        + computeWeightFromNNOutput E P node.nnOutput) ∧
    ((recomputeNodeStats E P node numVisitsToAdd isRoot).winLossValueAvg
      = (((adjustedChildren E P node isRoot).map
            (fun s => s.weightAdjusted * s.stats.winLossValueAvg)).sum
          + computeWeightFromNNOutput E P node.nnOutput
            * (node.nnOutput.whiteWinProb - node.nnOutput.whiteLossProb))
        / (totalWeightAdjusted (adjustedChildren E P node isRoot)
            + computeWeightFromNNOutput E P node.nnOutput)) ∧
    ((recomputeNodeStats E P node numVisitsToAdd isRoot).noResultValueAvg
      = (((adjustedChildren E P node isRoot).map
            (fun s => s.weightAdjusted * s.stats.noResultValueAvg)).sum
          + computeWeightFromNNOutput E P node.nnOutput * node.nnOutput.whiteNoResultProb)
        / (totalWeightAdjusted (adjustedChildren E P node isRoot)
            + computeWeightFromNNOutput E P node.nnOutput)) := by
  have htot := adjustedChildren_total E P node isRoot hcdf hpow
  refine ⟨?_, ?_, ?_⟩
  · rw [htot]; rfl
  · rw [htot, mul_comm]; rfl
  · rw [htot, mul_comm]; rfl

end

section
variable {K : Type} [LinearOrderedField K]

/-- C4, amended: in exact arithmetic (every operation on doubles read as the
operation of the ordered field, without rounding), if the node's NN output has
`|whiteWinProb - whiteLossProb| ≤ 1`,
`0 ≤ whiteNoResultProb ≤ 1` and a positive own weight, and every allocated child
has `|winLossValueAvg| ≤ 1` and `0 ≤ noResultValueAvg ≤ 1`, then the stats
published by `recomputeNodeStats` have `weightSum > 0`, `|winLossValueAvg| ≤ 1`
and `0 ≤ noResultValueAvg ≤ 1`, for every `isRoot` and every parameter setting
(the sign conditions on `noisePruningCap`, `noisePruneUtilityScale`,
`chosenMoveSubtract` and `chosenMovePrune` are not needed).  The external
functions are taken with the signs of the real ones: `exp` and the CDF table
non-negative, `pow` positive on positive bases, `getChildWeight` non-negative
on a child with positive visits, weight and edge visits. -/
theorem recomputeNodeStats_preserves_bounds (E : Externals K) (P : SearchParams K)
    (node : SearchNode K) (numVisitsToAdd : Int) (isRoot : Bool)
    (hcdf : ∀ z, 0 ≤ E.getCdf z) (hpow : ∀ p e, 0 < p → 0 < E.pow p e)
    (hexp : ∀ x, 0 ≤ E.exp x)
    (hgcw : ∀ (s : NodeStats K) (edgeVisits : Int), 0 < s.visits → 0 < s.weightSum →
      0 < edgeVisits → 0 ≤ E.getChildWeight s edgeVisits)
    (hwl : |node.nnOutput.whiteWinProb - node.nnOutput.whiteLossProb| ≤ 1)
    (hnr : 0 ≤ node.nnOutput.whiteNoResultProb ∧ node.nnOutput.whiteNoResultProb ≤ 1)
    (hw0 : 0 < computeWeightFromNNOutput E P node.nnOutput)
    (hch : ∀ c ∈ node.children, ∀ st, c.ifAllocated = some st →
      |st.winLossValueAvg| ≤ 1 ∧ 0 ≤ st.noResultValueAvg ∧ st.noResultValueAvg ≤ 1) :
    0 < (recomputeNodeStats E P node numVisitsToAdd isRoot).weightSum ∧
    |(recomputeNodeStats E P node numVisitsToAdd isRoot).winLossValueAvg| ≤ 1 ∧
    0 ≤ (recomputeNodeStats E P node numVisitsToAdd isRoot).noResultValueAvg ∧
    (recomputeNodeStats E P node numVisitsToAdd isRoot).noResultValueAvg ≤ 1 := by
  obtain ⟨hW, hWL, hNR⟩ := recomputeNodeStats_formulas E P node numVisitsToAdd isRoot hcdf hpow
  have hcol : ∀ s ∈ collectChildren E node.nextPla node.children, 0 ≤ s.weightAdjusted := by
    intro s hs
    obtain ⟨h1, h2, c, _, _, h3, h4⟩ := collectChildren_spec E node.nextPla node.children s hs
    rw [h4]; exact hgcw _ _ h1 h2 h3
  have hnn := adjustedChildren_nonneg E P node isRoot hcdf hpow hexp hcol
  have hstats : ∀ s ∈ adjustedChildren E P node isRoot,
      |s.stats.winLossValueAvg| ≤ 1 ∧ 0 ≤ s.stats.noResultValueAvg ∧
        s.stats.noResultValueAvg ≤ 1 := by
    intro s hs
    obtain ⟨s', hs', he⟩ := stats_mem_of_map_eq (adjustedChildren_stats E P node isRoot) s hs
    obtain ⟨_, _, c, hc, hca, _, _⟩ := collectChildren_spec E node.nextPla node.children s' hs'
    rw [← he]
    exact hch c hc _ hca
  have htot := totalWeightAdjusted_nonneg hnn
  have hden : 0 < totalWeightAdjusted (adjustedChildren E P node isRoot)
      + computeWeightFromNNOutput E P node.nnOutput := by linarith
  have hbWL := weighted_sum_bounds (fun st => st.winLossValueAvg) (-1) 1
    (adjustedChildren E P node isRoot) hnn
    (fun s hs => abs_le.1 (hstats s hs).1)
  have hbNR := weighted_sum_bounds (fun st => st.noResultValueAvg) 0 1
    (adjustedChildren E P node isRoot) hnn
    (fun s hs => (hstats s hs).2)
  have hwl' := abs_le.1 hwl
  dsimp only at hbWL hbNR
  rw [hW, hWL, hNR]
  refine ⟨hden, abs_le.2 ⟨?_, ?_⟩, ?_, ?_⟩
  · rw [le_div_iff₀ hden]
    nlinarith [mul_nonneg hw0.le (sub_nonneg.2 hwl'.1), hbWL.1]
  · rw [div_le_iff₀ hden]
    nlinarith [mul_nonneg hw0.le (sub_nonneg.2 hwl'.2), hbWL.2]
  · apply div_nonneg _ hden.le
    nlinarith [mul_nonneg hw0.le hnr.1, hbNR.1]
  · rw [div_le_iff₀ hden]
    nlinarith [mul_nonneg hw0.le (sub_nonneg.2 hnr.2), hbNR.2]

end

section
variable {K : Type} [LinearOrderedField K]

end

section
variable {K : Type} [LinearOrderedField K]

/-- Instance of C4 on `pruningNode` at the root with noise pruning enabled. -/
theorem recomputeNodeStats_preserves_bounds_witness :
    0 < (recomputeNodeStats sampleExternals (pruningParams (K := ℚ)) pruningNode 1 true).weightSum ∧
    |(recomputeNodeStats sampleExternals (pruningParams (K := ℚ)) pruningNode 1 true).winLossValueAvg|
      ≤ 1 := by
  have h := recomputeNodeStats_preserves_bounds sampleExternals (pruningParams (K := ℚ))
    pruningNode 1 true
    (by intro z; norm_num [sampleExternals, specChildWeight]) (fun p e hp => hp)
    (by intro x; norm_num [sampleExternals, specChildWeight])
    (by
      intro s ev hv hw he
      have h1 : (0 : ℚ) < (s.visits : ℚ) := by exact_mod_cast hv
      have h2 : (0 : ℚ) < (ev : ℚ) := by exact_mod_cast he
      exact (mul_pos hw (div_pos h2 h1)).le)
    (by norm_num [pruningNode]) (by norm_num [pruningNode])
    (by norm_num [computeWeightFromNNOutput, pruningParams])
    (by
      intro c hc st hst
      simp only [pruningNode, List.mem_cons, List.mem_singleton, List.not_mem_nil, or_false] at hc
      rcases hc with rfl | rfl
      · cases Option.some.inj hst; norm_num
      · cases Option.some.inj hst; norm_num)
  exact ⟨h.1, h.2.1⟩

/-- C10, as stated, fails at a root searched with `rootNoiseEnabled = false`:
for `heavyNode` nothing is subtracted or pruned and the weights 128 and 64 are
final, although `min(chosenMoveSubtract, maxChildWeight/64)` and
`min(chosenMovePrune, maxChildWeight/64)` are both `min(1, 2) = 1`. -/
theorem rootAmounts_root_without_noise :
    rootAmounts (subtractParams (K := ℚ)) true
      (noisePrunedChildren sampleExternals subtractParams heavyNode).1 = (0, 0) ∧
    min (subtractParams (K := ℚ)).chosenMoveSubtract
      (maxChildWeightLoop (noisePrunedChildren sampleExternals subtractParams heavyNode).1 0 / 64)
      = 1 ∧
    min (subtractParams (K := ℚ)).chosenMovePrune
      (maxChildWeightLoop (noisePrunedChildren sampleExternals subtractParams heavyNode).1 0 / 64)
      = 1 ∧
    (adjustedChildren sampleExternals (subtractParams (K := ℚ)) heavyNode true).map
      (fun s => s.weightAdjusted) = [128, 64] := by
  have hnoise : (noisePrunedChildren sampleExternals (subtractParams (K := ℚ)) heavyNode)
      = ([⟨⟨128, 1, 0, 1, 1, 128, 128⟩, 1, 128, 0⟩, ⟨⟨64, 0, 0, 0, 0, 64, 64⟩, 0, 64, 1⟩], 192) := by
    norm_num [noisePrunedChildren, collectChildren, totalWeightAdjusted, subtractParams,
      heavyNode, sampleExternals, specChildWeight]
  refine ⟨?_, ?_, ?_, ?_⟩
  · simp [rootAmounts, subtractParams]
  · rw [hnoise]; norm_num [maxChildWeightLoop, subtractParams]
  · rw [hnoise]; norm_num [maxChildWeightLoop, subtractParams]
  · unfold adjustedChildren
    rw [hnoise]
    norm_num [rootAmounts, downweightBadChildrenAndNormalizeWeight, subtractPruneLoop,
      subtractParams]

/-- C10, amended: the amounts that `recomputeNodeStats` passes to
`downweightBadChildrenAndNormalizeWeight` are
`min(chosenMoveSubtract, maxChildWeight/64)` and
`min(chosenMovePrune, maxChildWeight/64)` exactly when `isRoot`,
`rootNoiseEnabled` and not `useNoisePruning`, where `maxChildWeight` bounds every
good child's `weightAdjusted` and is one of them (or 0); in every other case,
in particular when `isRoot` is false, both amounts are 0. -/
theorem rootAmounts_spec (E : Externals K) (P : SearchParams K) (node : SearchNode K)
    (isRoot : Bool) :
    adjustedChildren E P node isRoot
      = downweightBadChildrenAndNormalizeWeight E P
          ((noisePrunedChildren E P node).1.length : Int)
          (noisePrunedChildren E P node).2 (noisePrunedChildren E P node).2
          (rootAmounts P isRoot (noisePrunedChildren E P node).1).1
          (rootAmounts P isRoot (noisePrunedChildren E P node).1).2
          (noisePrunedChildren E P node).1 ∧
    ∀ (statsBuf : List (MoreNodeStats K)),
      (isRoot = true ∧ P.rootNoiseEnabled = true ∧ P.useNoisePruning = false →
        rootAmounts P isRoot statsBuf
          = (min P.chosenMoveSubtract (maxChildWeightLoop statsBuf 0 / 64),
             min P.chosenMovePrune (maxChildWeightLoop statsBuf 0 / 64))) ∧
      (¬ (isRoot = true ∧ P.rootNoiseEnabled = true ∧ P.useNoisePruning = false) →
        rootAmounts P isRoot statsBuf = (0, 0)) ∧
      (∀ s ∈ statsBuf, s.weightAdjusted ≤ maxChildWeightLoop statsBuf 0) ∧
      (maxChildWeightLoop statsBuf 0 = 0 ∨
        ∃ s ∈ statsBuf, s.weightAdjusted = maxChildWeightLoop statsBuf 0) := by
  refine ⟨rfl, ?_⟩
  intro statsBuf
  refine ⟨?_, ?_, maxChildWeightLoop_ge statsBuf 0, maxChildWeightLoop_mem statsBuf 0⟩
  · intro h
    unfold rootAmounts
    rw [if_pos (by simp [h.1, h.2.1, h.2.2])]
  · intro h
    unfold rootAmounts
    rw [if_neg]
    intro hc
    apply h
    cases hr : isRoot <;> cases hn : P.rootNoiseEnabled <;> cases hp : P.useNoisePruning <;>
      simp [hr, hn, hp] at hc ⊢

/-- Instance of amended C10: at a root with root noise enabled the amounts for
`heavyNode` are `min(1, 128/64) = 1`. -/
theorem rootAmounts_spec_witness :
    rootAmounts ({ (subtractParams (K := ℚ)) with rootNoiseEnabled := true }) true
      (noisePrunedChildren sampleExternals subtractParams heavyNode).1 = (1, 1) := by
  have h := ((rootAmounts_spec sampleExternals
    ({ (subtractParams (K := ℚ)) with rootNoiseEnabled := true }) heavyNode true).2
    (noisePrunedChildren sampleExternals subtractParams heavyNode).1).1 ⟨rfl, rfl, rfl⟩
  rw [h]
  norm_num [noisePrunedChildren, collectChildren, totalWeightAdjusted, subtractParams,
    heavyNode, sampleExternals, specChildWeight, maxChildWeightLoop]

end

/-! ### updateStatsAfterPlayout, interleaved callers -/

theorem sum_map_set {α : Type} (f : α → Int) :
    ∀ (l : List α) (i : Nat) (a b : α), l.get? i = some a →
      ((l.set i b).map f).sum = (l.map f).sum - f a + f b
  | [], i, a, b, h => by simp at h
  | x :: l, 0, a, b, h => by
    simp at h
    subst h
    simp only [List.set_cons_zero, List.map_cons, List.sum_cons]
    omega
  | x :: l, i + 1, a, b, h => by
    simp only [List.get?_cons_succ] at h
    simp only [List.set_cons_succ, List.map_cons, List.sum_cons, sum_map_set f l i a b h]
    omega

theorem countP_set {α : Type} (p : α → Bool) :
    ∀ (l : List α) (i : Nat) (a b : α), l.get? i = some a →
      (l.set i b).countP p + (if p a then 1 else 0) = l.countP p + (if p b then 1 else 0)
  | [], i, a, b, h => by simp at h
  | x :: l, 0, a, b, h => by
    simp at h
    subst h
    simp only [List.set_cons_zero, List.countP_cons]
    omega
  | x :: l, i + 1, a, b, h => by
    simp only [List.get?_cons_succ] at h
    have ih := countP_set p l i a b h
    simp only [List.set_cons_succ, List.countP_cons]
    omega

theorem mem_set_self {α : Type} :
    ∀ (l : List α) (i : Nat) (a b : α), l.get? i = some a → b ∈ l.set i b
  | [], i, a, b, h => by simp at h
  | x :: l, 0, a, b, _ => by simp
  | x :: l, i + 1, a, b, h => by
    simp only [List.get?_cons_succ] at h
    simp only [List.set_cons_succ, List.mem_cons]
    exact Or.inr (mem_set_self l i a b h)

theorem mem_of_get? {α : Type} :
    ∀ (l : List α) (i : Nat) (a : α), l.get? i = some a → a ∈ l
  | [], i, a, h => by simp at h
  | x :: l, 0, a, h => by simp at h; simp [h]
  | x :: l, i + 1, a, h => by
    simp only [List.get?_cons_succ] at h
    exact List.mem_cons_of_mem _ (mem_of_get? l i a h)

theorem countP_unique {α : Type} (p : α → Bool) :
    ∀ (l : List α), l.countP p ≤ 1 → ∀ a ∈ l, ∀ b ∈ l, p a = true → p b = true → a = b
  | [], _, a, ha, _, _, _, _ => by simp at ha
  | x :: l, h, a, ha, b, hb, hpa, hpb => by
    rw [List.countP_cons] at h
    rcases List.mem_cons.1 ha with rfl | ha' <;> rcases List.mem_cons.1 hb with rfl | hb'
    · rfl
    · have : 0 < l.countP p := List.countP_pos_iff.2 ⟨b, hb', hpb⟩
      simp only [hpa, if_true] at h
      omega
    · have : 0 < l.countP p := List.countP_pos_iff.2 ⟨a, ha', hpa⟩
      simp only [hpb, if_true] at h
      omega
    · exact countP_unique p l (by omega) a ha' b hb' hpa hpb

theorem PlayoutSys.inv_init (numCalls : Nat) : (PlayoutSys.init numCalls).Inv := by
  have hrep : ∀ (f : ThreadPc → Int), f ThreadPc.start = 0 →
      ((List.replicate numCalls ThreadPc.start).map f).sum = 0 := by
    intro f hf
    induction numCalls with
    | zero => simp
    | succ k ih => simp [List.replicate_succ, hf, ih]
  have hcount : (List.replicate numCalls ThreadPc.start).countP ThreadPc.isRecomputing = 0 := by
    rw [List.countP_eq_zero]
    intro a ha
    rw [List.eq_of_mem_replicate ha]
    simp [ThreadPc.isRecomputing]
  refine ⟨?_, ?_, ?_, ?_⟩
  · show (List.replicate numCalls ThreadPc.start).countP ThreadPc.isRecomputing ≤ 1
    omega
  · intro _; rfl
  · intro n hn
    have := List.eq_of_mem_replicate hn
    cases this
  · show ([] : List Int).sum + 0
        - ((List.replicate numCalls ThreadPc.start).map ThreadPc.held).sum
        = ((List.replicate numCalls ThreadPc.start).map ThreadPc.started).sum
    rw [hrep ThreadPc.held rfl, hrep ThreadPc.started rfl]
    simp

theorem PlayoutSys.inv_step (s s' : PlayoutSys) (t : Nat) (hinv : s.Inv)
    (hstep : s.step t = some s') : s'.Inv := by
  obtain ⟨hsingle, hidle, howner, hbal⟩ := hinv
  unfold PlayoutSys.numRecomputing at hsingle hidle
  unfold PlayoutSys.step at hstep
  cases hget : s.threads.get? t with
  | none => rw [hget] at hstep; simp at hstep
  | some pc =>
    rw [hget] at hstep
    have hmem : pc ∈ s.threads := mem_of_get? _ _ _ hget
    cases pc with
    | returned => simp at hstep
    | start =>
      dsimp only at hstep
      have hc := fun b => countP_set ThreadPc.isRecomputing s.threads t ThreadPc.start b hget
      have hh := fun b => sum_map_set ThreadPc.held s.threads t ThreadPc.start b hget
      have hs := fun b => sum_map_set ThreadPc.started s.threads t ThreadPc.start b hget
      by_cases hd : s.dirtyCounter > 0
      · rw [if_pos hd] at hstep
        cases Option.some.inj hstep
        have hc' := hc ThreadPc.returned
        simp only [ThreadPc.isRecomputing, Bool.false_eq_true, if_false, add_zero] at hc'
        refine ⟨?_, ?_, ?_, ?_⟩
        · show (s.threads.set t ThreadPc.returned).countP ThreadPc.isRecomputing ≤ 1
          omega
        · intro h0
          have h0' : (s.threads.set t ThreadPc.returned).countP ThreadPc.isRecomputing = 0 := h0
          have := hidle (by omega)
          omega
        · intro n hn
          rcases List.mem_or_eq_of_mem_set hn with h | h
          · have := howner n h
            exact ⟨this.1, by show n ≤ s.dirtyCounter + 1; omega⟩
          · cases h
        · show s.recomputeCalls.sum + (s.dirtyCounter + 1)
            - ((s.threads.set t ThreadPc.returned).map ThreadPc.held).sum
            = ((s.threads.set t ThreadPc.returned).map ThreadPc.started).sum
          rw [hh, hs]
          simp only [ThreadPc.held, ThreadPc.started]
          omega
      · rw [if_neg hd] at hstep
        cases Option.some.inj hstep
        have hnone : s.threads.countP ThreadPc.isRecomputing = 0 := by
          by_contra hne
          obtain ⟨x, hx, hpx⟩ := List.countP_pos_iff.1 (Nat.pos_of_ne_zero hne)
          cases x with
          | recomputing n => have := howner n hx; omega
          | start => simp [ThreadPc.isRecomputing] at hpx
          | returned => simp [ThreadPc.isRecomputing] at hpx
        have hd0 := hidle hnone
        have hc' := hc (ThreadPc.recomputing 1)
        simp only [ThreadPc.isRecomputing, Bool.false_eq_true, if_false, add_zero, if_true] at hc'
        refine ⟨?_, ?_, ?_, ?_⟩
        · show (s.threads.set t (ThreadPc.recomputing 1)).countP ThreadPc.isRecomputing ≤ 1
          omega
        · intro h0
          have h0' : (s.threads.set t (ThreadPc.recomputing 1)).countP ThreadPc.isRecomputing = 0 :=
            h0
          omega
        · intro n hn
          rcases List.mem_or_eq_of_mem_set hn with h | h
          · have := List.countP_pos_iff.2 ⟨_, h, (rfl : ThreadPc.isRecomputing (ThreadPc.recomputing n) = true)⟩
            omega
          · cases h
            show (1 : Int) ≤ 1 ∧ 1 ≤ s.dirtyCounter + 1
            omega
        · show (s.recomputeCalls ++ [1]).sum + (s.dirtyCounter + 1)
            - ((s.threads.set t (ThreadPc.recomputing 1)).map ThreadPc.held).sum
            = ((s.threads.set t (ThreadPc.recomputing 1)).map ThreadPc.started).sum
          rw [hh, hs, List.sum_append]
          simp only [ThreadPc.held, ThreadPc.started, List.sum_cons, List.sum_nil]
          omega
    | recomputing n =>
      dsimp only at hstep
      have hn := howner n hmem
      have hc := fun b => countP_set ThreadPc.isRecomputing s.threads t (ThreadPc.recomputing n) b hget
      have hh := fun b => sum_map_set ThreadPc.held s.threads t (ThreadPc.recomputing n) b hget
      have hs := fun b => sum_map_set ThreadPc.started s.threads t (ThreadPc.recomputing n) b hget
      by_cases hd : s.dirtyCounter - n ≤ 0
      · rw [if_pos hd] at hstep
        cases Option.some.inj hstep
        have hc' := hc ThreadPc.returned
        simp only [ThreadPc.isRecomputing, Bool.false_eq_true, if_false, add_zero, if_true] at hc'
        refine ⟨?_, ?_, ?_, ?_⟩
        · show (s.threads.set t ThreadPc.returned).countP ThreadPc.isRecomputing ≤ 1
          omega
        · intro _
          show s.dirtyCounter - n = 0
          omega
        · intro m hm
          have hpos : 0 < (s.threads.set t ThreadPc.returned).countP ThreadPc.isRecomputing :=
            List.countP_pos_iff.2 ⟨_, hm,
              (rfl : ThreadPc.isRecomputing (ThreadPc.recomputing m) = true)⟩
          omega
        · show s.recomputeCalls.sum + (s.dirtyCounter - n)
            - ((s.threads.set t ThreadPc.returned).map ThreadPc.held).sum
            = ((s.threads.set t ThreadPc.returned).map ThreadPc.started).sum
          rw [hh, hs]
          simp only [ThreadPc.held, ThreadPc.started]
          omega
      · rw [if_neg hd] at hstep
        cases Option.some.inj hstep
        have hc' := hc (ThreadPc.recomputing (s.dirtyCounter - n))
        simp only [ThreadPc.isRecomputing, if_true] at hc'
        have hsingle' : (s.threads.set t (ThreadPc.recomputing (s.dirtyCounter - n))).countP
            ThreadPc.isRecomputing ≤ 1 := by omega
        refine ⟨hsingle', ?_, ?_, ?_⟩
        · intro h0
          have hpos := List.countP_pos_iff.2 ⟨_, mem_set_self s.threads t _
            (ThreadPc.recomputing (s.dirtyCounter - n)) hget,
            (rfl : ThreadPc.isRecomputing (ThreadPc.recomputing (s.dirtyCounter - n)) = true)⟩
          have h0' : (s.threads.set t (ThreadPc.recomputing (s.dirtyCounter - n))).countP
            ThreadPc.isRecomputing = 0 := h0
          omega
        · intro m hm
          have := countP_unique ThreadPc.isRecomputing _ hsingle' _ hm _
            (mem_set_self s.threads t _ (ThreadPc.recomputing (s.dirtyCounter - n)) hget) rfl rfl
          cases this
          show 1 ≤ s.dirtyCounter - n ∧ s.dirtyCounter - n ≤ s.dirtyCounter - n
          omega
        · show (s.recomputeCalls ++ [s.dirtyCounter - n]).sum + (s.dirtyCounter - n)
            - ((s.threads.set t (ThreadPc.recomputing (s.dirtyCounter - n))).map ThreadPc.held).sum
            = ((s.threads.set t (ThreadPc.recomputing (s.dirtyCounter - n))).map
                ThreadPc.started).sum
          rw [hh, hs, List.sum_append]
          simp only [ThreadPc.held, ThreadPc.started, List.sum_cons, List.sum_nil]
          omega

theorem PlayoutSys.inv_run :
    ∀ (schedule : List Nat) (s s' : PlayoutSys), s.Inv → s.run schedule = some s' → s'.Inv
  | [], s, s', hinv, h => by
    simp only [PlayoutSys.run] at h
    cases Option.some.inj h
    exact hinv
  | t :: schedule, s, s', hinv, h => by
    simp only [PlayoutSys.run] at h
    cases hstep : s.step t with
    | none => rw [hstep] at h; simp at h
    | some s1 =>
      rw [hstep] at h
      exact PlayoutSys.inv_run schedule s1 s' (PlayoutSys.inv_step s s1 t hinv hstep) h

theorem PlayoutSys.length_step (s s' : PlayoutSys) (t : Nat) (hstep : s.step t = some s') :
    s'.threads.length = s.threads.length := by
  unfold PlayoutSys.step at hstep
  cases hget : s.threads.get? t with
  | none => rw [hget] at hstep; simp at hstep
  | some pc =>
    rw [hget] at hstep
    cases pc with
    | returned => simp at hstep
    | start =>
      dsimp only at hstep
      split_ifs at hstep <;> (cases Option.some.inj hstep; simp)
    | recomputing n =>
      dsimp only at hstep
      split_ifs at hstep <;> (cases Option.some.inj hstep; simp)

theorem PlayoutSys.length_run :
    ∀ (schedule : List Nat) (s s' : PlayoutSys), s.run schedule = some s' →
      s'.threads.length = s.threads.length
  | [], s, s', h => by
    simp only [PlayoutSys.run] at h
    cases Option.some.inj h
    rfl
  | t :: schedule, s, s', h => by
    simp only [PlayoutSys.run] at h
    cases hstep : s.step t with
    | none => rw [hstep] at h; simp at h
    | some s1 =>
      rw [hstep] at h
      rw [PlayoutSys.length_run schedule s1 s' h, PlayoutSys.length_step s s1 t hstep]

theorem sums_of_all_returned :
    ∀ (l : List ThreadPc), l.all (fun pc => pc = ThreadPc.returned) = true →
      (l.map ThreadPc.held).sum = 0 ∧ (l.map ThreadPc.started).sum = l.length ∧
        l.countP ThreadPc.isRecomputing = 0
  | [], _ => by simp
  | x :: l, h => by
    simp only [List.all_cons, Bool.and_eq_true, decide_eq_true_eq] at h
    obtain ⟨hx, hl⟩ := h
    obtain ⟨h1, h2, h3⟩ := sums_of_all_returned l hl
    subst hx
    simp only [List.map_cons, List.sum_cons, List.length_cons, List.countP_cons, h1, h2, h3,
      ThreadPc.held, ThreadPc.started, ThreadPc.isRecomputing]
    refine ⟨by omega, by push_cast; omega, by simp⟩

/-- C6: under every schedule of the atomic `fetch_add` steps of `numCalls`
concurrent calls of `updateStatsAfterPlayout` on one node, in every state
reached at most one thread is inside `recomputeNodeStats`, and once all calls
have returned the `numVisitsToAdd` values passed to `recomputeNodeStats` sum to
`numCalls` (and `dirtyCounter` is back to 0). -/
theorem updateStatsAfterPlayout_interleaved (numCalls : Nat) (schedule : List Nat)
    (s : PlayoutSys) (hrun : (PlayoutSys.init numCalls).run schedule = some s) :
    s.numRecomputing ≤ 1 ∧
    (s.allReturned = true → s.recomputeCalls.sum = numCalls ∧ s.dirtyCounter = 0) := by
  have hinv := PlayoutSys.inv_run schedule _ s (PlayoutSys.inv_init numCalls) hrun
  have hlen := PlayoutSys.length_run schedule _ s hrun
  refine ⟨hinv.single, ?_⟩
  intro hall
  obtain ⟨h1, h2, h3⟩ := sums_of_all_returned s.threads hall
  have hb := hinv.balance
  have hd := hinv.idle h3
  rw [h1, h2, hlen, hd] at hb
  simp only [PlayoutSys.init, List.length_replicate] at hb
  exact ⟨by omega, hd⟩

/-- Instance of C6: three calls, the first of which recomputes three times. -/
theorem updateStatsAfterPlayout_interleaved_witness :
    (PlayoutSys.init 3).run [0, 1, 0, 2, 0, 0] = some ⟨0, [.returned, .returned, .returned], [1, 1, 1]⟩ ∧
    ([1, 1, 1] : List Int).sum = 3 := by
  have h : (PlayoutSys.init 3).run [0, 1, 0, 2, 0, 0]
      = some ⟨0, [.returned, .returned, .returned], [1, 1, 1]⟩ := by decide
  exact ⟨h, (updateStatsAfterPlayout_interleaved 3 [0, 1, 0, 2, 0, 0] _ h).2 rfl |>.1⟩

section
variable {K : Type} [LinearOrderedField K]

/-! ### Which children and which node fields recomputeNodeStats reads -/

/-- The published stats depend on the node only through `nnOutput`, the old
`visits` and the collected children. -/
theorem recomputeNodeStats_congr (E : Externals K) (P : SearchParams K)
    (node node' : SearchNode K) (numVisitsToAdd : Int) (isRoot : Bool)
    (hnn : node'.nnOutput = node.nnOutput)
    (hvisits : node'.stats.visits = node.stats.visits)
    (hch : collectChildren E node'.nextPla node'.children
      = collectChildren E node.nextPla node.children) :
    recomputeNodeStats E P node' numVisitsToAdd isRoot
      = recomputeNodeStats E P node numVisitsToAdd isRoot := by
  have h1 : noisePrunedChildren E P node' = noisePrunedChildren E P node := by
    unfold noisePrunedChildren
    rw [hch, hnn]
  have h2 : adjustedChildren E P node' isRoot = adjustedChildren E P node isRoot := by
    unfold adjustedChildren
    rw [h1]
  unfold recomputeNodeStats
  rw [h1, h2, hnn, hvisits]

theorem collectChildren_eq_filterMap (E : Externals K) (pla : Player) :
    ∀ (cs : List (SearchChildPointer K)),
      collectChildren E pla cs
        = (cs.takeWhile (fun c => c.ifAllocated.isSome)).filterMap (fun c =>
            match c.ifAllocated with
            | none => none
            | some childStats =>
              if 0 < childStats.visits ∧ 0 < childStats.weightSum ∧ 0 < c.edgeVisits then
                some { stats := childStats
                       selfUtility :=
                         if pla = Player.white then childStats.utilityAvg
                         else -childStats.utilityAvg
                       weightAdjusted := E.getChildWeight childStats c.edgeVisits
                       prevMoveLoc := c.moveLoc }
              else none)
  | [] => rfl
  | c :: cs => by
    have ih := collectChildren_eq_filterMap E pla cs
    unfold collectChildren
    cases hc : c.ifAllocated with
    | none => simp [List.takeWhile, hc]
    | some st =>
      dsimp only
      rw [List.takeWhile_cons]
      simp only [hc, Option.isSome_some, if_true]
      by_cases hgood : 0 < st.visits ∧ 0 < st.weightSum ∧ 0 < c.edgeVisits
      · have hskip : ¬ (st.visits ≤ 0 ∨ st.weightSum ≤ 0 ∨ c.edgeVisits ≤ 0) := by
          push_neg; exact hgood
        rw [if_neg hskip, List.filterMap_cons_some (b := _) (by rw [hc]; simp only []; rw [if_pos hgood])]
        rw [ih]
      · have hskip : st.visits ≤ 0 ∨ st.weightSum ≤ 0 ∨ c.edgeVisits ≤ 0 := by
          by_contra hn
          push_neg at hn
          exact hgood hn
        rw [if_pos hskip, List.filterMap_cons_none (by rw [hc]; simp only []; rw [if_neg hgood])]
        rw [ih]

theorem collectChildren_insert_skipped (E : Externals K) (pla : Player)
    (bad : SearchChildPointer K) (st : NodeStats K) (hbad : bad.ifAllocated = some st)
    (hskip : st.visits ≤ 0 ∨ st.weightSum ≤ 0 ∨ bad.edgeVisits ≤ 0)
    (post : List (SearchChildPointer K)) :
    ∀ (pre : List (SearchChildPointer K)),
      collectChildren E pla (pre ++ bad :: post) = collectChildren E pla (pre ++ post)
  | [] => by
    rw [List.nil_append, List.nil_append]
    conv_lhs => unfold collectChildren
    rw [hbad]
    dsimp only
    rw [if_pos hskip]
  | c :: pre => by
    have ih := collectChildren_insert_skipped E pla bad st hbad hskip post pre
    rw [List.cons_append, List.cons_append]
    unfold collectChildren
    rw [ih]

theorem collectChildren_after_hole (E : Externals K) (pla : Player)
    (hole : SearchChildPointer K) (hhole : hole.ifAllocated = none)
    (post : List (SearchChildPointer K)) :
    ∀ (pre : List (SearchChildPointer K)),
      collectChildren E pla (pre ++ hole :: post) = collectChildren E pla pre
  | [] => by
    rw [List.nil_append]
    unfold collectChildren
    rw [hhole]
  | c :: pre => by
    have ih := collectChildren_after_hole E pla hole hhole post pre
    rw [List.cons_append]
    unfold collectChildren
    rw [ih]

/-- C11: the entries that `recomputeNodeStats` collects are those of the
allocated slots before the first unallocated one that have `visits > 0`,
`weightSum > 0` and `edgeVisits > 0`; inserting (equivalently, removing) an
allocated child with `visits <= 0`, `weightSum <= 0` or `edgeVisits <= 0` anywhere
in the children array leaves every published field unchanged, and so does any
change of the slots after an unallocated one. -/
theorem recomputeNodeStats_skips_children (E : Externals K) (P : SearchParams K)
    (node : SearchNode K) (numVisitsToAdd : Int) (isRoot : Bool) :
    (collectChildren E node.nextPla node.children
      = (node.children.takeWhile (fun c => c.ifAllocated.isSome)).filterMap (fun c =>
          match c.ifAllocated with
          | none => none
          | some childStats =>
            if 0 < childStats.visits ∧ 0 < childStats.weightSum ∧ 0 < c.edgeVisits then
              some { stats := childStats
                     selfUtility :=
                       if node.nextPla = Player.white then childStats.utilityAvg
                       else -childStats.utilityAvg
                     weightAdjusted := E.getChildWeight childStats c.edgeVisits
                     prevMoveLoc := c.moveLoc }
            else none)) ∧
    (∀ (pre post : List (SearchChildPointer K)) (bad : SearchChildPointer K) (st : NodeStats K),
      bad.ifAllocated = some st →
      (st.visits ≤ 0 ∨ st.weightSum ≤ 0 ∨ bad.edgeVisits ≤ 0) →
      recomputeNodeStats E P { node with children := pre ++ bad :: post } numVisitsToAdd isRoot
        = recomputeNodeStats E P { node with children := pre ++ post } numVisitsToAdd isRoot) ∧
    (∀ (pre post post' : List (SearchChildPointer K)) (hole : SearchChildPointer K),
      hole.ifAllocated = none →
      recomputeNodeStats E P { node with children := pre ++ hole :: post } numVisitsToAdd isRoot
        = recomputeNodeStats E P { node with children := pre ++ hole :: post' }
            numVisitsToAdd isRoot) := by
  refine ⟨collectChildren_eq_filterMap E node.nextPla node.children, ?_, ?_⟩
  · intro pre post bad st hbad hskip
    exact recomputeNodeStats_congr E P { node with children := pre ++ post }
      { node with children := pre ++ bad :: post } numVisitsToAdd isRoot rfl rfl
      (collectChildren_insert_skipped E node.nextPla bad st hbad hskip post pre)
  · intro pre post post' hole hhole
    apply recomputeNodeStats_congr E P { node with children := pre ++ hole :: post' }
      { node with children := pre ++ hole :: post } numVisitsToAdd isRoot rfl rfl
    show collectChildren E node.nextPla (pre ++ hole :: post)
      = collectChildren E node.nextPla (pre ++ hole :: post')
    rw [collectChildren_after_hole E node.nextPla hole hhole post pre,
      collectChildren_after_hole E node.nextPla hole hhole post' pre]

end

section
variable {K : Type} [LinearOrderedField K]

theorem heavyNode_root_run (exp sqrt : K → K) (pow : K → K → K) :
    (recomputeNodeStats (externalsOf exp sqrt pow) rootNoiseParams heavyNode 1 true).winLossValueAvg
      = 12192 / 18335 ∧
    (recomputeNodeStats (externalsOf exp sqrt pow) rootNoiseParams heavyNode 1 false).winLossValueAvg
      = 128 / 193 := by
  have hnoise : noisePrunedChildren (externalsOf exp sqrt pow) rootNoiseParams (heavyNode (K := K))
      = ([⟨⟨128, 1, 0, 1, 1, 128, 128⟩, 1, 128, 0⟩, ⟨⟨64, 0, 0, 0, 0, 64, 64⟩, 0, 64, 1⟩], 192) := by
    norm_num [noisePrunedChildren, collectChildren, totalWeightAdjusted, rootNoiseParams,
      subtractParams, heavyNode, externalsOf, specChildWeight]
  have hroot : adjustedChildren (externalsOf exp sqrt pow) rootNoiseParams (heavyNode (K := K)) true
      = [⟨⟨128, 1, 0, 1, 1, 128, 128⟩, 1, 127 * (192 / 190), 0⟩,
         ⟨⟨64, 0, 0, 0, 0, 64, 64⟩, 0, 63 * (192 / 190), 1⟩] := by
    unfold adjustedChildren
    rw [hnoise]
    norm_num [rootAmounts, maxChildWeightLoop, downweightBadChildrenAndNormalizeWeight,
      subtractPruneLoop, scaleWeights, rootNoiseParams, subtractParams]
  have hnon : adjustedChildren (externalsOf exp sqrt pow) rootNoiseParams (heavyNode (K := K)) false
      = [⟨⟨128, 1, 0, 1, 1, 128, 128⟩, 1, 128, 0⟩, ⟨⟨64, 0, 0, 0, 0, 64, 64⟩, 0, 64, 1⟩] := by
    unfold adjustedChildren
    rw [hnoise]
    norm_num [rootAmounts, downweightBadChildrenAndNormalizeWeight,
      subtractPruneLoop, rootNoiseParams, subtractParams]
  constructor
  · unfold recomputeNodeStats
    rw [hnoise, hroot]
    norm_num [computeWeightFromNNOutput, rootNoiseParams, subtractParams, heavyNode]
  · unfold recomputeNodeStats
    rw [hnoise, hnon]
    norm_num [computeWeightFromNNOutput, rootNoiseParams, subtractParams, heavyNode]

theorem locNode_run (exp sqrt : K → K) (pow : K → K → K) (hexp : exp (-1) < 3 / 4) :
    (recomputeNodeStats (externalsOf exp sqrt pow) pruningParams (locNode 1) 1 false).weightSum
      = 12 ∧
    (recomputeNodeStats (externalsOf exp sqrt pow) pruningParams (locNode 2) 1 false).weightSum
      = 10 := by
  have hcap : (9 : K) * (1 - exp (-1)) > 2 := by linarith
  have h1 : (noisePrunedChildren (externalsOf exp sqrt pow) pruningParams (locNode (K := K) 1)).2
      = 11 := by
    norm_num [noisePrunedChildren, pruneNoiseWeight, pruneNoiseLoop, pruneNoiseNewWeight,
      collectChildren, totalWeightAdjusted, policyProbsBuf, pruningParams, locNode,
      externalsOf, specChildWeight]
  have h2 : (noisePrunedChildren (externalsOf exp sqrt pow) pruningParams (locNode (K := K) 2)).2
      = 9 := by
    norm_num [noisePrunedChildren, pruneNoiseWeight, pruneNoiseLoop, pruneNoiseNewWeight,
      collectChildren, totalWeightAdjusted, policyProbsBuf, pruningParams, locNode,
      externalsOf, specChildWeight]
    rw [if_pos hcap]
    norm_num
  constructor
  · unfold recomputeNodeStats
    rw [h1]
    norm_num [computeWeightFromNNOutput, pruningParams]
  · unfold recomputeNodeStats
    rw [h2]
    norm_num [computeWeightFromNNOutput, pruningParams]

end

theorem real_exp_neg_one_lt : Real.exp (-1) < 3 / 4 := by
  have h2 : (2 : ℝ) ≤ Real.exp 1 := by
    have := Real.add_one_le_exp (1 : ℝ)
    linarith
  rw [Real.exp_neg]
  have hpos : (0 : ℝ) < Real.exp 1 := Real.exp_pos 1
  rw [inv_lt_comm₀ hpos (by norm_num)]
  linarith

/-- C12, as stated, fails: the published fields also depend on `isRoot` and on
the children's move locations.  On the reals with libm's `exp`: for `heavyNode`
with root noise enabled the published `winLossValueAvg` is 12192/18335 at the
root and 128/193 elsewhere; and with noise pruning, moving the second child of
`locNode` from location 1 (prior 1/2) to location 2 (prior 1/32) changes the
published `weightSum` from 12 to 10, the children's stats and edge visits being
the same. -/
theorem recomputeNodeStats_depends_on_isRoot_and_moveLoc :
    (recomputeNodeStats (externalsOf Real.exp Real.sqrt (fun x y => x ^ y)) rootNoiseParams
      (heavyNode (K := ℝ)) 1 true).winLossValueAvg = 12192 / 18335 ∧
    (recomputeNodeStats (externalsOf Real.exp Real.sqrt (fun x y => x ^ y)) rootNoiseParams
      (heavyNode (K := ℝ)) 1 false).winLossValueAvg = 128 / 193 ∧
    (recomputeNodeStats (externalsOf Real.exp Real.sqrt (fun x y => x ^ y)) pruningParams
      (locNode (K := ℝ) 1) 1 false).weightSum = 12 ∧
    (recomputeNodeStats (externalsOf Real.exp Real.sqrt (fun x y => x ^ y)) pruningParams
      (locNode (K := ℝ) 2) 1 false).weightSum = 10 ∧
    (locNode (K := ℝ) 1).children.map (fun c => (c.ifAllocated, c.edgeVisits))
      = (locNode (K := ℝ) 2).children.map (fun c => (c.ifAllocated, c.edgeVisits)) := by
  obtain ⟨h1, h2⟩ := heavyNode_root_run Real.exp Real.sqrt (fun x y : ℝ => x ^ y)
  obtain ⟨h3, h4⟩ := locNode_run Real.exp Real.sqrt (fun x y : ℝ => x ^ y) real_exp_neg_one_lt
  exact ⟨h1, h2, h3, h4, rfl⟩

section
variable {K : Type} [LinearOrderedField K]

/-- C12, amended: `recomputeNodeStats` adds exactly `numVisitsToAdd` to the
node's visits, and the other published fields are a function of the children
array (stats, edge visits and move locations), the node's NN output, `nextPla`,
`isRoot` and the search parameters only: they depend neither on the node's
previous stats, nor on its `dirtyCounter`, nor on `numVisitsToAdd`, so a second
call with unchanged children publishes the same values. -/
theorem recomputeNodeStats_frame (E : Externals K) (P : SearchParams K)
    (node : SearchNode K) (numVisitsToAdd : Int) (isRoot : Bool) :
    (recomputeNodeStats E P node numVisitsToAdd isRoot).visits
      = node.stats.visits + numVisitsToAdd ∧
    (∀ (stats' : NodeStats K) (dirtyCounter' : Int) (numVisitsToAdd' : Int),
      (recomputeNodeStats E P { node with stats := stats', dirtyCounter := dirtyCounter' }
        numVisitsToAdd' isRoot).sameAggregates
        (recomputeNodeStats E P node numVisitsToAdd isRoot)) ∧
    (∀ (numVisitsToAdd' : Int),
      (recomputeNodeStats E P
        { node with stats := recomputeNodeStats E P node numVisitsToAdd isRoot }
        numVisitsToAdd' isRoot).sameAggregates
        (recomputeNodeStats E P node numVisitsToAdd isRoot) ∧
      (recomputeNodeStats E P
        { node with stats := recomputeNodeStats E P node numVisitsToAdd isRoot }
        numVisitsToAdd' isRoot).visits
        = node.stats.visits + numVisitsToAdd + numVisitsToAdd') := by
  refine ⟨rfl, ?_, ?_⟩
  · intro stats' dirtyCounter' numVisitsToAdd'
    exact ⟨rfl, rfl, rfl, rfl, rfl, rfl⟩
  · intro numVisitsToAdd'
    exact ⟨⟨rfl, rfl, rfl, rfl, rfl, rfl⟩, rfl⟩

end

section
variable {K : Type} [LinearOrderedField K]

/-! ### pruneNoiseWeight and downweightBadChildrenAndNormalizeWeight on a prefix -/

theorem pruneNoiseLoop_length (E : Externals K) (P : SearchParams K) (pol : Nat → K) :
    ∀ (l : List (MoreNodeStats K)) (i : Nat) (u w r : K),
      (pruneNoiseLoop E P pol i l u w r).1.length = l.length
  | [], i, u, w, r => rfl
  | s :: l, i, u, w, r => by
    simp only [pruneNoiseLoop, List.length_cons, pruneNoiseLoop_length E P pol l]

/-- The first `m` entries of a buffer whose first `m` entries were replaced. -/
theorem take_processed_append_drop {α : Type} (l processed : List α) (m : Nat)
    (h : processed.length = (l.take m).length) : (processed ++ l.drop m).take m = processed := by
  rw [List.length_take] at h
  rcases Nat.le_total m l.length with hm | hm
  · rw [Nat.min_eq_left hm] at h
    rw [List.take_append_of_le_length (by omega), List.take_of_length_le (by omega)]
  · rw [Nat.min_eq_right hm] at h
    rw [List.drop_of_length_le hm, List.append_nil, List.take_of_length_le (by omega)]

/-- C15: if `totalChildWeight` is the sum of `weightAdjusted` over the first
`numChildren` entries, the value returned by `pruneNoiseWeight` is the sum of
`weightAdjusted` over those entries after the call, on the early-return path as
on the pruning path. -/
theorem pruneNoiseWeight_returns_sum (E : Externals K) (P : SearchParams K)
    (statsBuf : List (MoreNodeStats K)) (numChildren : Int) (totalChildWeight : K)
    (policyProbsBuf : Nat → K)
    (hsum : totalChildWeight = totalWeightAdjusted (statsBuf.take numChildren.toNat)) :
    (pruneNoiseWeight E P statsBuf numChildren totalChildWeight policyProbsBuf).2
      = totalWeightAdjusted
          ((pruneNoiseWeight E P statsBuf numChildren totalChildWeight policyProbsBuf).1.take
            numChildren.toNat) := by
  unfold pruneNoiseWeight
  dsimp only
  split_ifs with h
  · exact hsum
  · rw [take_processed_append_drop _ _ _ (pruneNoiseLoop_length E P _ _ _ _ _ _),
      pruneNoiseLoop_total, zero_add]

/-- Instance of C15 on the buffer of `pruningNode` with the stand-in `exp`: the
weights 1 and 10 become 1 and 8 and the call returns 9. -/
theorem pruneNoiseWeight_returns_sum_witness :
    (11 : ℚ) = totalWeightAdjusted
      ((collectChildren sampleExternals Player.white (pruningNode (K := ℚ)).children).take 2) ∧
    (pruneNoiseWeight sampleExternals pruningParams
      (collectChildren sampleExternals Player.white (pruningNode (K := ℚ)).children) 2 11
      (fun _ => 1 / 2)).2 = 9 := by
  have h2 : (2 : Int).toNat = 2 := rfl
  have hsum : (11 : ℚ) = totalWeightAdjusted
      ((collectChildren sampleExternals Player.white (pruningNode (K := ℚ)).children).take
        (2 : Int).toNat) := by
    norm_num [h2, collectChildren, totalWeightAdjusted, pruningNode, sampleExternals,
      specChildWeight]
  have h := pruneNoiseWeight_returns_sum sampleExternals pruningParams
    (collectChildren sampleExternals Player.white (pruningNode (K := ℚ)).children) 2 11
    (fun _ => 1 / 2) hsum
  refine ⟨hsum, ?_⟩
  rw [h]
  norm_num [h2, pruneNoiseWeight, pruneNoiseLoop, pruneNoiseNewWeight, collectChildren,
    totalWeightAdjusted, pruningParams, pruningNode, sampleExternals, specChildWeight]

end

section
variable {K : Type} [LinearOrderedField K]

/-! ### pruneNoiseWeight, child by child -/

theorem pruneNoiseNewWeight_eq_spec (E : Externals K) (P : SearchParams K)
    (U S Pol utility w policy : K) :
    pruneNoiseNewWeight E P U S Pol utility w policy
      = specPrunedWeight E P U S Pol utility w policy := by
  unfold pruneNoiseNewWeight specPrunedWeight
  dsimp only
  have hshare : 2 * (S * policy / Pol) = 2 * S * policy / Pol := by ring
  rw [hshare]
  by_cases h1 : S > 0 ∧ Pol > 0
  · rw [if_pos h1]
    by_cases h2 : U / S - utility > 0
    · rw [if_pos h2]
      by_cases h3 : w > 2 * S * policy / Pol
      · have hc : S > 0 ∧ Pol > 0 ∧ U / S - utility > 0 ∧ w > 2 * S * policy / Pol :=
          ⟨h1.1, h1.2, h2, h3⟩
        rw [if_pos h3, if_pos hc]
        split_ifs with h4
        · rw [min_eq_left h4.le]
        · rw [min_eq_right (not_lt.1 h4)]
      · have hc : ¬ (S > 0 ∧ Pol > 0 ∧ U / S - utility > 0 ∧ w > 2 * S * policy / Pol) :=
          fun hc => h3 hc.2.2.2
        rw [if_neg h3, if_neg hc]
    · have hc : ¬ (S > 0 ∧ Pol > 0 ∧ U / S - utility > 0 ∧ w > 2 * S * policy / Pol) :=
        fun hc => h2 hc.2.2.1
      rw [if_neg h2, if_neg hc]
  · have hc : ¬ (S > 0 ∧ Pol > 0 ∧ U / S - utility > 0 ∧ w > 2 * S * policy / Pol) :=
      fun hc => h1 ⟨hc.1, hc.2.1⟩
    rw [if_neg h1, if_neg hc]

theorem runningPolicy_succ (pol : Nat → K) (k i : Nat) :
    runningPolicy pol k (i + 1) = pol k + runningPolicy pol (k + 1) i := by
  unfold runningPolicy
  rw [List.range_succ_eq_map, List.map_cons, List.sum_cons, List.map_map]
  congr 2
  · apply List.map_congr_left
    intro j _
    show pol (k + (j + 1)) = pol (k + 1 + j)
    congr 1
    omega

theorem pruneNoiseLoop_get (E : Externals K) (P : SearchParams K) (pol : Nat → K) :
    ∀ (l : List (MoreNodeStats K)) (k : Nat) (u w r : K) (i : Nat) (s : MoreNodeStats K),
      l.get? i = some s →
      (pruneNoiseLoop E P pol k l u w r).1.get? i
        = some { s with weightAdjusted :=
            (pruneNoiseNewWeight E P
              (u + runningUtility (pruneNoiseLoop E P pol k l u w r).1 i)
              (w + runningWeight (pruneNoiseLoop E P pol k l u w r).1 i)
              (r + runningPolicy pol k i)
              s.selfUtility s.weightAdjusted (pol (k + i))) }
  | [], k, u, w, r, i, s, h => by simp at h
  | s0 :: l, k, u, w, r, 0, s, h => by
    simp only [List.get?_cons_zero, Option.some.injEq] at h
    subst h
    simp [pruneNoiseLoop, runningUtility, runningWeight, runningPolicy, totalWeightAdjusted]
  | s0 :: l, k, u, w, r, i + 1, s, h => by
    simp only [List.get?_cons_succ] at h
    have ih := pruneNoiseLoop_get E P pol l (k + 1)
      (u + s0.selfUtility * pruneNoiseNewWeight E P u w r s0.selfUtility s0.weightAdjusted (pol k))
      (w + pruneNoiseNewWeight E P u w r s0.selfUtility s0.weightAdjusted (pol k))
      (r + pol k) i s h
    simp only [pruneNoiseLoop, List.get?_cons_succ]
    rw [ih]
    have hu : ∀ (x : MoreNodeStats K) (out : List (MoreNodeStats K)),
        runningUtility (x :: out) (i + 1)
          = x.selfUtility * x.weightAdjusted + runningUtility out i := by
      intro x out
      simp [runningUtility]
    have hw : ∀ (x : MoreNodeStats K) (out : List (MoreNodeStats K)),
        runningWeight (x :: out) (i + 1) = x.weightAdjusted + runningWeight out i := by
      intro x out
      simp [runningWeight, totalWeightAdjusted]
    rw [hu, hw, runningPolicy_succ]
    have hk : k + 1 + i = k + (i + 1) := by omega
    rw [hk]
    simp only [add_assoc]

theorem specPrunedWeight_lt (E : Externals K) (P : SearchParams K) (U S Pol utility w policy : K)
    (hcond : S > 0 ∧ Pol > 0 ∧ U / S - utility > 0 ∧ w > 2 * S * policy / Pol)
    (hcap : 0 < P.noisePruningCap) (hscale : 0 < P.noisePruneUtilityScale)
    (hexp : ∀ x, x < 0 → E.exp x < 1) :
    specPrunedWeight E P U S Pol utility w policy < w := by
  unfold specPrunedWeight
  rw [if_pos hcond]
  have hneg : -(U / S - utility) / P.noisePruneUtilityScale < 0 :=
    div_neg_of_neg_of_pos (neg_neg_of_pos hcond.2.2.1) hscale
  have h1 : 0 < 1 - E.exp (-(U / S - utility) / P.noisePruneUtilityScale) := by
    have := hexp _ hneg
    linarith
  have h2 : 0 < w - 2 * S * policy / Pol := by linarith [hcond.2.2.2]
  have h3 := lt_min hcap (mul_pos h2 h1)
  linarith

/-- C13: for `numChildren > 1` and `totalChildWeight > 0.00001`,
`pruneNoiseWeight` walks the first `numChildren` entries in index order; with
`U`, `S`, `P` the running sums of utility times updated weight, of updated
weight and of policy over the entries before `i`, the weight of entry `i` is
rewritten exactly when `S > 0`, `P > 0`, `gap = U/S - utility_i > 0` and
`w_i > 2*S*policy_i/P`, and the value written is
`w_i - min(noisePruningCap, (w_i - 2*S*policy_i/P) * (1 - exp(-gap / noisePruneUtilityScale)))`
(`specPrunedWeight`); every other weight, the first entry's included, every
other field and every entry from `numChildren` on are unchanged.  The value
written is smaller than `w_i` when `noisePruningCap > 0`,
`noisePruneUtilityScale > 0` and `exp` is below 1 on negative arguments. -/
theorem pruneNoiseWeight_child_by_child (E : Externals K) (P : SearchParams K)
    (statsBuf : List (MoreNodeStats K)) (numChildren : Int) (totalChildWeight : K)
    (policyProbsBuf : Nat → K)
    (hn : 1 < numChildren) (htot : 1 / 100000 < totalChildWeight) :
    (pruneNoiseWeight E P statsBuf numChildren totalChildWeight policyProbsBuf).1.length
      = statsBuf.length ∧
    (∀ (i : Nat) (s : MoreNodeStats K), statsBuf.get? i = some s → i < numChildren.toNat →
      (pruneNoiseWeight E P statsBuf numChildren totalChildWeight policyProbsBuf).1.get? i
        = some { s with weightAdjusted :=
            (specPrunedWeight E P
              (runningUtility
                (pruneNoiseWeight E P statsBuf numChildren totalChildWeight policyProbsBuf).1 i)
              (runningWeight
                (pruneNoiseWeight E P statsBuf numChildren totalChildWeight policyProbsBuf).1 i)
              (runningPolicy policyProbsBuf 0 i)
              s.selfUtility s.weightAdjusted (policyProbsBuf i)) }) ∧
    (∀ (i : Nat), numChildren.toNat ≤ i →
      (pruneNoiseWeight E P statsBuf numChildren totalChildWeight policyProbsBuf).1.get? i
        = statsBuf.get? i) ∧
    (∀ (s : MoreNodeStats K), statsBuf.get? 0 = some s →
      (pruneNoiseWeight E P statsBuf numChildren totalChildWeight policyProbsBuf).1.get? 0
        = some s) ∧
    (∀ (U S Pol utility w policy : K),
      (S > 0 ∧ Pol > 0 ∧ U / S - utility > 0 ∧ w > 2 * S * policy / Pol →
        specPrunedWeight E P U S Pol utility w policy
          = w - min P.noisePruningCap ((w - 2 * S * policy / Pol)
              * (1 - E.exp (-(U / S - utility) / P.noisePruneUtilityScale))) ∧
        (0 < P.noisePruningCap → 0 < P.noisePruneUtilityScale →
          (∀ x, x < 0 → E.exp x < 1) → specPrunedWeight E P U S Pol utility w policy < w)) ∧
      (¬ (S > 0 ∧ Pol > 0 ∧ U / S - utility > 0 ∧ w > 2 * S * policy / Pol) →
        specPrunedWeight E P U S Pol utility w policy = w)) := by
  have hout : (pruneNoiseWeight E P statsBuf numChildren totalChildWeight policyProbsBuf).1
      = (pruneNoiseLoop E P policyProbsBuf 0 (statsBuf.take numChildren.toNat) 0 0 0).1
        ++ statsBuf.drop numChildren.toNat := by
    unfold pruneNoiseWeight
    dsimp only
    rw [if_neg (by push_neg; exact ⟨hn, htot⟩)]
  have hlen := pruneNoiseLoop_length E P policyProbsBuf (statsBuf.take numChildren.toNat) 0 0 0 0
  have hmain : ∀ (i : Nat) (s : MoreNodeStats K), statsBuf.get? i = some s →
      i < numChildren.toNat →
      (pruneNoiseWeight E P statsBuf numChildren totalChildWeight policyProbsBuf).1.get? i
        = some { s with weightAdjusted :=
            (specPrunedWeight E P
              (runningUtility
                (pruneNoiseWeight E P statsBuf numChildren totalChildWeight policyProbsBuf).1 i)
              (runningWeight
                (pruneNoiseWeight E P statsBuf numChildren totalChildWeight policyProbsBuf).1 i)
              (runningPolicy policyProbsBuf 0 i)
              s.selfUtility s.weightAdjusted (policyProbsBuf i)) } := by
    intro i s hs hi
    have hil : i < statsBuf.length := by
      rw [List.get?_eq_getElem?] at hs
      exact (List.getElem?_eq_some_iff.1 hs).1
    have hiq : i < (pruneNoiseLoop E P policyProbsBuf 0
        (statsBuf.take numChildren.toNat) 0 0 0).1.length := by
      rw [hlen, List.length_take]; omega
    have hget := pruneNoiseLoop_get E P policyProbsBuf (statsBuf.take numChildren.toNat)
      0 0 0 0 i s (by rw [List.get?_eq_getElem?, List.getElem?_take_of_lt hi, ← List.get?_eq_getElem?]; exact hs)
    have hu : runningUtility
        (pruneNoiseWeight E P statsBuf numChildren totalChildWeight policyProbsBuf).1 i
        = runningUtility (pruneNoiseLoop E P policyProbsBuf 0
            (statsBuf.take numChildren.toNat) 0 0 0).1 i := by
      unfold runningUtility
      rw [hout, List.take_append_of_le_length hiq.le]
    have hw : runningWeight
        (pruneNoiseWeight E P statsBuf numChildren totalChildWeight policyProbsBuf).1 i
        = runningWeight (pruneNoiseLoop E P policyProbsBuf 0
            (statsBuf.take numChildren.toNat) 0 0 0).1 i := by
      unfold runningWeight
      rw [hout, List.take_append_of_le_length hiq.le]
    rw [hu, hw, ← pruneNoiseNewWeight_eq_spec]
    rw [hout, List.get?_eq_getElem?, List.getElem?_append_left hiq, ← List.get?_eq_getElem?,
      hget]
    simp only [zero_add]
  refine ⟨?_, hmain, ?_, ?_, ?_⟩
  · rw [hout, List.length_append, hlen, ← List.length_append, List.take_append_drop]
  · intro i hi
    have hq : (pruneNoiseLoop E P policyProbsBuf 0
        (statsBuf.take numChildren.toNat) 0 0 0).1.length ≤ i := by
      rw [hlen, List.length_take]; omega
    rw [hout, List.get?_eq_getElem?, List.get?_eq_getElem?, List.getElem?_append_right hq,
      List.getElem?_drop, hlen, List.length_take]
    rcases Nat.le_total numChildren.toNat statsBuf.length with hm | hm
    · rw [Nat.min_eq_left hm]
      congr 1
      omega
    · rw [Nat.min_eq_right hm, List.getElem?_eq_none (by omega), List.getElem?_eq_none (by omega)]
  · intro s hs
    have h0 : 0 < numChildren.toNat := by omega
    rw [hmain 0 s hs h0]
    have hzero : runningWeight
        (pruneNoiseWeight E P statsBuf numChildren totalChildWeight policyProbsBuf).1 0 = 0 := by
      simp [runningWeight, totalWeightAdjusted]
    unfold specPrunedWeight
    rw [hzero, if_neg (fun hc => lt_irrefl _ hc.1)]
  · intro U S Pol utility w policy
    refine ⟨fun hc => ⟨?_, fun hcap hscale hexp =>
      specPrunedWeight_lt E P U S Pol utility w policy hc hcap hscale hexp⟩, fun hc => ?_⟩
    · unfold specPrunedWeight
      rw [if_pos hc]
    · unfold specPrunedWeight
      rw [if_neg hc]

/-- Instance of C13 on the two-entry buffer of `pruningNode` with the stand-in
`exp`: the second entry, of weight 10 and utility 0 after an entry of weight 1,
utility 1 and equal policy, is rewritten to `10 - min(2, 8 * (1 - 1/2)) = 8`. -/
theorem pruneNoiseWeight_child_by_child_witness :
    (1 : Int) < 2 ∧ (1 / 100000 : ℚ) < 11 ∧
    ((pruneNoiseWeight sampleExternals pruningParams
      [⟨⟨1, 1, 0, 1, 1, 1, 1⟩, 1, 1, 0⟩, ⟨⟨10, 0, 0, 0, 0, 10, 100⟩, 0, 10, 1⟩] 2 11
      (fun _ => 1 / 2)).1.get? 1).map (fun s => s.weightAdjusted) = some 8 := by
  have h := (pruneNoiseWeight_child_by_child sampleExternals pruningParams
    [⟨⟨1, 1, 0, 1, 1, 1, 1⟩, 1, 1, 0⟩, ⟨⟨10, 0, 0, 0, 0, 10, 100⟩, 0, 10, 1⟩] 2 11
    (fun _ => 1 / 2) (by norm_num) (by norm_num)).2.1 1 ⟨⟨10, 0, 0, 0, 0, 10, 100⟩, 0, 10, 1⟩
    rfl (by decide)
  refine ⟨by norm_num, by norm_num, ?_⟩
  rw [h]
  have h2 : (2 : Int).toNat = 2 := rfl
  norm_num [h2, specPrunedWeight, runningUtility, runningWeight, runningPolicy,
    pruneNoiseWeight, pruneNoiseLoop, pruneNoiseNewWeight, totalWeightAdjusted,
    pruningParams, sampleExternals]

end

section
variable {K : Type} [LinearOrderedField K]

end

section
variable {K : Type} [LinearOrderedField K]

end

section
variable {K Board Hist Rules Bot : Type} [LinearOrderedField K]

theorem kataSetParamHandler_unknown_name (X : GTPExternals K Board Hist Rules Bot)
    (engine : GTPEngine K Board Rules Bot) (name value : String) (h : name ∉ setParamNames) :
    kataSetParamHandler X engine [name, value]
      = ⟨⟨true, "Unknown or invalid parameter: " ++ name⟩, engine⟩ := by
  simp only [setParamNames, List.mem_cons, List.mem_singleton, List.not_mem_nil, or_false,
    not_or] at h
  simp [kataSetParamHandler, h]

theorem kataSetParamHandler_rejected_value (X : GTPExternals K Board Hist Rules Bot)
    (engine : GTPEngine K Board Rules Bot) (name value : String)
    (h : ¬ acceptedParamValue X name value) :
    (kataSetParamHandler X engine [name, value]).response.responseIsError = true ∧
    (kataSetParamHandler X engine [name, value]).engine = engine := by
  unfold acceptedParamValue at h
  simp only [not_or, not_and, not_exists] at h
  obtain ⟨h1, h2, h3, h4, h5, h6, h7⟩ := h
  unfold kataSetParamHandler
  dsimp only
  split_ifs with n1 n2 n3 n4 n5 n6 n7
  · cases hp : X.tryStringToDouble value with
    | none => exact ⟨rfl, rfl⟩
    | some d =>
      dsimp only
      rw [if_neg (fun hc => h1 n1 d hp hc.1 hc.2)]
      exact ⟨rfl, rfl⟩
  · cases hp : X.tryStringToDouble value with
    | none => exact ⟨rfl, rfl⟩
    | some d =>
      dsimp only
      rw [if_neg (fun hc => h2 n2 d hp hc.1 hc.2)]
      exact ⟨rfl, rfl⟩
  · cases hp : X.tryStringToDouble value with
    | none => exact ⟨rfl, rfl⟩
    | some d =>
      dsimp only
      rw [if_neg (fun hc => h3 n3 d hp hc.1 hc.2)]
      exact ⟨rfl, rfl⟩
  · cases hp : X.tryStringToInt value with
    | none => exact ⟨rfl, rfl⟩
    | some d =>
      dsimp only
      rw [if_neg (fun hc => h4 n4 d hp hc.1 hc.2)]
      exact ⟨rfl, rfl⟩
  · cases hp : X.tryStringToInt64 value with
    | none => exact ⟨rfl, rfl⟩
    | some d =>
      dsimp only
      rw [if_neg (fun hc => h5 n5 d hp hc.1 hc.2)]
      exact ⟨rfl, rfl⟩
  · cases hp : X.tryStringToInt64 value with
    | none => exact ⟨rfl, rfl⟩
    | some d =>
      dsimp only
      rw [if_neg (fun hc => h6 n6 d hp hc.1 hc.2)]
      exact ⟨rfl, rfl⟩
  · cases hp : X.tryStringToDouble value with
    | none => exact ⟨rfl, rfl⟩
    | some d =>
      dsimp only
      rw [if_neg (fun hc => h7 n7 d hp hc.1 hc.2)]
      exact ⟨rfl, rfl⟩
  · exact ⟨rfl, rfl⟩

/-- C16: a `kata-set-param` command with two arguments whose parameter name is
not one of the seven names, or whose value fails to parse or lies outside the
range accepted for that parameter, is dispatched to the `kata-set-param`
handler, which answers with an error and leaves the engine (its parameters and
its bot) as it was: no setter is called. -/
theorem kataSetParamHandler_rejects (X : GTPExternals K Board Hist Rules Bot)
    (engine : GTPEngine K Board Rules Bot) (name value : String)
    (h : name ∉ setParamNames ∨ ¬ acceptedParamValue X name value) :
    dispatch "kata-set-param" = some GTPHandler.kataSetParam ∧
    (kataSetParamHandler X engine [name, value]).response.responseIsError = true ∧
    (kataSetParamHandler X engine [name, value]).engine = engine := by
  refine ⟨by decide, ?_⟩
  rcases h with h | h
  · rw [kataSetParamHandler_unknown_name X engine name value h]
    exact ⟨rfl, rfl⟩
  · exact kataSetParamHandler_rejected_value X engine name value h

end

/-- Instance of C16 with the sample parser and engine: `maxVisits 0` parses but
lies below the accepted range, and `komi 7` names no settable parameter. -/
theorem kataSetParamHandler_rejects_witness :
    ("maxVisits" ∈ setParamNames ∧ ¬ acceptedParamValue sampleGTP "maxVisits" "0") ∧
    (kataSetParamHandler sampleGTP sampleEngine ["maxVisits", "0"]).response.responseIsError
      = true ∧
    (kataSetParamHandler sampleGTP sampleEngine ["maxVisits", "0"]).engine = sampleEngine ∧
    (kataSetParamHandler sampleGTP sampleEngine ["komi", "7"]).engine = sampleEngine := by
  have hacc : ¬ acceptedParamValue sampleGTP "maxVisits" "0" := by
    simp [acceptedParamValue, sampleGTP, List.lookup]
  have h := kataSetParamHandler_rejects sampleGTP sampleEngine "maxVisits" "0" (Or.inr hacc)
  have h2 := kataSetParamHandler_rejects sampleGTP sampleEngine "komi" "7"
    (Or.inl (by decide))
  exact ⟨⟨by decide, hacc⟩, h.2.1, h.2.2, h2.2.2⟩

section
variable {K Board Hist Rules Bot : Type}

/-! ### setPosition, play and undo -/

theorem GTPEngine.play_fields (X : GTPExternals K Board Hist Rules Bot)
    (engine : GTPEngine K Board Rules Bot) (loc : Nat) (pla : Player) :
    (engine.play X loc pla).1 = (X.makeMove engine.bot loc pla).1 ∧
    (engine.play X loc pla).2.bot = (X.makeMove engine.bot loc pla).2 ∧
    (engine.play X loc pla).2.initialBoard = engine.initialBoard ∧
    (engine.play X loc pla).2.initialPla = engine.initialPla ∧
    (engine.play X loc pla).2.currentRules = engine.currentRules ∧
    (engine.play X loc pla).2.moveHistory
      = if (X.makeMove engine.bot loc pla).1 then engine.moveHistory ++ [⟨loc, pla⟩]
        else engine.moveHistory := by
  unfold GTPEngine.play
  dsimp only
  cases (X.makeMove engine.bot loc pla).1 <;> simp

/-- C17: a stone list that `Board::setStones` rejects makes
`GTPEngine::setPosition` return false and leave the engine as it was
(`initialBoard`, `initialPla`, `moveHistory`, `recentWinLossValues`,
`currentRules` and the bot included); a move for which `AsyncBot::makeMove`
returns false makes `GTPEngine::play` return false with `moveHistory` unchanged;
and when `makeMove` returns true, `play` returns true and appends exactly
`Move(loc, pla)` to `moveHistory`. -/
theorem GTPEngine.rejected_requests (X : GTPExternals K Board Hist Rules Bot)
    (engine : GTPEngine K Board Rules Bot) :
    (∀ initialStones : List Move,
      (X.setStones (X.newBoard (X.xSize (X.getRootBoard engine.bot))
        (X.ySize (X.getRootBoard engine.bot))) initialStones).1 = false →
      engine.setPosition X initialStones = (false, engine)) ∧
    (∀ (loc : Nat) (pla : Player), (X.makeMove engine.bot loc pla).1 = false →
      (engine.play X loc pla).1 = false ∧
      (engine.play X loc pla).2.moveHistory = engine.moveHistory) ∧
    (∀ (loc : Nat) (pla : Player), (X.makeMove engine.bot loc pla).1 = true →
      (engine.play X loc pla).1 = true ∧
      (engine.play X loc pla).2.moveHistory = engine.moveHistory ++ [⟨loc, pla⟩]) := by
  refine ⟨?_, ?_, ?_⟩
  · intro initialStones h
    unfold GTPEngine.setPosition
    dsimp only
    rw [h]
    rfl
  · intro loc pla h
    obtain ⟨h1, _, _, _, _, h6⟩ := GTPEngine.play_fields X engine loc pla
    rw [h1, h6, h]
    exact ⟨rfl, rfl⟩
  · intro loc pla h
    obtain ⟨h1, _, _, _, _, h6⟩ := GTPEngine.play_fields X engine loc pla
    rw [h1, h6, h]
    exact ⟨rfl, rfl⟩

/-- Instance of C17 on `sampleEngine`: two stones on one point are rejected, a
move on the occupied point 3 is rejected, a move on the free point 7 is
appended. -/
theorem GTPEngine.rejected_requests_witness :
    (sampleEngine.setPosition sampleGTP [⟨1, Player.black⟩, ⟨1, Player.white⟩]).1 = false ∧
    (sampleEngine.setPosition sampleGTP [⟨1, Player.black⟩, ⟨1, Player.white⟩]).2.moveHistory
      = [⟨3, Player.black⟩, ⟨4, Player.white⟩] ∧
    (sampleEngine.play sampleGTP 3 Player.black).1 = false ∧
    (sampleEngine.play sampleGTP 7 Player.black).2.moveHistory
      = [⟨3, Player.black⟩, ⟨4, Player.white⟩, ⟨7, Player.black⟩] := by
  have h := GTPEngine.rejected_requests sampleGTP sampleEngine
  have h1 := h.1 [⟨1, Player.black⟩, ⟨1, Player.white⟩] (by decide)
  have h2 := h.2.1 3 Player.black (by decide)
  have h3 := h.2.2 7 Player.black (by decide)
  refine ⟨?_, ?_, h2.1, h3.2⟩
  · rw [h1]
  · rw [h1]; rfl

theorem GTPEngine.replay_fields (X : GTPExternals K Board Hist Rules Bot) :
    ∀ (moves : List Move) (engine : GTPEngine K Board Rules Bot),
      (GTPEngine.replay X engine moves).initialBoard = engine.initialBoard ∧
      (GTPEngine.replay X engine moves).initialPla = engine.initialPla ∧
      (GTPEngine.replay X engine moves).bot
        = moves.foldl (fun bot m => (X.makeMove bot m.loc m.pla).2) engine.bot ∧
      (GTPEngine.replaySucceeds X engine moves = true →
        (GTPEngine.replay X engine moves).moveHistory = engine.moveHistory ++ moves)
  | [], engine => by simp [GTPEngine.replay]
  | m :: moves, engine => by
    obtain ⟨h1, h2, h3, h4⟩ := GTPEngine.replay_fields X moves (engine.play X m.loc m.pla).2
    obtain ⟨p1, p2, p3, p4, _, p6⟩ := GTPEngine.play_fields X engine m.loc m.pla
    simp only [GTPEngine.replay, List.foldl_cons]
    refine ⟨by rw [h1, p3], by rw [h2, p4], by rw [h3, p2], ?_⟩
    intro hs
    simp only [GTPEngine.replaySucceeds, Bool.and_eq_true] at hs
    rw [h4 hs.2, p6]
    rw [p1] at hs
    rw [hs.1]
    simp

/-- C18: if `play(m)` succeeds and the replay of the earlier moves from the
initial position succeeds again, then `undo()` after `play(m)` returns true and
restores `moveHistory`, `initialBoard` and `initialPla` to their values before
`play(m)`, and the bot is the one reached by `setPosition` on the initial board
followed by `makeMove` for each move of that history; `undo()` on an empty
`moveHistory` returns false and changes nothing. -/
theorem GTPEngine.play_undo (X : GTPExternals K Board Hist Rules Bot)
    (engine : GTPEngine K Board Rules Bot) (loc : Nat) (pla : Player)
    (hplay : (engine.play X loc pla).1 = true)
    (hreplay : GTPEngine.replaySucceeds X ((engine.play X loc pla).2.undoneEngine X)
      engine.moveHistory = true) :
    ((engine.play X loc pla).2.undo X).1 = true ∧
    ((engine.play X loc pla).2.undo X).2.moveHistory = engine.moveHistory ∧
    ((engine.play X loc pla).2.undo X).2.initialBoard = engine.initialBoard ∧
    ((engine.play X loc pla).2.undo X).2.initialPla = engine.initialPla ∧
    ((engine.play X loc pla).2.undo X).2.bot
      = engine.moveHistory.foldl (fun bot m => (X.makeMove bot m.loc m.pla).2)
          (X.botSetPosition (X.makeMove engine.bot loc pla).2 engine.initialPla
            (X.setKomi engine.initialBoard
              (X.komi (X.getRootBoard (X.makeMove engine.bot loc pla).2)))
            (X.setInitialTurnNumber
              (X.newHist
                (X.setKomi engine.initialBoard
                  (X.komi (X.getRootBoard (X.makeMove engine.bot loc pla).2)))
                engine.initialPla engine.currentRules)
              (X.initialTurnNumber (X.getRootHist (X.makeMove engine.bot loc pla).2)))) ∧
    (∀ idle : GTPEngine K Board Rules Bot, idle.moveHistory = [] →
      idle.undo X = (false, idle)) := by
  obtain ⟨p1, p2, p3, p4, p5, p6⟩ := GTPEngine.play_fields X engine loc pla
  rw [p1] at hplay
  rw [hplay, if_pos rfl] at p6
  have hundo : (engine.play X loc pla).2.undo X
      = (true, GTPEngine.replay X ((engine.play X loc pla).2.undoneEngine X)
          engine.moveHistory) := by
    unfold GTPEngine.undo
    dsimp only
    rw [p6, if_neg (by simp)]
    simp
  obtain ⟨r1, r2, r3, r4⟩ := GTPEngine.replay_fields X engine.moveHistory
    ((engine.play X loc pla).2.undoneEngine X)
  have hu : ((engine.play X loc pla).2.undoneEngine X).moveHistory = [] := rfl
  have hb : ((engine.play X loc pla).2.undoneEngine X).initialBoard
      = (engine.play X loc pla).2.initialBoard := rfl
  have hp : ((engine.play X loc pla).2.undoneEngine X).initialPla
      = (engine.play X loc pla).2.initialPla := rfl
  refine ⟨by rw [hundo], ?_, ?_, ?_, ?_, ?_⟩
  · rw [hundo]
    show (GTPEngine.replay X _ engine.moveHistory).moveHistory = engine.moveHistory
    rw [r4 hreplay, hu, List.nil_append]
  · rw [hundo]
    show (GTPEngine.replay X _ engine.moveHistory).initialBoard = engine.initialBoard
    rw [r1, hb, p3]
  · rw [hundo]
    show (GTPEngine.replay X _ engine.moveHistory).initialPla = engine.initialPla
    rw [r2, hp, p4]
  · rw [hundo]
    show (GTPEngine.replay X _ engine.moveHistory).bot = _
    rw [r3]
    have hbot : ((engine.play X loc pla).2.undoneEngine X).bot
        = X.botSetPosition (engine.play X loc pla).2.bot (engine.play X loc pla).2.initialPla
            (X.setKomi (engine.play X loc pla).2.initialBoard
              (X.komi (X.getRootBoard (engine.play X loc pla).2.bot)))
            (X.setInitialTurnNumber
              (X.newHist
                (X.setKomi (engine.play X loc pla).2.initialBoard
                  (X.komi (X.getRootBoard (engine.play X loc pla).2.bot)))
                (engine.play X loc pla).2.initialPla (engine.play X loc pla).2.currentRules)
              (X.initialTurnNumber (X.getRootHist (engine.play X loc pla).2.bot))) := rfl
    rw [hbot, p2, p3, p4, p5]
  · intro idle hidle
    unfold GTPEngine.undo
    rw [hidle]
    simp

/-- Instance of C18 on `sampleEngine`: after black 7 is played and undone the
history is again black 3, white 4. -/
theorem GTPEngine.play_undo_witness :
    (sampleEngine.play sampleGTP 7 Player.black).1 = true ∧
    ((sampleEngine.play sampleGTP 7 Player.black).2.undo sampleGTP).2.moveHistory
      = [⟨3, Player.black⟩, ⟨4, Player.white⟩] := by
  have h := GTPEngine.play_undo sampleGTP sampleEngine 7 Player.black (by decide) (by decide)
  exact ⟨by decide, h.2.1⟩

end

/-! ### known_command and the dispatcher -/

/-- A command name outside `knownCommands` other than `analyze` and
`genmove_analyze` reaches the final `else` of the dispatcher. -/
theorem dispatch_eq_none (c : String)
    (h : c ∉ knownCommands ++ ["analyze", "genmove_analyze"]) : dispatch c = none := by
  simp only [knownCommands, List.cons_append, List.nil_append, List.mem_cons,
    List.mem_singleton, List.not_mem_nil, or_false, not_or] at h
  simp [dispatch, h]

/-- On the names of `knownCommands` and the two unlisted aliases, with the four
names without a branch set aside, the answer of `known_command` is `true`
exactly for the dispatched names other than the two aliases. -/
theorem knownCommand_on_names :
    ∀ c ∈ knownCommands ++ ["analyze", "genmove_analyze"],
      c ∉ ["fixed_handicap", "place_free_handicap", "set_free_handicap", "final_status_list"] →
      ((knownCommandHandler [c]).response = "true" ↔
        ((dispatch c).isSome = true ∧ c ≠ "analyze" ∧ c ≠ "genmove_analyze")) := by
  decide

/-- C19, as stated, fails in both directions: `analyze` is dispatched to a
handler although `known_command analyze` answers `false`, and
`known_command fixed_handicap` answers `true` although `fixed_handicap` falls
through to the final `else` of the dispatcher. -/
theorem knownCommand_not_dispatcher :
    knownCommandHandler ["analyze"] = ⟨false, "false"⟩ ∧
    dispatch "analyze" = some GTPHandler.analyze ∧
    "analyze" ∉ knownCommands ∧
    knownCommandHandler ["fixed_handicap"] = ⟨false, "true"⟩ ∧
    dispatch "fixed_handicap" = none ∧
    ¬ (∀ c : String, (knownCommandHandler [c]).response = "true" ↔ (dispatch c).isSome = true) := by
  refine ⟨by decide, by decide, by decide, by decide, by decide, fun h => ?_⟩
  exact absurd ((h "analyze").2 (by decide)) (by decide)

/-- C19, amended: for every command name `c` other than `fixed_handicap`,
`place_free_handicap`, `set_free_handicap` and `final_status_list`,
`known_command c` answers `true` exactly when the dispatcher handles `c` and
`c` is not one of the two unlisted aliases `analyze` and `genmove_analyze`;
`list_commands` prints the names of `knownCommands`, one per line. -/
theorem knownCommand_iff_dispatched (c : String)
    (hc : c ∉ ["fixed_handicap", "place_free_handicap", "set_free_handicap",
      "final_status_list"]) :
    ((knownCommandHandler [c]).response = "true" ↔
      ((dispatch c).isSome = true ∧ c ≠ "analyze" ∧ c ≠ "genmove_analyze")) ∧
    listCommandsHandler = ⟨false, String.intercalate "\n" knownCommands⟩ := by
  refine ⟨?_, ?_⟩
  · by_cases hm : c ∈ knownCommands ++ ["analyze", "genmove_analyze"]
    · exact knownCommand_on_names c hm hc
    · have hnone := dispatch_eq_none c hm
      have hk : c ∉ knownCommands := fun h => hm (List.mem_append_left _ h)
      constructor
      · intro h
        exfalso
        revert h
        simp [knownCommandHandler, hk]
      · intro h
        rw [hnone] at h
        exact absurd h.1 (by decide)
  · rfl

/-- Instance of the amended C19 at `kata-analyze`, which is listed and
dispatched. -/
theorem knownCommand_iff_dispatched_witness :
    (knownCommandHandler ["kata-analyze"]).response = "true" ∧
    (dispatch "kata-analyze").isSome = true := by
  have h := (knownCommand_iff_dispatched "kata-analyze" (by decide)).1
  exact ⟨h.2 ⟨by decide, by decide, by decide⟩, by decide⟩

/-! ### filterDoubleNewlines -/

theorem filterDoubleNewlinesLoop_chain :
    ∀ (l : List Char) (prev : Option Char),
      List.Chain' (fun a b => ¬ (a = '\n' ∧ b = '\n')) (filterDoubleNewlinesLoop prev l) ∧
      (prev = some '\n' → ∀ c ∈ (filterDoubleNewlinesLoop prev l).head?, c ≠ '\n')
  | [], prev => by simp [filterDoubleNewlinesLoop]
  | c :: rest, prev => by
    obtain ⟨ih1, ih2⟩ := filterDoubleNewlinesLoop_chain rest (some c)
    unfold filterDoubleNewlinesLoop
    by_cases h : prev = some '\n' ∧ c = '\n'
    · rw [if_pos h]
      refine ⟨ih1, fun _ => ih2 (by rw [h.2])⟩
    · rw [if_neg h]
      constructor
      · rw [List.chain'_cons']
        refine ⟨?_, ih1⟩
        intro y hy hcy
        exact ih2 (by rw [hcy.1]) y hy hcy.2
      · intro hp y hy
        simp only [List.head?_cons, Option.mem_def, Option.some.injEq] at hy
        subst hy
        intro hc
        exact h ⟨hp, hc⟩

/-- C20: the result of `filterDoubleNewlines` contains no two consecutive
newline characters, for every string. -/
theorem filterDoubleNewlines_no_double_newline (s : String) :
    ¬ (['\n', '\n'] <:+: (filterDoubleNewlines s).data) := by
  intro h
  have hc := List.Chain'.infix (filterDoubleNewlinesLoop_chain s.data none).1 h
  simp at hc

/-! ### parseAnalyzeCommand: avoid and allow -/

section
variable {K : Type}

/-- The avoid/allow branch fails on a key that conflicts with the flags of its
player. -/
theorem parseAvoidAllow_conflict (X : AnalyzeExternals K) (st : AnalyzeParse K)
    (key value movesStr untilDepthStr : String) (pla : Player)
    (hpla : X.tryParsePlayer value = some pla)
    (hc : (key = "allow" ∧ st.gotAvoidMoves pla = true)
      ∨ (key = "allow" ∧ st.gotAllowMoves pla = true)
      ∨ (key = "avoid" ∧ st.gotAllowMoves pla = true)) :
    (parseAvoidAllow X st key value movesStr untilDepthStr).parseFailed = true := by
  unfold parseAvoidAllow
  cases X.tryStringToInt untilDepthStr with
  | none => rfl
  | some untilDepth =>
    dsimp only
    split_ifs with h1
    · rfl
    · rw [hpla]
      dsimp only
      cases parseLocPieces X (X.split movesStr) [] with
      | none => rfl
      | some parsedLocs =>
        dsimp only
        rw [if_pos hc]

/-- When the avoid/allow branch does not fail, the player parsed and its flag
for the key is set; no flag is cleared. -/
theorem parseAvoidAllow_flags (X : AnalyzeExternals K) (st : AnalyzeParse K)
    (key value movesStr untilDepthStr : String)
    (hok : (parseAvoidAllow X st key value movesStr untilDepthStr).parseFailed = false) :
    ∃ pla, X.tryParsePlayer value = some pla ∧
      (key = "avoid" →
        (parseAvoidAllow X st key value movesStr untilDepthStr).gotAvoidMoves pla = true) ∧
      (key = "allow" →
        (parseAvoidAllow X st key value movesStr untilDepthStr).gotAllowMoves pla = true) ∧
      (∀ q, st.gotAvoidMoves q = true →
        (parseAvoidAllow X st key value movesStr untilDepthStr).gotAvoidMoves q = true) ∧
      (∀ q, st.gotAllowMoves q = true →
        (parseAvoidAllow X st key value movesStr untilDepthStr).gotAllowMoves q = true) := by
  unfold parseAvoidAllow at hok ⊢
  cases hu : X.tryStringToInt untilDepthStr with
  | none => rw [hu] at hok; exact absurd hok (by simp)
  | some untilDepth =>
    rw [hu] at hok
    dsimp only at hok ⊢
    by_cases h1 : untilDepth < 1
    · rw [if_pos h1] at hok; exact absurd hok (by simp)
    · rw [if_neg h1] at hok ⊢
      cases hp : X.tryParsePlayer value with
      | none => rw [hp] at hok; exact absurd hok (by simp)
      | some pla =>
        rw [hp] at hok
        dsimp only at hok ⊢
        cases hl : parseLocPieces X (X.split movesStr) [] with
        | none => rw [hl] at hok; exact absurd hok (by simp)
        | some parsedLocs =>
          rw [hl] at hok
          dsimp only at hok ⊢
          by_cases hc : (key = "allow" ∧ st.gotAvoidMoves pla = true)
              ∨ (key = "allow" ∧ st.gotAllowMoves pla = true)
              ∨ (key = "avoid" ∧ st.gotAllowMoves pla = true)
          · rw [if_pos hc] at hok; exact absurd hok (by simp)
          · rw [if_neg hc]
            refine ⟨pla, rfl, ?_, ?_, ?_, ?_⟩
            · intro hk
              cases pla <;> simp [AnalyzeParse.gotAvoidMoves, hk]
            · intro hk
              cases pla <;> simp [AnalyzeParse.gotAllowMoves, hk]
            · intro q hq
              cases pla <;> cases q <;> simp_all [AnalyzeParse.gotAvoidMoves]
            · intro q hq
              cases pla <;> cases q <;> simp_all [AnalyzeParse.gotAllowMoves]

theorem tryMinMoves_flags (X : AnalyzeExternals K) (st : AnalyzeParse K) (s : String) (q : Player) :
    (tryMinMoves X st s).2.gotAvoidMoves q = st.gotAvoidMoves q ∧
    (tryMinMoves X st s).2.gotAllowMoves q = st.gotAllowMoves q ∧
    (tryMinMoves X st s).2.parseFailed = st.parseFailed := by
  unfold tryMinMoves
  cases X.tryStringToInt s <;> exact ⟨rfl, rfl, rfl⟩

theorem tryMaxMoves_flags (X : AnalyzeExternals K) (st : AnalyzeParse K) (s : String) (q : Player) :
    (tryMaxMoves X st s).2.gotAvoidMoves q = st.gotAvoidMoves q ∧
    (tryMaxMoves X st s).2.gotAllowMoves q = st.gotAllowMoves q ∧
    (tryMaxMoves X st s).2.parseFailed = st.parseFailed := by
  unfold tryMaxMoves
  cases X.tryStringToInt s <;> exact ⟨rfl, rfl, rfl⟩

theorem tryPVVisits_flags (X : AnalyzeExternals K) (st : AnalyzeParse K) (s : String) (q : Player) :
    (tryPVVisits X st s).2.gotAvoidMoves q = st.gotAvoidMoves q ∧
    (tryPVVisits X st s).2.gotAllowMoves q = st.gotAllowMoves q ∧
    (tryPVVisits X st s).2.parseFailed = st.parseFailed := by
  unfold tryPVVisits
  cases X.tryStringToBool s <;> exact ⟨rfl, rfl, rfl⟩

theorem tryPVEdgeVisits_flags (X : AnalyzeExternals K) (st : AnalyzeParse K) (s : String)
    (q : Player) :
    (tryPVEdgeVisits X st s).2.gotAvoidMoves q = st.gotAvoidMoves q ∧
    (tryPVEdgeVisits X st s).2.gotAllowMoves q = st.gotAllowMoves q ∧
    (tryPVEdgeVisits X st s).2.parseFailed = st.parseFailed := by
  unfold tryPVEdgeVisits
  cases X.tryStringToBool s <;> exact ⟨rfl, rfl, rfl⟩

end

section
variable {K : Type} [LinearOrderedField K]

/-- The flags of the two states agree. -/
theorem tryInterval_flags (X : AnalyzeExternals K) (st : AnalyzeParse K) (s : String) (q : Player) :
    (tryInterval X st s).2.gotAvoidMoves q = st.gotAvoidMoves q ∧
    (tryInterval X st s).2.gotAllowMoves q = st.gotAllowMoves q ∧
    (tryInterval X st s).2.parseFailed = st.parseFailed := by
  unfold tryInterval
  cases X.tryStringToDouble s <;> exact ⟨rfl, rfl, rfl⟩

/-- One iteration of the loop on an `avoid` or `allow` key with its three
arguments. -/
theorem parseKeyValues_avoidAllow (X : AnalyzeExternals K) (isKata : Bool) (st : AnalyzeParse K)
    (key value movesStr untilDepthStr : String) (rest : List String)
    (hkey : key = "avoid" ∨ key = "allow") :
    parseKeyValues X isKata st (key :: value :: movesStr :: untilDepthStr :: rest)
      = if (parseAvoidAllow X st key value movesStr untilDepthStr).parseFailed then
          parseAvoidAllow X st key value movesStr untilDepthStr
        else parseKeyValues X isKata (parseAvoidAllow X st key value movesStr untilDepthStr) rest := by
  have hne : key ≠ "interval" := by
    rcases hkey with h | h <;> rw [h] <;> decide
  rw [parseKeyValues]
  simp only [if_neg hne, if_pos hkey]
  simp

/-- One iteration of the loop on a key other than `avoid` and `allow`: it
fails, or goes on after the value with the same flags. -/
theorem parseKeyValues_other (X : AnalyzeExternals K) (isKata : Bool) (st : AnalyzeParse K)
    (key value : String) (rest : List String) (hkey : ¬ (key = "avoid" ∨ key = "allow")) :
    (parseKeyValues X isKata st (key :: value :: rest)).parseFailed = true ∨
    ∃ st', parseKeyValues X isKata st (key :: value :: rest) = parseKeyValues X isKata st' rest ∧
      (∀ q, st'.gotAvoidMoves q = st.gotAvoidMoves q) ∧
      (∀ q, st'.gotAllowMoves q = st.gotAllowMoves q) ∧ st'.parseFailed = st.parseFailed := by
  have h1 : ∀ q, (if key = "interval" then tryInterval X st value else (false, st)).2.gotAvoidMoves q
        = st.gotAvoidMoves q ∧
      (if key = "interval" then tryInterval X st value else (false, st)).2.gotAllowMoves q
        = st.gotAllowMoves q ∧
      (if key = "interval" then tryInterval X st value else (false, st)).2.parseFailed
        = st.parseFailed := by
    intro q
    split_ifs
    · exact tryInterval_flags X st value q
    · exact ⟨rfl, rfl, rfl⟩
  rw [parseKeyValues.eq_def]
  dsimp only
  generalize (if key = "interval" then tryInterval X st value else (false, st)) = r1 at h1 ⊢
  by_cases c1 : r1.1 = true
  · rw [if_pos c1]
    exact Or.inr ⟨r1.2, rfl, fun q => (h1 q).1, fun q => (h1 q).2.1, (h1 Player.black).2.2⟩
  rw [if_neg c1, if_neg hkey]
  have h3 : ∀ q, (if key = "minmoves" then tryMinMoves X r1.2 value else (false, r1.2)).2.gotAvoidMoves q
        = st.gotAvoidMoves q ∧
      (if key = "minmoves" then tryMinMoves X r1.2 value else (false, r1.2)).2.gotAllowMoves q
        = st.gotAllowMoves q ∧
      (if key = "minmoves" then tryMinMoves X r1.2 value else (false, r1.2)).2.parseFailed
        = st.parseFailed := by
    intro q
    split_ifs
    · obtain ⟨a, b, c⟩ := tryMinMoves_flags X r1.2 value q
      exact ⟨a.trans (h1 q).1, b.trans (h1 q).2.1, c.trans (h1 q).2.2⟩
    · exact h1 q
  generalize (if key = "minmoves" then tryMinMoves X r1.2 value else (false, r1.2)) = r3 at h3 ⊢
  by_cases c3 : r3.1 = true
  · rw [if_pos c3]
    exact Or.inr ⟨r3.2, rfl, fun q => (h3 q).1, fun q => (h3 q).2.1, (h3 Player.black).2.2⟩
  rw [if_neg c3]
  have h4 : ∀ q, (if key = "maxmoves" then tryMaxMoves X r3.2 value else (false, r3.2)).2.gotAvoidMoves q
        = st.gotAvoidMoves q ∧
      (if key = "maxmoves" then tryMaxMoves X r3.2 value else (false, r3.2)).2.gotAllowMoves q
        = st.gotAllowMoves q ∧
      (if key = "maxmoves" then tryMaxMoves X r3.2 value else (false, r3.2)).2.parseFailed
        = st.parseFailed := by
    intro q
    split_ifs
    · obtain ⟨a, b, c⟩ := tryMaxMoves_flags X r3.2 value q
      exact ⟨a.trans (h3 q).1, b.trans (h3 q).2.1, c.trans (h3 q).2.2⟩
    · exact h3 q
  generalize (if key = "maxmoves" then tryMaxMoves X r3.2 value else (false, r3.2)) = r4 at h4 ⊢
  by_cases c4 : r4.1 = true
  · rw [if_pos c4]
    exact Or.inr ⟨r4.2, rfl, fun q => (h4 q).1, fun q => (h4 q).2.1, (h4 Player.black).2.2⟩
  rw [if_neg c4]
  have h5 : ∀ q, (if isKata = true ∧ key = "pvVisits" then tryPVVisits X r4.2 value
          else (false, r4.2)).2.gotAvoidMoves q = st.gotAvoidMoves q ∧
      (if isKata = true ∧ key = "pvVisits" then tryPVVisits X r4.2 value
          else (false, r4.2)).2.gotAllowMoves q = st.gotAllowMoves q ∧
      (if isKata = true ∧ key = "pvVisits" then tryPVVisits X r4.2 value
          else (false, r4.2)).2.parseFailed = st.parseFailed := by
    intro q
    split_ifs
    · obtain ⟨a, b, c⟩ := tryPVVisits_flags X r4.2 value q
      exact ⟨a.trans (h4 q).1, b.trans (h4 q).2.1, c.trans (h4 q).2.2⟩
    · exact h4 q
  generalize (if isKata = true ∧ key = "pvVisits" then tryPVVisits X r4.2 value
    else (false, r4.2)) = r5 at h5 ⊢
  by_cases c5 : r5.1 = true
  · rw [if_pos c5]
    exact Or.inr ⟨r5.2, rfl, fun q => (h5 q).1, fun q => (h5 q).2.1, (h5 Player.black).2.2⟩
  rw [if_neg c5]
  have h6 : ∀ q, (if isKata = true ∧ key = "pvEdgeVisits" then tryPVEdgeVisits X r5.2 value
          else (false, r5.2)).2.gotAvoidMoves q = st.gotAvoidMoves q ∧
      (if isKata = true ∧ key = "pvEdgeVisits" then tryPVEdgeVisits X r5.2 value
          else (false, r5.2)).2.gotAllowMoves q = st.gotAllowMoves q ∧
      (if isKata = true ∧ key = "pvEdgeVisits" then tryPVEdgeVisits X r5.2 value
          else (false, r5.2)).2.parseFailed = st.parseFailed := by
    intro q
    split_ifs
    · obtain ⟨a, b, c⟩ := tryPVEdgeVisits_flags X r5.2 value q
      exact ⟨a.trans (h5 q).1, b.trans (h5 q).2.1, c.trans (h5 q).2.2⟩
    · exact h5 q
  generalize (if isKata = true ∧ key = "pvEdgeVisits" then tryPVEdgeVisits X r5.2 value
    else (false, r5.2)) = r6 at h6 ⊢
  by_cases c6 : r6.1 = true
  · rw [if_pos c6]
    exact Or.inr ⟨r6.2, rfl, fun q => (h6 q).1, fun q => (h6 q).2.1, (h6 Player.black).2.2⟩
  rw [if_neg c6]
  exact Or.inl rfl

/-- Over a run of complete key groups the loop fails or goes on after them, and
no flag that was set is cleared. -/
theorem parseKeyValues_groups (X : AnalyzeExternals K) (isKata : Bool) :
    ∀ (gs : List (List String)), (∀ g ∈ gs, IsKeyGroup g) →
      ∀ (st : AnalyzeParse K) (rest : List String),
        (parseKeyValues X isKata st (gs.flatten ++ rest)).parseFailed = true ∨
        ∃ st', parseKeyValues X isKata st (gs.flatten ++ rest) = parseKeyValues X isKata st' rest ∧
          (∀ q, st.gotAvoidMoves q = true → st'.gotAvoidMoves q = true) ∧
          (∀ q, st.gotAllowMoves q = true → st'.gotAllowMoves q = true)
  | [], _, st, rest => Or.inr ⟨st, by simp, fun _ h => h, fun _ h => h⟩
  | g :: gs, hg, st, rest => by
    have ih := parseKeyValues_groups X isKata gs (fun g' hg' => hg g' (List.mem_cons_of_mem _ hg'))
    rcases hg g (List.mem_cons_self _ _) with ⟨key, value, rfl, hk1, hk2⟩ |
      ⟨key, value, movesStr, untilDepthStr, rfl, hk⟩
    · have hstep := parseKeyValues_other X isKata st key value (gs.flatten ++ rest)
        (fun h => h.elim hk1 hk2)
      rw [List.flatten_cons, List.append_assoc]
      simp only [List.cons_append, List.nil_append]
      rcases hstep with hf | ⟨st1, heq, ha, hb, _⟩
      · exact Or.inl hf
      · rw [heq]
        rcases ih st1 rest with hf | ⟨st2, heq2, ha2, hb2⟩
        · exact Or.inl hf
        · exact Or.inr ⟨st2, heq2, fun q h => ha2 q (by rw [ha q]; exact h),
            fun q h => hb2 q (by rw [hb q]; exact h)⟩
    · rw [List.flatten_cons, List.append_assoc]
      simp only [List.cons_append, List.nil_append]
      rw [parseKeyValues_avoidAllow X isKata st key value movesStr untilDepthStr _ hk]
      by_cases hf : (parseAvoidAllow X st key value movesStr untilDepthStr).parseFailed = true
      · rw [if_pos hf]; exact Or.inl hf
      · rw [if_neg hf]
        obtain ⟨_, _, _, _, ha, hb⟩ := parseAvoidAllow_flags X st key value movesStr untilDepthStr
          (by simpa using hf)
        rcases ih (parseAvoidAllow X st key value movesStr untilDepthStr) rest with
          hf2 | ⟨st2, heq2, ha2, hb2⟩
        · exact Or.inl hf2
        · exact Or.inr ⟨st2, heq2, fun q h => ha2 q (ha q h), fun q h => hb2 q (hb q h)⟩

/-- An `avoid` key with arguments that parse is accepted as long as no `allow`
key was read. -/
theorem parseAvoidAllow_avoid (X : AnalyzeExternals K) (st : AnalyzeParse K) (g : List String)
    (rest : List String) (isKata : Bool) (hg : IsAvoidGroup X g)
    (hfail : st.parseFailed = false) (hallow : ∀ q, st.gotAllowMoves q = false) :
    ∃ st', parseKeyValues X isKata st (g ++ rest) = parseKeyValues X isKata st' rest ∧
      st'.parseFailed = false ∧ ∀ q, st'.gotAllowMoves q = false := by
  obtain ⟨value, movesStr, untilDepthStr, untilDepth, rfl, hu, hd, hp, hl⟩ := hg
  obtain ⟨pla, hp⟩ := Option.isSome_iff_exists.1 hp
  obtain ⟨parsedLocs, hl⟩ := Option.isSome_iff_exists.1 hl
  have hval : parseAvoidAllow X st "avoid" value movesStr untilDepthStr
      = if pla = Player.black then
          { st with
            avoidMoveUntilByLocBlack :=
              updateAvoidMoveUntilByLoc X "avoid" untilDepth parsedLocs st.avoidMoveUntilByLocBlack
            gotAvoidMovesBlack := st.gotAvoidMovesBlack || decide ("avoid" = "avoid")
            gotAllowMovesBlack := st.gotAllowMovesBlack || decide ("avoid" = "allow") }
        else
          { st with
            avoidMoveUntilByLocWhite :=
              updateAvoidMoveUntilByLoc X "avoid" untilDepth parsedLocs st.avoidMoveUntilByLocWhite
            gotAvoidMovesWhite := st.gotAvoidMovesWhite || decide ("avoid" = "avoid")
            gotAllowMovesWhite := st.gotAllowMovesWhite || decide ("avoid" = "allow") } := by
    unfold parseAvoidAllow
    rw [hu]
    dsimp only
    rw [if_neg (not_lt.2 hd), hp]
    dsimp only
    rw [hl]
    dsimp only
    rw [if_neg]
    rw [hallow pla]
    simp
  have hb := hallow Player.black
  have hw := hallow Player.white
  simp only [AnalyzeParse.gotAllowMoves, if_true, if_false, reduceCtorEq] at hb hw
  have hfail' : (parseAvoidAllow X st "avoid" value movesStr untilDepthStr).parseFailed = false := by
    rw [hval]; split_ifs <;> exact hfail
  have hallow' : ∀ q, (parseAvoidAllow X st "avoid" value movesStr untilDepthStr).gotAllowMoves q
      = false := by
    intro q
    rw [hval]
    cases pla <;> cases q <;> simp [AnalyzeParse.gotAllowMoves, hb, hw]
  refine ⟨parseAvoidAllow X st "avoid" value movesStr untilDepthStr, ?_, hfail', hallow'⟩
  simp only [List.cons_append, List.nil_append]
  rw [parseKeyValues_avoidAllow X isKata st "avoid" value movesStr untilDepthStr rest (Or.inl rfl),
    if_neg (by rw [hfail']; simp)]

/-- A list of `avoid` keys with arguments that parse is accepted. -/
theorem parseKeyValues_avoids (X : AnalyzeExternals K) (isKata : Bool) :
    ∀ (groups : List (List String)), (∀ g ∈ groups, IsAvoidGroup X g) →
      ∀ (st : AnalyzeParse K), st.parseFailed = false → (∀ q, st.gotAllowMoves q = false) →
        (parseKeyValues X isKata st groups.flatten).parseFailed = false
  | [], _, st, hfail, _ => by
    rw [List.flatten_nil, parseKeyValues]
    exact hfail
  | g :: groups, hg, st, hfail, hallow => by
    obtain ⟨st', heq, hfail', hallow'⟩ := parseAvoidAllow_avoid X st g groups.flatten isKata
      (hg g (List.mem_cons_self _ _)) hfail hallow
    rw [List.flatten_cons, heq]
    exact parseKeyValues_avoids X isKata groups
      (fun g' hg' => hg g' (List.mem_cons_of_mem _ hg')) st' hfail' hallow'

/-- The state in which the loop of `parseAnalyzeCommand` starts has no flag set. -/
theorem dropOptionalInterval_flags (X : AnalyzeExternals K) (pieces : List String) :
    (dropOptionalInterval X (initialAnalyzeParse X) pieces).1.parseFailed = false ∧
    ∀ q, (dropOptionalInterval X (initialAnalyzeParse X) pieces).1.gotAllowMoves q = false := by
  unfold dropOptionalInterval
  cases pieces with
  | nil => exact ⟨rfl, fun q => by cases q <;> rfl⟩
  | cons piece rest =>
    dsimp only
    have h := fun q => tryInterval_flags X (initialAnalyzeParse X) piece q
    split_ifs
    · exact ⟨(h Player.black).2.2, fun q => by rw [(h q).2.1]; cases q <;> rfl⟩
    · exact ⟨(h Player.black).2.2, fun q => by rw [(h q).2.1]; cases q <;> rfl⟩

/-- C21: one analyze command cannot specify both avoid and allow for a player,
and at most one allow.  If the arguments that the loop of `parseAnalyzeCommand`
reads (those after the optional player and interval) consist of complete key
groups, then an `avoid` or `allow` group, complete key groups, a second `avoid`
or `allow` group whose player argument parses to the same player, and anything
after it, and the two keys are avoid then allow, allow then avoid, or allow
twice, then `parseFailed` is set to true.  If they are a list of `avoid` groups
whose arguments parse, for any players, `parseFailed` is false. -/
theorem parseAnalyzeCommand_avoid_allow (X : AnalyzeExternals K) (command : String)
    (pieces : List String) :
    (∀ (pre mid : List (List String)) (tail : List String)
        (key1 value1 movesStr1 untilDepthStr1 key2 value2 movesStr2 untilDepthStr2 : String),
      keyValueArgs X pieces
        = pre.flatten ++ ([key1, value1, movesStr1, untilDepthStr1]
            ++ (mid.flatten ++ ([key2, value2, movesStr2, untilDepthStr2] ++ tail))) →
      (∀ g ∈ pre, IsKeyGroup g) → (∀ g ∈ mid, IsKeyGroup g) →
      (key1 = "avoid" ∧ key2 = "allow") ∨ (key1 = "allow" ∧ key2 = "avoid")
        ∨ (key1 = "allow" ∧ key2 = "allow") →
      X.tryParsePlayer value1 = X.tryParsePlayer value2 →
      (parseAnalyzeCommand X command pieces).2 = true) ∧
    (∀ (groups : List (List String)),
      keyValueArgs X pieces = groups.flatten → (∀ g ∈ groups, IsAvoidGroup X g) →
      (parseAnalyzeCommand X command pieces).2 = false) := by
  have hres : (parseAnalyzeCommand X command pieces).2
      = (parseKeyValues X
          (decide (command = "kata-analyze" ∨ command = "kata-genmove_analyze"))
          (dropOptionalInterval X (initialAnalyzeParse X) (dropOptionalPlayer X pieces)).1
          (keyValueArgs X pieces)).parseFailed := rfl
  constructor
  · intro pre mid tail key1 value1 movesStr1 untilDepthStr1 key2 value2 movesStr2 untilDepthStr2
      hargs hpre hmid hkeys hpla
    rw [hres, hargs]
    generalize (dropOptionalInterval X (initialAnalyzeParse X) (dropOptionalPlayer X pieces)).1
      = st0
    generalize decide (command = "kata-analyze" ∨ command = "kata-genmove_analyze") = isKata
    have hk1 : key1 = "avoid" ∨ key1 = "allow" := by
      rcases hkeys with h | h | h
      · exact Or.inl h.1
      · exact Or.inr h.1
      · exact Or.inr h.1
    have hk2 : key2 = "avoid" ∨ key2 = "allow" := by
      rcases hkeys with h | h | h
      · exact Or.inr h.2
      · exact Or.inl h.2
      · exact Or.inr h.2
    rcases parseKeyValues_groups X isKata pre hpre st0 _ with hf | ⟨st1, heq1, _, _⟩
    · exact hf
    rw [heq1]
    simp only [List.cons_append, List.nil_append]
    rw [parseKeyValues_avoidAllow X isKata st1 key1 value1 movesStr1 untilDepthStr1 _ hk1]
    by_cases hf1 : (parseAvoidAllow X st1 key1 value1 movesStr1 untilDepthStr1).parseFailed = true
    · rw [if_pos hf1]; exact hf1
    rw [if_neg hf1]
    obtain ⟨pla, hp1, hav, hal, _, _⟩ :=
      parseAvoidAllow_flags X st1 key1 value1 movesStr1 untilDepthStr1 (by simpa using hf1)
    rcases parseKeyValues_groups X isKata mid hmid
        (parseAvoidAllow X st1 key1 value1 movesStr1 untilDepthStr1) _ with
      hf | ⟨st3, heq3, ha3, hb3⟩
    · exact hf
    rw [heq3, parseKeyValues_avoidAllow X isKata st3 key2 value2 movesStr2 untilDepthStr2 _ hk2]
    have hconf : (parseAvoidAllow X st3 key2 value2 movesStr2 untilDepthStr2).parseFailed = true := by
      apply parseAvoidAllow_conflict X st3 key2 value2 movesStr2 untilDepthStr2 pla
        (by rw [← hpla]; exact hp1)
      rcases hkeys with h | h | h
      · exact Or.inl ⟨h.2, ha3 pla (hav h.1)⟩
      · exact Or.inr (Or.inr ⟨h.2, hb3 pla (hal h.1)⟩)
      · exact Or.inr (Or.inl ⟨h.2, hb3 pla (hal h.1)⟩)
    rw [if_pos hconf]
    exact hconf
  · intro groups hargs hgroups
    rw [hres, hargs]
    obtain ⟨h1, h2⟩ := dropOptionalInterval_flags X (dropOptionalPlayer X pieces)
    exact parseKeyValues_avoids X _ groups hgroups _ h1 h2

end

/-- Instance of C21 with the sample parser: after the optional player `b` and
interval `50`, `avoid b 3 5` followed by `allow b 4 5` fails, with or without a
`minmoves` key between them, and `avoid b 3 5` followed by `avoid b 4 5` and
`avoid w 3 1` is accepted. -/
theorem parseAnalyzeCommand_avoid_allow_witness :
    (parseAnalyzeCommand sampleAnalyzeExternals "kata-analyze"
      ["b", "50", "avoid", "b", "3", "5", "minmoves", "5", "allow", "b", "4", "5"]).2 = true ∧
    (parseAnalyzeCommand sampleAnalyzeExternals "kata-analyze"
      ["b", "50", "avoid", "b", "3", "5", "allow", "b", "4", "5"]).2 = true ∧
    (parseAnalyzeCommand sampleAnalyzeExternals "kata-analyze"
      ["b", "50", "avoid", "b", "3", "5", "avoid", "b", "4", "5", "avoid", "w", "3", "1"]).2
      = false := by
  refine ⟨?_, by decide, ?_⟩
  · exact (parseAnalyzeCommand_avoid_allow sampleAnalyzeExternals "kata-analyze"
      ["b", "50", "avoid", "b", "3", "5", "minmoves", "5", "allow", "b", "4", "5"]).1
      [] [["minmoves", "5"]] [] "avoid" "b" "3" "5" "allow" "b" "4" "5" (by decide)
      (fun g hg => absurd hg (List.not_mem_nil g))
      (fun g hg => by
        rw [List.mem_singleton] at hg
        exact Or.inl ⟨"minmoves", "5", hg, by decide, by decide⟩)
      (Or.inl ⟨rfl, rfl⟩) rfl
  · exact (parseAnalyzeCommand_avoid_allow sampleAnalyzeExternals "kata-analyze"
      ["b", "50", "avoid", "b", "3", "5", "avoid", "b", "4", "5", "avoid", "w", "3", "1"]).2
      [["avoid", "b", "3", "5"], ["avoid", "b", "4", "5"], ["avoid", "w", "3", "1"]] (by decide)
      (fun g hg => by
        simp only [List.mem_cons, List.mem_singleton, List.not_mem_nil, or_false] at hg
        rcases hg with rfl | rfl | rfl
        · exact ⟨"b", "3", "5", 5, rfl, by decide, by decide, by decide, by decide⟩
        · exact ⟨"b", "4", "5", 5, rfl, by decide, by decide, by decide, by decide⟩
        · exact ⟨"w", "3", "1", 1, rfl, by decide, by decide, by decide, by decide⟩)

/-! ### filterZeroVisitMoves -/

theorem take_succ_set {α : Type} (l : List α) (k : Nat) (d : α) (hk : k < l.length) :
    (l.set k d).take (k + 1) = l.take k ++ [d] := by
  rw [List.take_succ, List.getElem?_set_self hk]
  have h : (l.set k d).take k = l.take k := by
    apply List.ext_getElem?
    intro j
    rw [List.getElem?_take, List.getElem?_take]
    split
    · rw [List.getElem?_set_ne (by omega)]
    · rfl
  rw [h]
  rfl

/-- The loop of `filterZeroVisitMoves` compacts the entries to keep to the
front of its local vector. -/
theorem filterZeroVisitMovesLoop_spec (minMoves : Int) :
    ∀ (todo i : Nat) (buf : List AnalysisData) (k : Nat), k ≤ i → i + todo = buf.length →
      (filterZeroVisitMovesLoop minMoves todo i buf k).1.take
          (filterZeroVisitMovesLoop minMoves todo i buf k).2.toNat
        = buf.take k ++ keptAnalysisData minMoves (buf.drop i) k
  | 0, i, buf, k, _, hlen => by
    have hd : buf.drop i = [] := List.drop_eq_nil_of_le (by omega)
    simp [filterZeroVisitMovesLoop, hd, keptAnalysisData]
  | todo + 1, i, buf, k, hk, hlen => by
    have hi : i < buf.length := by omega
    have hget : buf.get? i = some buf[i] := by
      rw [List.get?_eq_getElem?]; exact List.getElem?_eq_getElem hi
    have hdrop : buf.drop i = buf[i] :: buf.drop (i + 1) := List.drop_eq_getElem_cons hi
    unfold filterZeroVisitMovesLoop
    rw [hget, hdrop]
    dsimp only
    unfold keptAnalysisData
    by_cases hc : buf[i].numVisits > 0 ∨ (k : Int) < minMoves
    · rw [if_pos hc, if_pos hc]
      have hcast : ((k : Int) + 1) = ((k + 1 : Nat) : Int) := by push_cast; rfl
      rw [hcast, Int.toNat_natCast]
      have ih := filterZeroVisitMovesLoop_spec minMoves todo (i + 1) (buf.set k buf[i]) (k + 1)
        (by omega) (by rw [List.length_set]; omega)
      rw [ih, take_succ_set buf k buf[i] (by omega),
        List.drop_set_of_lt buf[i] buf (by omega : k < i + 1)]
      simp
    · rw [if_neg hc, if_neg hc]
      exact filterZeroVisitMovesLoop_spec minMoves todo (i + 1) buf k (by omega) (by omega)

/-- The body of `filterZeroVisitMoves` leaves in its local vector the entries
that its comment asks for. -/
theorem filterZeroVisitMovesBody_eq (minMoves : Int) (buf : List AnalysisData) :
    filterZeroVisitMovesBody minMoves buf = keptAnalysisData minMoves buf 0 := by
  unfold filterZeroVisitMovesBody
  dsimp only
  have h := filterZeroVisitMovesLoop_spec minMoves buf.length 0 buf 0 (le_refl _) (by omega)
  simpa using h

/-- C22 fails on the code: `filterZeroVisitMoves` takes `buf` by value, so that
the caller's buffer is never filtered.  With `minMoves = 0`, `maxMoves = 10000000`
and a buffer holding a move with 5 visits and a move with 0 visits, the body of
`filterZeroVisitMoves` computes the one-entry buffer that its comment asks for,
and the buffer that the analyze callback goes on to print still holds both
entries; in general that buffer is the original one cut to `maxMoves` entries. -/
theorem filterZeroVisitMoves_by_value :
    filterZeroVisitMovesBody 0 [⟨3, 5⟩, ⟨7, 0⟩] = [⟨3, 5⟩] ∧
    keptAnalysisData 0 [⟨3, 5⟩, ⟨7, 0⟩] 0 = [⟨3, 5⟩] ∧
    analyzeCallbackBuf 0 10000000 [⟨3, 5⟩, ⟨7, 0⟩] = [⟨3, 5⟩, ⟨7, 0⟩] ∧
    (∀ (minMoves maxMoves : Int) (buf : List AnalysisData), (buf.length : Int) ≤ maxMoves →
      analyzeCallbackBuf minMoves maxMoves buf = buf) := by
  refine ⟨by decide, by decide, by decide, ?_⟩
  intro minMoves maxMoves buf h
  unfold analyzeCallbackBuf filterZeroVisitMoves
  dsimp only
  rw [if_neg (not_lt.2 h)]

section
variable {K : Type} [LinearOrderedField K]

/-- C23: in exact arithmetic the Winograd path equals direct convolution.  For
every 3-tap kernel `g` (whatever the three unread entries hold) and 6-sample
input `d`, the kernel transform `transform3x3_6`, the 6-point input transform,
the pointwise product and the 4-output inverse transform give
`y_i = sum_(k < 3) g_k * d_(i+k)` for `i = 0..3`; for every 5-tap kernel,
`transform5x5_6` with the 2-output inverse transform gives
`y_i = sum_(k < 5) g_k * d_(i+k)` for `i = 0..1`. -/
theorem winograd_eq_directConv (g d : Six K) :
    (∀ i, i < 4 →
      (outputTransform3 (transformedProduct (transform3x3_6 g) (inputTransform d))).get i
        = directConv 3 g.get d.get i) ∧
    (∀ i, i < 2 →
      (outputTransform5 (transformedProduct (transform5x5_6 g) (inputTransform d))).get i
        = directConv 5 g.get d.get i) := by
  constructor
  · intro i hi
    interval_cases i <;>
      simp only [outputTransform3, transformedProduct, transform3x3_6, inputTransform, Six.get,
        directConv, List.range_succ, List.range_zero, List.map_append, List.map_cons,
        List.map_nil, List.sum_append, List.sum_cons, List.sum_nil, List.nil_append] <;>
      ring
  · intro i hi
    interval_cases i <;>
      simp only [outputTransform5, transformedProduct, transform5x5_6, inputTransform, Six.get,
        directConv, List.range_succ, List.range_zero, List.map_append, List.map_cons,
        List.map_nil, List.sum_append, List.sum_cons, List.sum_nil, List.nil_append] <;>
      ring

end

/-! ### The convolution workspace -/

theorem le_roundUpToMultiple (size : Nat) : size ≤ roundUpToMultiple size 32 := by
  unfold roundUpToMultiple
  omega

theorem tensor3Index_lt {dim0 dim1 dim2 i j k : Nat} (hi : i < dim0) (hj : j < dim1)
    (hk : k < dim2) : tensor3Index dim0 dim1 i j k < dim0 * dim1 * dim2 := by
  unfold tensor3Index
  have h1 : j + dim1 * k + 1 ≤ dim1 * dim2 := by
    have : dim1 * (k + 1) ≤ dim1 * dim2 := Nat.mul_le_mul_left _ hk
    rw [Nat.mul_succ] at this
    omega
  have h2 : dim0 * (j + dim1 * k + 1) ≤ dim0 * (dim1 * dim2) := Nat.mul_le_mul_left _ h1
  rw [Nat.mul_succ] at h2
  rw [Nat.mul_assoc]
  omega

theorem ConvLayer.batchTileXTileY_lt (layer : ConvLayer) {batchSize n yTile xTile : Nat}
    (hn : n < batchSize) (hy : yTile < layer.numTilesY) (hx : xTile < layer.numTilesX) :
    layer.batchTileXTileY n yTile xTile < batchSize * layer.numTilesY * layer.numTilesX := by
  unfold ConvLayer.batchTileXTileY
  have h1 : yTile * layer.numTilesX + xTile + 1 ≤ layer.numTilesY * layer.numTilesX := by
    have : (yTile + 1) * layer.numTilesX ≤ layer.numTilesY * layer.numTilesX :=
      Nat.mul_le_mul_right _ hy
    rw [Nat.succ_mul] at this
    omega
  have h2 : (n + 1) * (layer.numTilesY * layer.numTilesX)
      ≤ batchSize * (layer.numTilesY * layer.numTilesX) := Nat.mul_le_mul_right _ hn
  rw [Nat.succ_mul] at h2
  rw [Nat.mul_assoc, Nat.mul_assoc]
  omega

theorem ConvLayer.tileElt_lt (layer : ConvLayer) {channels dy dx c : Nat}
    (hch : channels ≤ max layer.inChannels layer.outChannels)
    (hdy : dy < inTileYSize) (hdx : dx < inTileXSize) (hc : c < channels) :
    layer.tileElt channels dy dx c < layer.tile2 := by
  unfold ConvLayer.tileElt ConvLayer.tile2 ConvLayer.tile inTileXSize inTileYSize at *
  dsimp only
  have hr := le_roundUpToMultiple (max layer.inChannels layer.outChannels)
  have hsub : dy * 6 + dx + 1 ≤ 36 := by omega
  have h1 : (dy * 6 + dx + 1) * channels ≤ 36 * channels := Nat.mul_le_mul_right _ hsub
  rw [Nat.succ_mul] at h1
  have h2 : 36 * channels ≤ 36 * roundUpToMultiple (max layer.inChannels layer.outChannels) 32 :=
    Nat.mul_le_mul_left _ (le_trans hch hr)
  omega

/-- C24: for a 3x3 or 5x5 `ConvLayer`, every `maxBatchSize` and every
`batchSize <= maxBatchSize`, every offset into `convWorkspace` that
`ConvLayer::apply` touches is below `requiredConvWorkspaceElts(maxBatchSize)`,
and the four regions follow one another without overlap: the elements of
`tile` (indexed with `inChannels` or with `outChannels`) lie in `[tile, tile2)`,
the second tile buffer is `[tile2, convWorkspaceIn)`, the elements of
`transformedInput` lie in `[convWorkspaceIn, convWorkspaceOut)` and the elements
of `transformedOutput` in `[convWorkspaceOut, requiredConvWorkspaceElts)`. -/
theorem ConvLayer.workspace_offsets (layer : ConvLayer) (maxBatchSize batchSize : Nat)
    (hw : layer.isWinograd = true) (hb : batchSize ≤ maxBatchSize) :
    (∀ channels dy dx c, channels = layer.inChannels ∨ channels = layer.outChannels →
      dy < inTileYSize → dx < inTileXSize → c < channels →
      layer.tile ≤ layer.tileElt channels dy dx c ∧
      layer.tileElt channels dy dx c < layer.tile2 ∧
      layer.tileElt channels dy dx c < layer.requiredConvWorkspaceElts maxBatchSize) ∧
    (layer.tile2 ≤ layer.convWorkspaceIn ∧
      layer.convWorkspaceIn ≤ layer.convWorkspaceOut batchSize ∧
      layer.convWorkspaceOut batchSize ≤ layer.requiredConvWorkspaceElts maxBatchSize) ∧
    (∀ n yTile xTile dy dx ic, n < batchSize → yTile < layer.numTilesY →
      xTile < layer.numTilesX → dy < inTileYSize → dx < inTileXSize → ic < layer.inChannels →
      layer.convWorkspaceIn ≤ layer.transformedInputElt batchSize n yTile xTile dy dx ic ∧
      layer.transformedInputElt batchSize n yTile xTile dy dx ic
        < layer.convWorkspaceOut batchSize ∧
      layer.transformedInputElt batchSize n yTile xTile dy dx ic
        < layer.requiredConvWorkspaceElts maxBatchSize) ∧
    (∀ n yTile xTile dy dx oc, n < batchSize → yTile < layer.numTilesY →
      xTile < layer.numTilesX → dy < inTileYSize → dx < inTileXSize → oc < layer.outChannels →
      layer.convWorkspaceOut batchSize
        ≤ layer.transformedOutputElt batchSize n yTile xTile dy dx oc ∧
      layer.transformedOutputElt batchSize n yTile xTile dy dx oc
        < layer.requiredConvWorkspaceElts maxBatchSize) := by
  have hreq : layer.requiredConvWorkspaceElts maxBatchSize
      = (roundUpToMultiple layer.inChannels 32 + roundUpToMultiple layer.outChannels 32)
          * maxBatchSize * layer.numTilesY * layer.numTilesX * inTileXSize * inTileYSize
        + 2 * inTileXSize * inTileYSize
          * roundUpToMultiple (max layer.inChannels layer.outChannels) 32 := by
    unfold ConvLayer.requiredConvWorkspaceElts
    rw [if_pos hw]
  have hin : layer.convWorkspaceIn
      = 2 * inTileXSize * inTileYSize
          * roundUpToMultiple (max layer.inChannels layer.outChannels) 32 := by
    unfold ConvLayer.convWorkspaceIn ConvLayer.tile2 ConvLayer.tile
    ring
  have hbt : batchSize * layer.numTilesY * layer.numTilesX
      ≤ maxBatchSize * layer.numTilesY * layer.numTilesX :=
    Nat.mul_le_mul_right _ (Nat.mul_le_mul_right _ hb)
  have hrin := le_roundUpToMultiple layer.inChannels
  have hrout := le_roundUpToMultiple layer.outChannels
  have hOutLe : layer.convWorkspaceOut batchSize
      + layer.outChannels * (batchSize * layer.numTilesY * layer.numTilesX)
          * (inTileYSize * inTileXSize)
      ≤ layer.requiredConvWorkspaceElts maxBatchSize := by
    have h1 : roundUpToMultiple layer.inChannels 32
        * (batchSize * layer.numTilesY * layer.numTilesX)
        ≤ roundUpToMultiple layer.inChannels 32
          * (maxBatchSize * layer.numTilesY * layer.numTilesX) := Nat.mul_le_mul_left _ hbt
    have h2 : layer.outChannels * (batchSize * layer.numTilesY * layer.numTilesX)
        ≤ roundUpToMultiple layer.outChannels 32
          * (maxBatchSize * layer.numTilesY * layer.numTilesX) := Nat.mul_le_mul hrout hbt
    have h3 := Nat.mul_le_mul_right (inTileYSize * inTileXSize) (Nat.add_le_add h1 h2)
    rw [hreq]
    unfold ConvLayer.convWorkspaceOut
    rw [hin]
    calc 2 * inTileXSize * inTileYSize
            * roundUpToMultiple (max layer.inChannels layer.outChannels) 32
          + roundUpToMultiple layer.inChannels 32 * batchSize * layer.numTilesY
            * layer.numTilesX * inTileXSize * inTileYSize
          + layer.outChannels * (batchSize * layer.numTilesY * layer.numTilesX)
            * (inTileYSize * inTileXSize)
        = (roundUpToMultiple layer.inChannels 32
              * (batchSize * layer.numTilesY * layer.numTilesX)
            + layer.outChannels * (batchSize * layer.numTilesY * layer.numTilesX))
            * (inTileYSize * inTileXSize)
          + 2 * inTileXSize * inTileYSize
            * roundUpToMultiple (max layer.inChannels layer.outChannels) 32 := by ring
      _ ≤ (roundUpToMultiple layer.inChannels 32
              * (maxBatchSize * layer.numTilesY * layer.numTilesX)
            + roundUpToMultiple layer.outChannels 32
              * (maxBatchSize * layer.numTilesY * layer.numTilesX))
            * (inTileYSize * inTileXSize)
          + 2 * inTileXSize * inTileYSize
            * roundUpToMultiple (max layer.inChannels layer.outChannels) 32 :=
          Nat.add_le_add_right h3 _
      _ = (roundUpToMultiple layer.inChannels 32 + roundUpToMultiple layer.outChannels 32)
            * maxBatchSize * layer.numTilesY * layer.numTilesX * inTileXSize * inTileYSize
          + 2 * inTileXSize * inTileYSize
            * roundUpToMultiple (max layer.inChannels layer.outChannels) 32 := by ring
  have hInLe : layer.convWorkspaceIn
      + layer.inChannels * (batchSize * layer.numTilesY * layer.numTilesX)
          * (inTileYSize * inTileXSize)
      ≤ layer.convWorkspaceOut batchSize := by
    have h1 := Nat.mul_le_mul_right
      ((batchSize * layer.numTilesY * layer.numTilesX) * (inTileYSize * inTileXSize)) hrin
    unfold ConvLayer.convWorkspaceOut
    apply Nat.add_le_add_left
    calc layer.inChannels * (batchSize * layer.numTilesY * layer.numTilesX)
            * (inTileYSize * inTileXSize)
        = layer.inChannels * ((batchSize * layer.numTilesY * layer.numTilesX)
            * (inTileYSize * inTileXSize)) := by ring
      _ ≤ roundUpToMultiple layer.inChannels 32
            * ((batchSize * layer.numTilesY * layer.numTilesX)
              * (inTileYSize * inTileXSize)) := h1
      _ = roundUpToMultiple layer.inChannels 32 * batchSize * layer.numTilesY
            * layer.numTilesX * inTileXSize * inTileYSize := by ring
  have h12 : layer.tile2 ≤ layer.convWorkspaceIn := by
    unfold ConvLayer.convWorkspaceIn
    exact Nat.le_add_right _ _
  have h23 : layer.convWorkspaceIn ≤ layer.convWorkspaceOut batchSize :=
    le_trans (Nat.le_add_right _ _) hInLe
  have h34 : layer.convWorkspaceOut batchSize ≤ layer.requiredConvWorkspaceElts maxBatchSize :=
    le_trans (Nat.le_add_right _ _) hOutLe
  have hsub : ∀ dy dx, dy < inTileYSize → dx < inTileXSize →
      dy * inTileXSize + dx < inTileYSize * inTileXSize := by
    intro dy dx hdy hdx
    unfold inTileXSize inTileYSize at *
    omega
  refine ⟨?_, ⟨h12, h23, h34⟩, ?_, ?_⟩
  · intro channels dy dx c hch hdy hdx hc
    have hle : channels ≤ max layer.inChannels layer.outChannels := by
      rcases hch with h | h
      · rw [h]; exact le_max_left _ _
      · rw [h]; exact le_max_right _ _
    have hlt := layer.tileElt_lt hle hdy hdx hc
    refine ⟨?_, hlt, lt_of_lt_of_le hlt (le_trans h12 (le_trans h23 h34))⟩
    unfold ConvLayer.tileElt
    exact Nat.le_add_right _ _
  · intro n yTile xTile dy dx ic hn hy hx hdy hdx hic
    have hidx := tensor3Index_lt hic (layer.batchTileXTileY_lt hn hy hx) (hsub dy dx hdy hdx)
    have hlt : layer.transformedInputElt batchSize n yTile xTile dy dx ic
        < layer.convWorkspaceOut batchSize := by
      unfold ConvLayer.transformedInputElt
      dsimp only
      exact lt_of_lt_of_le (Nat.add_lt_add_left hidx _) hInLe
    refine ⟨?_, hlt, lt_of_lt_of_le hlt h34⟩
    unfold ConvLayer.transformedInputElt
    exact Nat.le_add_right _ _
  · intro n yTile xTile dy dx oc hn hy hx hdy hdx hoc
    have hidx := tensor3Index_lt hoc (layer.batchTileXTileY_lt hn hy hx) (hsub dy dx hdy hdx)
    refine ⟨?_, ?_⟩
    · unfold ConvLayer.transformedOutputElt
      exact Nat.le_add_right _ _
    · unfold ConvLayer.transformedOutputElt
      dsimp only
      exact lt_of_lt_of_le (Nat.add_lt_add_left hidx _) hOutLe

/-- Instance of C24 for `sampleConvLayer` with `maxBatchSize = 2` and
`batchSize = 2`: the workspace has 32256 elements, and the last element of
`transformedOutput` is at offset 25343 of it. -/
theorem ConvLayer.workspace_offsets_witness :
    sampleConvLayer.isWinograd = true ∧ (2 : Nat) ≤ 2 ∧
    sampleConvLayer.requiredConvWorkspaceElts 2 = 32256 ∧
    sampleConvLayer.transformedOutputElt 2 1 1 1 5 5 39 = 25343 ∧
    sampleConvLayer.transformedOutputElt 2 1 1 1 5 5 39
      < sampleConvLayer.requiredConvWorkspaceElts 2 := by
  refine ⟨by decide, by decide, by decide, by decide, ?_⟩
  exact ((ConvLayer.workspace_offsets sampleConvLayer 2 2 (by decide) (by decide)).2.2.2
    1 1 1 5 5 39 (by decide) (by decide) (by decide) (by decide) (by decide) (by decide)).2

section
variable {K : Type} [LinearOrderedField K]

/-! ### poolRowsGPool -/

theorem validRow_cons (inp : Nat → Nat → Nat → Nat → K) (mask : Nat → Nat → Nat → K)
    (n c h w : Nat) (ws : List Nat) :
    validRow inp mask n c h (w :: ws)
      = (if mask w h n = 1 then [inp c w h n] else []) ++ validRow inp mask n c h ws := by
  unfold validRow
  by_cases h1 : mask w h n = 1
  · simp [List.filterMap_cons, h1]
  · simp [List.filterMap_cons, h1]

/-- The inner loop of `computeMaskSum` counts the mask-1 positions of a row. -/
theorem computeMaskSum_row (inp : Nat → Nat → Nat → Nat → K) (mask : Nat → Nat → Nat → K)
    (n c h : Nat) :
    ∀ (ws : List Nat) (s : K) (vs : List K),
      (∀ w ∈ ws, mask w h n = 0 ∨ mask w h n = 1) → s = (vs.length : K) →
      ws.foldl (fun s w => s + mask w h n) s
        = ((vs ++ validRow inp mask n c h ws).length : K)
  | [], s, vs, _, hs => by simpa [validRow] using hs
  | w :: ws, s, vs, hm, hs => by
    rw [List.foldl_cons, validRow_cons, ← List.append_assoc]
    apply computeMaskSum_row inp mask n c h ws _ _
      (fun w' hw' => hm w' (List.mem_cons_of_mem _ hw'))
    rcases hm w (List.mem_cons_self _ _) with h0 | h1
    · have hne : ¬ (mask w h n = 1) := by rw [h0]; exact zero_ne_one
      rw [if_neg hne, h0, add_zero, List.append_nil, hs]
    · rw [if_pos h1, h1, hs, List.length_append, List.length_singleton]
      push_cast
      rfl

/-- The loops of `computeMaskSum` count the mask-1 positions. -/
theorem computeMaskSum_rows (inp : Nat → Nat → Nat → Nat → K) (mask : Nat → Nat → Nat → K)
    (n c : Nat) (ws : List Nat) :
    ∀ (hs : List Nat) (s : K) (vs : List K),
      (∀ h ∈ hs, ∀ w ∈ ws, mask w h n = 0 ∨ mask w h n = 1) → s = (vs.length : K) →
      hs.foldl (fun s h => ws.foldl (fun s w => s + mask w h n) s) s
        = ((vs ++ hs.flatMap (fun h => validRow inp mask n c h ws)).length : K)
  | [], s, vs, _, hs => by simpa using hs
  | h :: hs, s, vs, hm, hlen => by
    rw [List.foldl_cons, List.flatMap_cons, ← List.append_assoc]
    exact computeMaskSum_rows inp mask n c ws hs _ _
      (fun h' hh' => hm h' (List.mem_cons_of_mem _ hh'))
      (computeMaskSum_row inp mask n c h ws s vs (hm h (List.mem_cons_self _ _)) hlen)

/-- One step of the inner loop of `poolRowsGPool` keeps the invariant. -/
theorem GPoolInv_step (inp : Nat → Nat → Nat → Nat → K) (mask : Nat → Nat → Nat → K)
    (n c h w : Nat) (sm : K × K) (vs : List K) (hinv : GPoolInv sm vs)
    (hmask : mask w h n = 0 ∨ mask w h n = 1)
    (hzero : mask w h n = 0 → inp c w h n = 0) :
    GPoolInv (poolStepGPool inp mask n c h sm w)
      (vs ++ (if mask w h n = 1 then [inp c w h n] else [])) := by
  obtain ⟨h1, h2, h3, h4⟩ := hinv
  unfold poolStepGPool
  dsimp only
  rcases hmask with h0 | hone
  · have hne : ¬ (mask w h n = 1) := by rw [h0]; exact zero_ne_one
    rw [if_neg hne, List.append_nil, hzero h0, h0]
    have hm : max sm.2 ((0 : K) + (0 - 1)) = sm.2 := by
      rw [zero_add, zero_sub]; exact max_eq_left h4
    rw [hm, add_zero]
    exact ⟨h1, h2, h3, h4⟩
  · rw [if_pos hone, hone, sub_self, add_zero]
    refine ⟨?_, ?_, ?_, ?_⟩
    · show sm.1 + inp c w h n = (vs ++ [inp c w h n]).sum
      rw [List.sum_append, List.sum_singleton, h1]
    · intro v hv
      show v ≤ max sm.2 (inp c w h n)
      rcases List.mem_append.1 hv with hv | hv
      · exact le_trans (h2 v hv) (le_max_left _ _)
      · rw [List.mem_singleton.1 hv]; exact le_max_right _ _
    · show max sm.2 (inp c w h n) = -1 ∨ max sm.2 (inp c w h n) ∈ vs ++ [inp c w h n]
      rcases le_total sm.2 (inp c w h n) with hle | hle
      · rw [max_eq_right hle]
        exact Or.inr (List.mem_append_right _ (List.mem_singleton_self _))
      · rw [max_eq_left hle]
        rcases h3 with h3 | h3
        · exact Or.inl h3
        · exact Or.inr (List.mem_append_left _ h3)
    · exact le_trans h4 (le_max_left _ _)

/-- The inner loop of `poolRowsGPool` keeps the invariant. -/
theorem GPoolInv_row (inp : Nat → Nat → Nat → Nat → K) (mask : Nat → Nat → Nat → K)
    (n c h : Nat) :
    ∀ (ws : List Nat) (sm : K × K) (vs : List K), GPoolInv sm vs →
      (∀ w ∈ ws, (mask w h n = 0 ∨ mask w h n = 1) ∧ (mask w h n = 0 → inp c w h n = 0)) →
      GPoolInv (ws.foldl (poolStepGPool inp mask n c h) sm) (vs ++ validRow inp mask n c h ws)
  | [], sm, vs, hinv, _ => by simpa [validRow] using hinv
  | w :: ws, sm, vs, hinv, hyp => by
    rw [List.foldl_cons, validRow_cons, ← List.append_assoc]
    obtain ⟨ha, hb⟩ := hyp w (List.mem_cons_self _ _)
    exact GPoolInv_row inp mask n c h ws _ _
      (GPoolInv_step inp mask n c h w sm vs hinv ha hb)
      (fun w' hw' => hyp w' (List.mem_cons_of_mem _ hw'))

/-- The loops of `poolRowsGPool` keep the invariant. -/
theorem GPoolInv_rows (inp : Nat → Nat → Nat → Nat → K) (mask : Nat → Nat → Nat → K)
    (n c : Nat) (ws : List Nat) :
    ∀ (hs : List Nat) (sm : K × K) (vs : List K), GPoolInv sm vs →
      (∀ h ∈ hs, ∀ w ∈ ws, (mask w h n = 0 ∨ mask w h n = 1) ∧
        (mask w h n = 0 → inp c w h n = 0)) →
      GPoolInv (hs.foldl (fun sm h => ws.foldl (poolStepGPool inp mask n c h) sm) sm)
        (vs ++ hs.flatMap (fun h => validRow inp mask n c h ws))
  | [], sm, vs, hinv, _ => by simpa using hinv
  | h :: hs, sm, vs, hinv, hyp => by
    rw [List.foldl_cons, List.flatMap_cons, ← List.append_assoc]
    exact GPoolInv_rows inp mask n c ws hs _ _
      (GPoolInv_row inp mask n c h ws sm vs hinv (hyp h (List.mem_cons_self _ _)))
      (fun h' hh' => hyp h' (List.mem_cons_of_mem _ hh'))

/-- Every mask-1 position contributes its value to `validValues`. -/
theorem mem_validValues (inp : Nat → Nat → Nat → Nat → K) (mask : Nat → Nat → Nat → K)
    (xLen yLen n c w h : Nat) (hw : w < xLen) (hh : h < yLen) (hone : mask w h n = 1) :
    inp c w h n ∈ validValues inp mask xLen yLen n c := by
  unfold validValues validRow
  rw [List.mem_flatMap]
  refine ⟨h, List.mem_range.2 hh, ?_⟩
  rw [List.mem_filterMap]
  exact ⟨w, List.mem_range.2 hw, by rw [if_pos hone]⟩

/-- Every entry of `validValues` is the value at a mask-1 position. -/
theorem of_mem_validValues (inp : Nat → Nat → Nat → Nat → K) (mask : Nat → Nat → Nat → K)
    (xLen yLen n c : Nat) (v : K) (hv : v ∈ validValues inp mask xLen yLen n c) :
    ∃ w h, w < xLen ∧ h < yLen ∧ mask w h n = 1 ∧ v = inp c w h n := by
  unfold validValues validRow at hv
  rw [List.mem_flatMap] at hv
  obtain ⟨h, hh, hv⟩ := hv
  rw [List.mem_filterMap] at hv
  obtain ⟨w, hw, hv⟩ := hv
  by_cases hone : mask w h n = 1
  · rw [if_pos hone] at hv
    exact ⟨w, h, List.mem_range.1 hw, List.mem_range.1 hh, hone, (Option.some.inj hv).symm⟩
  · rw [if_neg hone] at hv
    exact absurd hv (by simp)

/-- C25: for a batch row `n` and a channel `c`, if the mask is 0 or 1 at every
position with at least one 1, the input is 0 at every mask-0 position and at
least -1 at every mask-1 position, then with `maskSum` computed by
`computeMaskSum` the first output of `poolRowsGPool` is the mean of the input
over the mask-1 positions (their sum divided by their number) and the third
output is the maximum of the input over the mask-1 positions: it is the value
at one of them and no value at a mask-1 position exceeds it. -/
theorem poolRowsGPool_mean_max (sqrt : K → K) (inp : Nat → Nat → Nat → Nat → K)
    (mask : Nat → Nat → Nat → K) (maskSum : Nat → K) (xLen yLen n c : Nat)
    (hsum : maskSum n = computeMaskSum mask xLen yLen n)
    (hmask : ∀ w h, w < xLen → h < yLen → mask w h n = 0 ∨ mask w h n = 1)
    (hone : ∃ w h, w < xLen ∧ h < yLen ∧ mask w h n = 1)
    (hzero : ∀ w h, w < xLen → h < yLen → mask w h n = 0 → inp c w h n = 0)
    (hlow : ∀ w h, w < xLen → h < yLen → mask w h n = 1 → -1 ≤ inp c w h n) :
    (poolRowsGPool sqrt inp mask maskSum xLen yLen n c).1
      = (validValues inp mask xLen yLen n c).sum
          / ((validValues inp mask xLen yLen n c).length : K) ∧
    (∃ w h, w < xLen ∧ h < yLen ∧ mask w h n = 1 ∧
      (poolRowsGPool sqrt inp mask maskSum xLen yLen n c).2.2 = inp c w h n) ∧
    (∀ w h, w < xLen → h < yLen → mask w h n = 1 →
      inp c w h n ≤ (poolRowsGPool sqrt inp mask maskSum xLen yLen n c).2.2) := by
  have hinv := GPoolInv_rows inp mask n c (List.range xLen) (List.range yLen) (0, -1) []
    ⟨rfl, fun v hv => absurd hv (List.not_mem_nil v), Or.inl rfl, le_refl _⟩
    (fun h hh w hw => ⟨hmask w h (List.mem_range.1 hw) (List.mem_range.1 hh),
      hzero w h (List.mem_range.1 hw) (List.mem_range.1 hh)⟩)
  rw [List.nil_append] at hinv
  have hcnt := computeMaskSum_rows inp mask n c (List.range xLen) (List.range yLen) 0 []
    (fun h hh w hw => hmask w h (List.mem_range.1 hw) (List.mem_range.1 hh)) (by simp)
  rw [List.nil_append] at hcnt
  obtain ⟨h1, h2, h3, _⟩ := hinv
  have hm : (poolRowsGPool sqrt inp mask maskSum xLen yLen n c).2.2
      = ((List.range yLen).foldl (fun sm h =>
          (List.range xLen).foldl (poolStepGPool inp mask n c h) sm) (0, -1)).2 := rfl
  rw [← hm] at h2 h3
  obtain ⟨w0, h0, hw0, hh0, hone0⟩ := hone
  have hmem0 := mem_validValues inp mask xLen yLen n c w0 h0 hw0 hh0 hone0
  refine ⟨?_, ?_, ?_⟩
  · show _ / maskSum n = _
    rw [hsum]
    unfold computeMaskSum
    rw [hcnt, h1]
    rfl
  · have hmemM : (poolRowsGPool sqrt inp mask maskSum xLen yLen n c).2.2
        ∈ validValues inp mask xLen yLen n c := by
      rcases h3 with h3 | h3
      · have hle := h2 _ hmem0
        have hge := hlow w0 h0 hw0 hh0 hone0
        have heq : inp c w0 h0 n = -1 := le_antisymm (by rw [← h3]; exact hle) hge
        rw [h3, ← heq]
        exact hmem0
      · exact h3
    obtain ⟨w, h, hw, hh, hm, hv⟩ := of_mem_validValues inp mask xLen yLen n c _ hmemM
    exact ⟨w, h, hw, hh, hm, hv⟩
  · intro w h hw hh hm
    exact h2 _ (mem_validValues inp mask xLen yLen n c w h hw hh hm)

end

/-- Instance of C25 on `samplePoolInput`: three mask-1 positions with values 3,
-1/2 and 1, mean 7/6 and maximum 3. -/
theorem poolRowsGPool_mean_max_witness :
    computeMaskSum samplePoolMask 2 2 0 = 3 ∧
    (poolRowsGPool (fun x => x) samplePoolInput samplePoolMask (fun _ => 3) 2 2 0 0).1 = 7 / 6 ∧
    (∀ w h, w < 2 → h < 2 → samplePoolMask w h 0 = 1 → samplePoolInput 0 w h 0
      ≤ (poolRowsGPool (fun x => x) samplePoolInput samplePoolMask (fun _ => 3) 2 2 0 0).2.2) ∧
    (poolRowsGPool (fun x => x) samplePoolInput samplePoolMask (fun _ => 3) 2 2 0 0).2.2 = 3 := by
  have hs : computeMaskSum samplePoolMask 2 2 0 = 3 := by
    norm_num [computeMaskSum, samplePoolMask, List.range_succ]
  have hcases : ∀ w h, w < 2 → h < 2 →
      (w = 0 ∧ h = 0) ∨ (w = 1 ∧ h = 0) ∨ (w = 0 ∧ h = 1) ∨ (w = 1 ∧ h = 1) := by
    intro w h hw hh
    omega
  have h := poolRowsGPool_mean_max (fun x => x) samplePoolInput samplePoolMask (fun _ => 3)
    2 2 0 0 hs.symm
    (by
      intro w h hw hh
      rcases hcases w h hw hh with ⟨rfl, rfl⟩ | ⟨rfl, rfl⟩ | ⟨rfl, rfl⟩ | ⟨rfl, rfl⟩ <;>
        norm_num [samplePoolMask])
    ⟨0, 0, by norm_num, by norm_num, by norm_num [samplePoolMask]⟩
    (by
      intro w h hw hh
      rcases hcases w h hw hh with ⟨rfl, rfl⟩ | ⟨rfl, rfl⟩ | ⟨rfl, rfl⟩ | ⟨rfl, rfl⟩ <;>
        norm_num [samplePoolMask, samplePoolInput])
    (by
      intro w h hw hh
      rcases hcases w h hw hh with ⟨rfl, rfl⟩ | ⟨rfl, rfl⟩ | ⟨rfl, rfl⟩ | ⟨rfl, rfl⟩ <;>
        norm_num [samplePoolMask, samplePoolInput])
  refine ⟨hs, ?_, h.2.2, ?_⟩
  · norm_num [poolRowsGPool, poolStepGPool, samplePoolInput, samplePoolMask, List.range_succ]
  · norm_num [poolRowsGPool, poolStepGPool, samplePoolInput, samplePoolMask, List.range_succ]

section
variable {K : Type} [LinearOrderedField K]

/-! ### The utility variance -/

end

theorem roundHalfEven_eq (t : ℚ) (m : Int) (h : |t - m| < 1 / 2) : roundHalfEven t = m := by
  rw [abs_lt] at h
  obtain ⟨h1, h2⟩ := h
  unfold roundHalfEven
  dsimp only
  rcases le_or_lt (m : ℚ) t with hle | hlt
  · have hf : ⌊t⌋ = m := Int.floor_eq_iff.2 ⟨hle, by linarith⟩
    rw [hf, if_pos (by linarith)]
  · have hf : ⌊t⌋ = m - 1 := Int.floor_eq_iff.2 ⟨by push_cast; linarith, by push_cast; linarith⟩
    rw [hf, if_neg (by push_cast; linarith), if_pos (by push_cast; linarith)]
    ring

/-- A positive rational in the binade `[2^(e+52), 2^(e+53))` that lies within
half a unit in the last place of `m * 2^e` rounds to `m * 2^e`. -/
theorem roundDouble_eq (x : ℚ) (e m : Int) (hlo : (2 : ℚ) ^ (e + 52) ≤ x)
    (hhi : x < (2 : ℚ) ^ (e + 53)) (hnear : |x - m * (2 : ℚ) ^ e| < (2 : ℚ) ^ e / 2) :
    roundDouble x = m * (2 : ℚ) ^ e := by
  have h2 : (0 : ℚ) < 2 ^ (e + 52) := zpow_pos (by norm_num) _
  have hx : 0 < x := lt_of_lt_of_le h2 hlo
  have hlog : Int.log 2 |x| = e + 52 := by
    rw [abs_of_pos hx]
    apply le_antisymm
    · have := (Int.lt_zpow_iff_log_lt (R := ℚ) (b := 2) (by norm_num) hx (x := e + 53)).1
        (by exact_mod_cast hhi)
      omega
    · exact (Int.zpow_le_iff_le_log (R := ℚ) (b := 2) (by norm_num) hx).1 (by exact_mod_cast hlo)
  have hu : (0 : ℚ) < 2 ^ e := zpow_pos (by norm_num) _
  unfold roundDouble
  rw [if_neg hx.ne']
  dsimp only
  rw [hlog]
  have he : e + 52 - 52 = e := by ring
  rw [he]
  congr 1
  have hr : roundHalfEven (x / 2 ^ e) = m := by
    apply roundHalfEven_eq
    have : x / 2 ^ e - m = (x - m * 2 ^ e) / 2 ^ e := by
      rw [sub_div, mul_div_assoc, div_self hu.ne', mul_one]
    rw [this, abs_div, abs_of_pos hu, div_lt_iff₀ hu]
    linarith
  rw [hr]

theorem roundHalfEven_tie (f : Int) :
    roundHalfEven ((f : ℚ) + 1 / 2) = if f % 2 = 0 then f else f + 1 := by
  have hf : ⌊(f : ℚ) + 1 / 2⌋ = f := Int.floor_eq_iff.2 ⟨by linarith, by linarith⟩
  unfold roundHalfEven
  dsimp only
  rw [hf, if_neg (by norm_num), if_neg (by norm_num)]

/-- A positive rational in the binade `[2^(e+52), 2^(e+53))` that lies half-way
between `f * 2^e` and `(f + 1) * 2^e` rounds to the one of them with the even
factor. -/
theorem roundDouble_tie (x : ℚ) (e f m : Int) (hlo : (2 : ℚ) ^ (e + 52) ≤ x)
    (hhi : x < (2 : ℚ) ^ (e + 53)) (htie : x = ((f : ℚ) + 1 / 2) * (2 : ℚ) ^ e)
    (hm : m = if f % 2 = 0 then f else f + 1) :
    roundDouble x = m * (2 : ℚ) ^ e := by
  have h2 : (0 : ℚ) < 2 ^ (e + 52) := zpow_pos (by norm_num) _
  have hx : 0 < x := lt_of_lt_of_le h2 hlo
  have hlog : Int.log 2 |x| = e + 52 := by
    rw [abs_of_pos hx]
    apply le_antisymm
    · have := (Int.lt_zpow_iff_log_lt (R := ℚ) (b := 2) (by norm_num) hx (x := e + 53)).1
        (by exact_mod_cast hhi)
      omega
    · exact (Int.zpow_le_iff_le_log (R := ℚ) (b := 2) (by norm_num) hx).1 (by exact_mod_cast hlo)
  have hu : (0 : ℚ) < 2 ^ e := zpow_pos (by norm_num) _
  unfold roundDouble
  rw [if_neg hx.ne']
  dsimp only
  rw [hlog]
  have he : e + 52 - 52 = e := by ring
  rw [he]
  congr 1
  have hdiv : x / 2 ^ e = (f : ℚ) + 1 / 2 := by
    rw [htie, mul_div_assoc, div_self hu.ne', mul_one]
  rw [hdiv, roundHalfEven_tie, hm]

theorem roundDouble_zero : roundDouble 0 = 0 := by
  unfold roundDouble
  rw [if_pos rfl]

theorem roundDouble_one : roundDouble 1 = 1 :=
  (roundDouble_eq _ (-52) 4503599627370496 (by norm_num) (by norm_num)
    (by norm_num [abs_lt])).trans (by norm_num)

/-- C8, as stated, fails in double arithmetic.  With `uncertaintyCoeff = 1`,
`uncertaintyMaxWeight = 49` and a powered uncertainty of 0 the code computes
`1 / (0 + 1/49) = 49.00000000000001 = 49 + 2^-47`, above `uncertaintyMaxWeight`;
with `uncertaintyMaxWeight = 1` and the powered uncertainty `2^-60`, which is
not 0, the sum `2^-60 + 1` rounds to 1 and the weight equals
`uncertaintyMaxWeight`. -/
theorem computeWeightFromNNOutput_rounding :
    poweredUncertaintyFl roundDouble sampleExternals (uncertaintyParams 1 49) (errorOutput 0) = 0 ∧
    computeWeightFromNNOutputFl roundDouble sampleExternals (uncertaintyParams 1 49)
      (errorOutput 0) = 49 + 1 / 2 ^ 47 ∧
    (uncertaintyParams 1 49).uncertaintyMaxWeight
      < computeWeightFromNNOutputFl roundDouble sampleExternals (uncertaintyParams 1 49)
          (errorOutput 0) ∧
    poweredUncertaintyFl roundDouble sampleExternals (uncertaintyParams 1 1)
      (errorOutput (1 / 2 ^ 60)) = 1 / 2 ^ 60 ∧
    computeWeightFromNNOutputFl roundDouble sampleExternals (uncertaintyParams 1 1)
      (errorOutput (1 / 2 ^ 60)) = (uncertaintyParams 1 1).uncertaintyMaxWeight := by
  have h0 : roundDouble (1 / 49) = 5882252574524729 / 288230376151711744 :=
    (roundDouble_eq _ (-58) 5882252574524729 (by norm_num) (by norm_num)
      (by norm_num [abs_lt])).trans (by norm_num)
  have h1 : roundDouble (5882252574524729 / 288230376151711744)
      = 5882252574524729 / 288230376151711744 :=
    (roundDouble_eq _ (-58) 5882252574524729 (by norm_num) (by norm_num)
      (by norm_num [abs_lt])).trans (by norm_num)
  have h2 : roundDouble (288230376151711744 / 5882252574524729)
      = 6896136929411073 / 140737488355328 :=
    (roundDouble_eq _ (-47) 6896136929411073 (by norm_num) (by norm_num)
      (by norm_num [abs_lt])).trans (by norm_num)
  have h4 : roundDouble (1 / 1152921504606846976) = 1 / 1152921504606846976 :=
    (roundDouble_eq _ (-112) 4503599627370496 (by norm_num) (by norm_num)
      (by norm_num [abs_lt])).trans (by norm_num)
  have h5 : roundDouble (1152921504606846977 / 1152921504606846976) = 1 :=
    (roundDouble_eq _ (-52) 4503599627370496 (by norm_num) (by norm_num)
      (by norm_num [abs_lt])).trans (by norm_num)
  have hw : computeWeightFromNNOutputFl roundDouble sampleExternals (uncertaintyParams 1 49)
      (errorOutput 0) = 49 + 1 / 2 ^ 47 := by
    norm_num [computeWeightFromNNOutputFl, poweredUncertaintyFl, uncertaintyParams, sampleParams,
      sampleExternals, errorOutput, roundDouble_zero, h0, h1, h2]
  refine ⟨?_, hw, ?_, ?_, ?_⟩
  · norm_num [poweredUncertaintyFl, uncertaintyParams, sampleParams, errorOutput,
      roundDouble_zero]
  · rw [hw]
    norm_num [uncertaintyParams]
  · norm_num [poweredUncertaintyFl, uncertaintyParams, sampleParams, errorOutput, h4]
  · norm_num [computeWeightFromNNOutputFl, poweredUncertaintyFl, uncertaintyParams, sampleParams,
      sampleExternals, errorOutput, roundDouble_one, h4, h5]

/-- C7, as stated, fails in double arithmetic with the libm values of
`libmSample`.  For `uncertaintyExponent = 0.5`, `uncertaintyCoeff = 1`,
`uncertaintyMaxWeight = 1` and the uncertainty `2921/4096 = 0.713134765625` the
code takes the `sqrt` path and returns `0.5421602604943447`, while the formula
of the specification with `pow` gives `0.5421602604943448`.  The value of `sqrt`
in the table is the double nearest to the square root, and the value of `pow` is
the double just below it. -/
theorem computeWeightFromNNOutput_sqrt_vs_pow :
    computeWeightFromNNOutputFl roundDouble libmSample (uncertaintyParams (1 / 2) 1)
      (errorOutput (2921 / 4096)) = 1220836373568711 / 2251799813685248 ∧
    specLeafWeightFl roundDouble libmSample (uncertaintyParams (1 / 2) 1)
      (errorOutput (2921 / 4096)) = 4883345494274845 / 9007199254740992 ∧
    computeWeightFromNNOutputFl roundDouble libmSample (uncertaintyParams (1 / 2) 1)
        (errorOutput (2921 / 4096))
      ≠ specLeafWeightFl roundDouble libmSample (uncertaintyParams (1 / 2) 1)
        (errorOutput (2921 / 4096)) ∧
    (libmSample.sqrt (2921 / 4096) - 1 / 2 ^ 54) * (libmSample.sqrt (2921 / 4096) - 1 / 2 ^ 54)
      < 2921 / 4096 ∧
    (2921 / 4096 : ℚ)
      < (libmSample.sqrt (2921 / 4096) + 1 / 2 ^ 54) * (libmSample.sqrt (2921 / 4096) + 1 / 2 ^ 54) ∧
    libmSample.pow (2921 / 4096) (1 / 2) = libmSample.sqrt (2921 / 4096) - 1 / 2 ^ 53 := by
  have h0 : roundDouble (2921 / 4096) = 2921 / 4096 :=
    (roundDouble_eq _ (-53) 6423346929467392 (by norm_num) (by norm_num)
      (by norm_num [abs_lt])).trans (by norm_num)
  have h2 : roundDouble (16613536459732731 / 9007199254740992) = 4153384114933183 / 2251799813685248 :=
    (roundDouble_tie _ (-52) 8306768229866365 8306768229866366 (by norm_num) (by norm_num)
      (by norm_num) (by decide)).trans (by norm_num)
  have h3 : roundDouble (2251799813685248 / 4153384114933183) = 1220836373568711 / 2251799813685248 :=
    (roundDouble_eq _ (-53) 4883345494274844 (by norm_num) (by norm_num)
      (by norm_num [abs_lt])).trans (by norm_num)
  have h4 : roundDouble (8306768229866365 / 4503599627370496) = 8306768229866365 / 4503599627370496 :=
    (roundDouble_eq _ (-52) 8306768229866365 (by norm_num) (by norm_num)
      (by norm_num [abs_lt])).trans (by norm_num)
  have h5 : roundDouble (4503599627370496 / 8306768229866365) = 4883345494274845 / 9007199254740992 :=
    (roundDouble_eq _ (-53) 4883345494274845 (by norm_num) (by norm_num)
      (by norm_num [abs_lt])).trans (by norm_num)
  have hc : computeWeightFromNNOutputFl roundDouble libmSample (uncertaintyParams (1 / 2) 1)
      (errorOutput (2921 / 4096)) = 1220836373568711 / 2251799813685248 := by
    norm_num [computeWeightFromNNOutputFl, poweredUncertaintyFl, uncertaintyParams, sampleParams,
      libmSample, sampleExternals, errorOutput, roundDouble_one, h0, h2, h3]
  have hs : specLeafWeightFl roundDouble libmSample (uncertaintyParams (1 / 2) 1)
      (errorOutput (2921 / 4096)) = 4883345494274845 / 9007199254740992 := by
    norm_num [specLeafWeightFl, uncertaintyParams, sampleParams,
      libmSample, sampleExternals, errorOutput, roundDouble_one, h0, h4, h5]
  refine ⟨hc, hs, ?_, ?_, ?_, ?_⟩
  · rw [hc, hs]
    norm_num
  · norm_num [libmSample]
  · norm_num [libmSample]
  · norm_num [libmSample]

/-- C4, as stated, fails in double arithmetic.  At a root with root noise
enabled and `chosenMoveSubtract = chosenMovePrune = 1`, for two children of
weights 21 and 154 whose values are all 1 and an NN evaluation of value 1 and
weight 1, the weights 20 and 153 left by the subtraction are rescaled by
`175/173` to `20.23121387283237` and `154.76878612716766`, which sum to
`175.00000000000003`, while the divisor is `175 + 1`: the code publishes
`winLossValueAvg = 1.0000000000000002 = 1 + 2^-52`. -/
theorem recomputeNodeStats_rounding_exceeds_one :
    (adjustedChildrenFl roundDouble sampleExternals rootNoiseParams roundingNode true).map
        (fun s => s.weightAdjusted)
      = [355911278355237 / 17592186044416, 5445442558835127 / 35184372088832] ∧
    (recomputeNodeStatsFl roundDouble sampleExternals rootNoiseParams roundingNode 1 true).weightSum
      = 176 ∧
    (recomputeNodeStatsFl roundDouble sampleExternals rootNoiseParams roundingNode 1
      true).winLossValueAvg = 1 + 1 / 2 ^ 52 ∧
    1 < |(recomputeNodeStatsFl roundDouble sampleExternals rootNoiseParams roundingNode 1
      true).winLossValueAvg| := by
  have h0 : roundDouble (21) = 21 :=
    (roundDouble_eq _ (-48) 5910974510923776 (by norm_num) (by norm_num)
      (by norm_num [abs_lt])).trans (by norm_num)
  have h1 : roundDouble (175) = 175 :=
    (roundDouble_eq _ (-45) 6157265115545600 (by norm_num) (by norm_num)
      (by norm_num [abs_lt])).trans (by norm_num)
  have h2 : roundDouble (77 / 32) = 77 / 32 :=
    (roundDouble_eq _ (-51) 5418393301680128 (by norm_num) (by norm_num)
      (by norm_num [abs_lt])).trans (by norm_num)
  have h3 : roundDouble (20) = 20 :=
    (roundDouble_eq _ (-48) 5629499534213120 (by norm_num) (by norm_num)
      (by norm_num [abs_lt])).trans (by norm_num)
  have h4 : roundDouble (174) = 174 :=
    (roundDouble_eq _ (-45) 6122080743456768 (by norm_num) (by norm_num)
      (by norm_num [abs_lt])).trans (by norm_num)
  have h5 : roundDouble (153) = 153 :=
    (roundDouble_eq _ (-45) 5383208929591296 (by norm_num) (by norm_num)
      (by norm_num [abs_lt])).trans (by norm_num)
  have h6 : roundDouble (173) = 173 :=
    (roundDouble_eq _ (-45) 6086896371367936 (by norm_num) (by norm_num)
      (by norm_num [abs_lt])).trans (by norm_num)
  have h7 : roundDouble (175 / 173) = 2277832181473517 / 2251799813685248 :=
    (roundDouble_eq _ (-52) 4555664362947034 (by norm_num) (by norm_num)
      (by norm_num [abs_lt])).trans (by norm_num)
  have h8 : roundDouble (11389160907367585 / 562949953421312) = 355911278355237 / 17592186044416 :=
    (roundDouble_tie _ (-48) 5694580453683792 5694580453683792 (by norm_num) (by norm_num)
      (by norm_num) (by decide)).trans (by norm_num)
  have h9 : roundDouble (348508323765448101 / 2251799813685248) = 5445442558835127 / 35184372088832 :=
    (roundDouble_eq _ (-45) 5445442558835127 (by norm_num) (by norm_num)
      (by norm_num [abs_lt])).trans (by norm_num)
  have h11 : roundDouble (355911278355237 / 17592186044416) = 355911278355237 / 17592186044416 :=
    (roundDouble_eq _ (-48) 5694580453683792 (by norm_num) (by norm_num)
      (by norm_num [abs_lt])).trans (by norm_num)
  have h16 : roundDouble (5445442558835127 / 35184372088832) = 5445442558835127 / 35184372088832 :=
    (roundDouble_eq _ (-45) 5445442558835127 (by norm_num) (by norm_num)
      (by norm_num [abs_lt])).trans (by norm_num)
  have h17 : roundDouble (6157265115545601 / 35184372088832) = 6157265115545601 / 35184372088832 :=
    (roundDouble_eq _ (-45) 6157265115545601 (by norm_num) (by norm_num)
      (by norm_num [abs_lt])).trans (by norm_num)
  have h22 : roundDouble (6192449487634433 / 35184372088832) = 6192449487634433 / 35184372088832 :=
    (roundDouble_eq _ (-45) 6192449487634433 (by norm_num) (by norm_num)
      (by norm_num [abs_lt])).trans (by norm_num)
  have h24 : roundDouble (176) = 176 :=
    (roundDouble_eq _ (-45) 6192449487634432 (by norm_num) (by norm_num)
      (by norm_num [abs_lt])).trans (by norm_num)
  have h25 : roundDouble (6192449487634433 / 6192449487634432) = 4503599627370497 / 4503599627370496 :=
    (roundDouble_eq _ (-52) 4503599627370497 (by norm_num) (by norm_num)
      (by norm_num [abs_lt])).trans (by norm_num)
  have hcol : collectChildren sampleExternals Player.white roundingNode.children
      = [⟨⟨21, 1, 0, 1, 1, 21, 21⟩, 1, 21, 0⟩, ⟨⟨154, 1, 0, 1, 1, 154, 154⟩, 1, 154, 1⟩] := by
    norm_num [collectChildren, roundingNode, sampleExternals, specChildWeight]
  have htot : origTotalChildWeightFl roundDouble sampleExternals roundingNode = 175 := by
    unfold origTotalChildWeightFl
    rw [show roundingNode.nextPla = Player.white from rfl, hcol]
    norm_num [h0, h1]
  have hprune : noisePrunedChildrenFl roundDouble sampleExternals rootNoiseParams roundingNode
      = ([⟨⟨21, 1, 0, 1, 1, 21, 21⟩, 1, 21, 0⟩, ⟨⟨154, 1, 0, 1, 1, 154, 154⟩, 1, 154, 1⟩], 175) := by
    unfold noisePrunedChildrenFl
    rw [show roundingNode.nextPla = Player.white from rfl, hcol, htot]
    norm_num [rootNoiseParams, subtractParams]
  have hadj : adjustedChildrenFl roundDouble sampleExternals rootNoiseParams roundingNode true
      = [⟨⟨21, 1, 0, 1, 1, 21, 21⟩, 1, 355911278355237 / 17592186044416, 0⟩,
         ⟨⟨154, 1, 0, 1, 1, 154, 154⟩, 1, 5445442558835127 / 35184372088832, 1⟩] := by
    unfold adjustedChildrenFl
    rw [hprune]
    have h2n : ((2 : Nat) : Int).toNat = 2 := rfl
    norm_num [h2n, rootAmountsFl, maxChildWeightLoop, downweightBadChildrenAndNormalizeWeightFl,
      subtractPruneLoopFl, scaleWeightsFl, rootNoiseParams, subtractParams, roundDouble_one,
      h2, h3, h4, h5, h6, h7, h8, h9]
  have hws : (recomputeNodeStatsFl roundDouble sampleExternals rootNoiseParams roundingNode 1
      true).weightSum = 176 := by
    unfold recomputeNodeStatsFl
    rw [hprune]
    norm_num [computeWeightFromNNOutputFl, rootNoiseParams, subtractParams, h24]
  have hwl : (recomputeNodeStatsFl roundDouble sampleExternals rootNoiseParams roundingNode 1
      true).winLossValueAvg = 1 + 1 / 2 ^ 52 := by
    unfold recomputeNodeStatsFl
    rw [hprune, hadj]
    norm_num [childSumsFl, computeWeightFromNNOutputFl, rootNoiseParams, subtractParams,
      roundingNode, roundDouble_zero, roundDouble_one, h11, h16, h17, h22, h24, h25]
  refine ⟨?_, hws, hwl, ?_⟩
  · rw [hadj]
    rfl
  · rw [hwl]
    norm_num [abs_of_pos]

end KataSearch
